import Mathlib

/-!
# RP2040 peripheral models: UART, GPIO and timer

A shallow embedding of the device models in `hw/char/rp2040_uart.c`,
`hw/gpio/rp2040_gpio.c` and `hw/timer/rp2040_timer.c`, and of the memory map
that `hw/arm/rp2040.c` composes.

Conventions of the embedding:

* a `uint32_t` register is a `Nat`; where the C code stores a 64-bit bus
  value into a 32-bit field the store is written `u32 value`, and the
  complement `~x` seen through a 32-bit field is `not32 x`;
* a C array is a total map from the index to the element; the code indexes
  its arrays in bounds (`pin < 30`, `reg < 4`, FIFO cursors below 32);
* an output line driven by `qemu_set_irq` is a `Bool` field holding the
  level most recently driven on the line;
* the bytes handed to `qemu_chr_fe_write` are appended to the list `chr`;
* the virtual clock (`qemu_clock_get_us`) is an explicit argument `now`; the
  QEMU timer of an alarm is the expiry time of its pending callback, if any;
* the unused `size` argument of the register accessors is dropped.
-/

namespace Rp2040

/-! ## Machine words -/

/-- Truncation of a bus value to a `uint32_t` field. -/
def u32 (x : Nat) : Nat := x % 4294967296

/-- Truncation of a value to a `uint64_t`. -/
def u64 (x : Nat) : Nat := x % 18446744073709551616

/-- The bitwise complement of `x` as seen through a `uint32_t` field. -/
def not32 (x : Nat) : Nat := 4294967296 - (x % 4294967296 + 1)

/-! ## UART (`hw/char/rp2040_uart.c`) -/

@[match_pattern] def UART_DR : Nat := 0x000
@[match_pattern] def UART_RSR : Nat := 0x004
@[match_pattern] def UART_ECR : Nat := 0x004
@[match_pattern] def UART_FR : Nat := 0x018
@[match_pattern] def UART_ILPR : Nat := 0x020
@[match_pattern] def UART_IBRD : Nat := 0x024
@[match_pattern] def UART_FBRD : Nat := 0x028
@[match_pattern] def UART_LCR_H : Nat := 0x02C
@[match_pattern] def UART_CR : Nat := 0x030
@[match_pattern] def UART_IFLS : Nat := 0x034
@[match_pattern] def UART_IMSC : Nat := 0x038
@[match_pattern] def UART_RIS : Nat := 0x03C
@[match_pattern] def UART_MIS : Nat := 0x040
@[match_pattern] def UART_ICR : Nat := 0x044
@[match_pattern] def UART_DMACR : Nat := 0x048

def FR_RXFE : Nat := 1 <<< 4
def FR_TXFF : Nat := 1 <<< 5
def FR_RXFF : Nat := 1 <<< 6
def FR_TXFE : Nat := 1 <<< 7

def CR_UARTEN : Nat := 1 <<< 0
def CR_TXE : Nat := 1 <<< 8
def CR_RXE : Nat := 1 <<< 9

def INT_RX : Nat := 1 <<< 4
def INT_TX : Nat := 1 <<< 5
def INT_OE : Nat := 1 <<< 10

def FIFO_SIZE : Nat := 32

/-- The device state `RP2040UARTState`: the registers, the receive FIFO,
the level of the interrupt line and the bytes sent to the serial transport. -/
structure RP2040UARTState where
  dr : Nat
  rsr : Nat
  fr : Nat
  ilpr : Nat
  ibrd : Nat
  fbrd : Nat
  lcr_h : Nat
  cr : Nat
  ifls : Nat
  imsc : Nat
  ris : Nat
  mis : Nat
  dmacr : Nat
  rx_fifo : Nat → Nat
  rx_fifo_len : Nat
  rx_fifo_rd : Nat
  rx_fifo_wr : Nat
  tx_fifo_len : Nat
  irq : Bool
  chr : List Nat

/-- The flag word computed by `rp2040_uart_update` from the FIFO lengths. -/
def uart_flags (rx_len tx_len : Nat) : Nat :=
  let flags := 0
  let flags := if rx_len = 0 then flags ||| FR_RXFE else flags
  let flags := if rx_len = FIFO_SIZE then flags ||| FR_RXFF else flags
  let flags := if tx_len = 0 then flags ||| FR_TXFE else flags
  let flags := if tx_len = FIFO_SIZE then flags ||| FR_TXFF else flags
  flags

/-- Recompute the flag register, the masked status and the line
(`rp2040_uart_update`). -/
def rp2040_uart_update (s : RP2040UARTState) : RP2040UARTState :=
  let mis := s.ris &&& s.imsc
  { s with fr := uart_flags s.rx_fifo_len s.tx_fifo_len, mis := mis, irq := decide (mis ≠ 0) }

/-- Register read (`rp2040_uart_read`): the value returned and the state left. -/
def rp2040_uart_read (s : RP2040UARTState) (offset : Nat) : Nat × RP2040UARTState :=
  match offset with
  | UART_DR =>
    if s.rx_fifo_len > 0 then
      let val := s.rx_fifo s.rx_fifo_rd
      let s1 := { s with rx_fifo_rd := u32 (s.rx_fifo_rd + 1) % FIFO_SIZE,
                         rx_fifo_len := s.rx_fifo_len - 1 }
      let s2 := if s1.rx_fifo_len = 0 then { s1 with ris := s1.ris &&& not32 INT_RX } else s1
      (val, rp2040_uart_update s2)
    else (0, s)
  | UART_RSR => (s.rsr, s)
  | UART_FR => (s.fr, s)
  | UART_ILPR => (s.ilpr, s)
  | UART_IBRD => (s.ibrd, s)
  | UART_FBRD => (s.fbrd, s)
  | UART_LCR_H => (s.lcr_h, s)
  | UART_CR => (s.cr, s)
  | UART_IFLS => (s.ifls, s)
  | UART_IMSC => (s.imsc, s)
  | UART_RIS => (s.ris, s)
  | UART_MIS => (s.mis, s)
  | UART_DMACR => (s.dmacr, s)
  | _ => (0, s)

/-- Register write (`rp2040_uart_write`). -/
def rp2040_uart_write (s : RP2040UARTState) (offset value : Nat) : RP2040UARTState :=
  match offset with
  | UART_DR =>
    let ch := value % 256
    if s.cr &&& CR_UARTEN ≠ 0 then
      if s.cr &&& CR_TXE ≠ 0 then
        rp2040_uart_update { s with chr := s.chr ++ [ch], ris := s.ris ||| INT_TX }
      else s
    else s
  | UART_ECR => { s with rsr := 0 }
  | UART_FR => s
  | UART_ILPR => { s with ilpr := u32 value }
  | UART_IBRD => { s with ibrd := u32 value }
  | UART_FBRD => { s with fbrd := u32 value }
  | UART_LCR_H => { s with lcr_h := u32 value }
  | UART_CR => { s with cr := u32 value }
  | UART_IFLS => { s with ifls := u32 value }
  | UART_IMSC => rp2040_uart_update { s with imsc := u32 value }
  | UART_ICR => rp2040_uart_update { s with ris := s.ris &&& not32 value }
  | UART_DMACR => { s with dmacr := u32 value }
  | _ => s

/-- The loop of `rp2040_uart_rx` over the bytes of the buffer: a byte is
stored at the write cursor while there is room, the first byte that finds the
FIFO full sets the overrun bit and ends the loop. -/
def uart_rx_loop (s : RP2040UARTState) : List Nat → RP2040UARTState
  | [] => s
  | b :: rest =>
    if s.rx_fifo_len < FIFO_SIZE then
      uart_rx_loop
        { s with rx_fifo := Function.update s.rx_fifo s.rx_fifo_wr (b % 256),
                 rx_fifo_wr := u32 (s.rx_fifo_wr + 1) % FIFO_SIZE,
                 rx_fifo_len := s.rx_fifo_len + 1,
                 ris := s.ris ||| INT_RX } rest
    else { s with ris := s.ris ||| INT_OE }

/-- Bytes arriving from the serial transport (`rp2040_uart_rx`); `buf` is the
buffer, its length the `size` argument. -/
def rp2040_uart_rx (s : RP2040UARTState) (buf : List Nat) : RP2040UARTState :=
  if s.cr &&& CR_UARTEN = 0 ∨ s.cr &&& CR_RXE = 0 then s
  else rp2040_uart_update (uart_rx_loop s buf)

/-- The capacity reported to the serial transport (`rp2040_uart_can_rx`). The
length never exceeds `FIFO_SIZE` in a state reachable from reset, so the
unsigned subtraction of the source does not wrap there. -/
def rp2040_uart_can_rx (s : RP2040UARTState) : Nat :=
  if s.cr &&& CR_UARTEN = 0 ∨ s.cr &&& CR_RXE = 0 then 0
  else FIFO_SIZE - s.rx_fifo_len

/-- Device reset (`rp2040_uart_reset`); the FIFO storage, the line and the
transport are not touched by the assignments, the line is then driven by the
closing `rp2040_uart_update`. -/
def rp2040_uart_reset (s : RP2040UARTState) : RP2040UARTState :=
  rp2040_uart_update
    { s with dr := 0, rsr := 0, fr := FR_TXFE ||| FR_RXFE, ilpr := 0, ibrd := 0, fbrd := 0,
             lcr_h := 0, cr := CR_TXE ||| CR_RXE, ifls := 0x12, imsc := 0, ris := 0, mis := 0,
             dmacr := 0, rx_fifo_len := 0, rx_fifo_rd := 0, rx_fifo_wr := 0, tx_fifo_len := 0 }

/-- The UART states reachable from a reset through register reads, register
writes and receive events. -/
inductive UartReachable : RP2040UARTState → Prop
  | reset (s0 : RP2040UARTState) : UartReachable (rp2040_uart_reset s0)
  | read (s : RP2040UARTState) (offset : Nat) :
      UartReachable s → UartReachable (rp2040_uart_read s offset).2
  | write (s : RP2040UARTState) (offset value : Nat) :
      UartReachable s → UartReachable (rp2040_uart_write s offset value)
  | rx (s : RP2040UARTState) (buf : List Nat) :
      UartReachable s → UartReachable (rp2040_uart_rx s buf)

/-- The result of `n` successive reads of the data register: the values read,
in order, and the state left. -/
def uart_read_dr : Nat → RP2040UARTState → List Nat × RP2040UARTState
  | 0, s => ([], s)
  | n + 1, s =>
    let r := rp2040_uart_read s UART_DR
    let rs := uart_read_dr n r.2
    (r.1 :: rs.1, rs.2)

/-- Deliver the buffers of `bufs` one receive event after the other. -/
def uart_rx_all (s : RP2040UARTState) (bufs : List (List Nat)) : RP2040UARTState :=
  bufs.foldl rp2040_uart_rx s

/-- An all-zero UART state, as allocated before the first reset. -/
def uart_zero : RP2040UARTState :=
  { dr := 0, rsr := 0, fr := 0, ilpr := 0, ibrd := 0, fbrd := 0, lcr_h := 0, cr := 0, ifls := 0,
    imsc := 0, ris := 0, mis := 0, dmacr := 0, rx_fifo := fun _ => 0, rx_fifo_len := 0,
    rx_fifo_rd := 0, rx_fifo_wr := 0, tx_fifo_len := 0, irq := false, chr := [] }

/-- The invariant kept by every UART operation: the derived registers agree
with the state they are derived from and the FIFO cursors describe a ring of
`rx_fifo_len` live slots. -/
structure UartInv (s : RP2040UARTState) : Prop where
  fr_eq : s.fr = uart_flags s.rx_fifo_len s.tx_fifo_len
  mis_eq : s.mis = s.ris &&& s.imsc
  irq_eq : s.irq = decide (s.ris &&& s.imsc ≠ 0)
  len_le : s.rx_fifo_len ≤ 32
  rd_lt : s.rx_fifo_rd < 32
  wr_eq : s.rx_fifo_wr = (s.rx_fifo_rd + s.rx_fifo_len) % 32
  tx_zero : s.tx_fifo_len = 0

/-- The live bytes of the receive FIFO, oldest first: the `rx_fifo_len`
slots of the ring that start at the read cursor. -/
def uart_fifo_contents (s : RP2040UARTState) : List Nat :=
  (List.range s.rx_fifo_len).map (fun i => s.rx_fifo ((s.rx_fifo_rd + i) % 32))

/-- A reachable UART state whose receive FIFO is full: after reset the
receiver is enabled (0x301 written to the control register) and 32 bytes are
delivered in one receive event. -/
def uart_full_state : RP2040UARTState :=
  rp2040_uart_rx (rp2040_uart_write (rp2040_uart_reset uart_zero) UART_CR 0x301)
    (List.replicate 32 7)

/-- A reachable UART state whose receive FIFO holds 31 bytes: after reset the
receiver is enabled and 31 bytes are delivered in one receive event. -/
def uart_one_free_state : RP2040UARTState :=
  rp2040_uart_rx (rp2040_uart_write (rp2040_uart_reset uart_zero) UART_CR 0x301)
    (List.replicate 31 7)

/-- The offsets that `rp2040_uart_read` decodes as a register. -/
def uart_read_offsets : List Nat :=
  [UART_DR, UART_RSR, UART_FR, UART_ILPR, UART_IBRD, UART_FBRD, UART_LCR_H, UART_CR, UART_IFLS,
    UART_IMSC, UART_RIS, UART_MIS, UART_DMACR]

/-- The offsets at which `rp2040_uart_write` has an effect. -/
def uart_write_offsets : List Nat :=
  [UART_DR, UART_ECR, UART_ILPR, UART_IBRD, UART_FBRD, UART_LCR_H, UART_CR, UART_IFLS,
    UART_IMSC, UART_ICR, UART_DMACR]

/-- The full FIFO of `uart_full_state` after the guest has cleared the
receive interrupt: INT_RX is written to the interrupt-clear register. -/
def uart_full_rx_cleared : RP2040UARTState :=
  rp2040_uart_write uart_full_state UART_ICR INT_RX

/-! ## GPIO (`hw/gpio/rp2040_gpio.c`) -/

def GPIO_NUM_PINS : Nat := 30

@[match_pattern] def INTR0 : Nat := 0x0F0
@[match_pattern] def INTR1 : Nat := 0x0F4
@[match_pattern] def INTR2 : Nat := 0x0F8
@[match_pattern] def INTR3 : Nat := 0x0FC
@[match_pattern] def PROC0_INTE0 : Nat := 0x100
@[match_pattern] def PROC0_INTE1 : Nat := 0x104
@[match_pattern] def PROC0_INTE2 : Nat := 0x108
@[match_pattern] def PROC0_INTE3 : Nat := 0x10C
@[match_pattern] def PROC0_INTF0 : Nat := 0x110
@[match_pattern] def PROC0_INTF1 : Nat := 0x114
@[match_pattern] def PROC0_INTF2 : Nat := 0x118
@[match_pattern] def PROC0_INTF3 : Nat := 0x11C
@[match_pattern] def PROC0_INTS0 : Nat := 0x120
@[match_pattern] def PROC0_INTS1 : Nat := 0x124
@[match_pattern] def PROC0_INTS2 : Nat := 0x128
@[match_pattern] def PROC0_INTS3 : Nat := 0x12C
@[match_pattern] def PROC1_INTE0 : Nat := 0x130
@[match_pattern] def PROC1_INTE1 : Nat := 0x134
@[match_pattern] def PROC1_INTE2 : Nat := 0x138
@[match_pattern] def PROC1_INTE3 : Nat := 0x13C
@[match_pattern] def PROC1_INTF0 : Nat := 0x140
@[match_pattern] def PROC1_INTF1 : Nat := 0x144
@[match_pattern] def PROC1_INTF2 : Nat := 0x148
@[match_pattern] def PROC1_INTF3 : Nat := 0x14C
@[match_pattern] def PROC1_INTS0 : Nat := 0x150
@[match_pattern] def PROC1_INTS1 : Nat := 0x154
@[match_pattern] def PROC1_INTS2 : Nat := 0x158
@[match_pattern] def PROC1_INTS3 : Nat := 0x15C

def FUNCSEL_SIO : Nat := 5
def FUNCSEL_NULL : Nat := 31

def INT_LEVEL_LOW : Nat := 1 <<< 0
def INT_LEVEL_HIGH : Nat := 1 <<< 1
def INT_EDGE_LOW : Nat := 1 <<< 2
def INT_EDGE_HIGH : Nat := 1 <<< 3

/-- Offset of the STATUS register of a pin (`GPIO_STATUS(pin)`). -/
def GPIO_STATUS (pin : Nat) : Nat := 0x000 + pin * 8

/-- Offset of the CTRL register of a pin (`GPIO_CTRL(pin)`). -/
def GPIO_CTRL (pin : Nat) : Nat := 0x004 + pin * 8

/-- The device state `RP2040GPIOState`: the per-pin registers, the interrupt
registers and the levels of the two per-core interrupt lines. -/
structure RP2040GPIOState where
  status : Nat → Nat
  ctrl : Nat → Nat
  intr : Nat → Nat
  proc0_inte : Nat → Nat
  proc0_intf : Nat → Nat
  proc1_inte : Nat → Nat
  proc1_intf : Nat → Nat
  proc0_irq : Bool
  proc1_irq : Bool

/-- One iteration of the loop of `rp2040_gpio_update_irq`, for pin `i`, on the
pair `(proc0_status, proc1_status)`. -/
def gpio_irq_step (s : RP2040GPIOState) (acc : Nat × Nat) (i : Nat) : Nat × Nat :=
  let reg := i / 8
  let bit := (i % 8) * 4
  if s.intr reg &&& (0xF <<< bit) ≠ 0 then
    let p0 := if s.proc0_inte reg &&& (0xF <<< bit) ≠ 0 then 1 else acc.1
    let p1 := if s.proc1_inte reg &&& (0xF <<< bit) ≠ 0 then 1 else acc.2
    (p0, p1)
  else acc

/-- The pair `(proc0_status, proc1_status)` after the loop over the 30 pins. -/
def gpio_irq_status (s : RP2040GPIOState) : Nat × Nat :=
  (List.range GPIO_NUM_PINS).foldl (gpio_irq_step s) (0, 0)

/-- Recompute the two interrupt lines (`rp2040_gpio_update_irq`). -/
def rp2040_gpio_update_irq (s : RP2040GPIOState) : RP2040GPIOState :=
  let st := gpio_irq_status s
  { s with proc0_irq := decide (st.1 ≠ 0), proc1_irq := decide (st.2 ≠ 0) }

/-- Register read (`rp2040_gpio_read`): the value returned and the state left. -/
def rp2040_gpio_read (s : RP2040GPIOState) (offset : Nat) : Nat × RP2040GPIOState :=
  if offset < 0xF0 then
    let pin := offset / 8
    if pin < GPIO_NUM_PINS then
      if offset &&& 7 = 0 then (s.status pin, s) else (s.ctrl pin, s)
    else (0, s)
  else
    match offset with
    | INTR0 => (s.intr 0, s)
    | INTR1 => (s.intr 1, s)
    | INTR2 => (s.intr 2, s)
    | INTR3 => (s.intr 3, s)
    | PROC0_INTE0 => (s.proc0_inte 0, s)
    | PROC0_INTE1 => (s.proc0_inte 1, s)
    | PROC0_INTE2 => (s.proc0_inte 2, s)
    | PROC0_INTE3 => (s.proc0_inte 3, s)
    | PROC0_INTF0 => (s.proc0_intf 0, s)
    | PROC0_INTF1 => (s.proc0_intf 1, s)
    | PROC0_INTF2 => (s.proc0_intf 2, s)
    | PROC0_INTF3 => (s.proc0_intf 3, s)
    | PROC0_INTS0 => (s.intr 0 &&& s.proc0_inte 0, s)
    | PROC0_INTS1 => (s.intr 1 &&& s.proc0_inte 1, s)
    | PROC0_INTS2 => (s.intr 2 &&& s.proc0_inte 2, s)
    | PROC0_INTS3 => (s.intr 3 &&& s.proc0_inte 3, s)
    | PROC1_INTE0 => (s.proc1_inte 0, s)
    | PROC1_INTE1 => (s.proc1_inte 1, s)
    | PROC1_INTE2 => (s.proc1_inte 2, s)
    | PROC1_INTE3 => (s.proc1_inte 3, s)
    | PROC1_INTF0 => (s.proc1_intf 0, s)
    | PROC1_INTF1 => (s.proc1_intf 1, s)
    | PROC1_INTF2 => (s.proc1_intf 2, s)
    | PROC1_INTF3 => (s.proc1_intf 3, s)
    | PROC1_INTS0 => (s.intr 0 &&& s.proc1_inte 0, s)
    | PROC1_INTS1 => (s.intr 1 &&& s.proc1_inte 1, s)
    | PROC1_INTS2 => (s.intr 2 &&& s.proc1_inte 2, s)
    | PROC1_INTS3 => (s.intr 3 &&& s.proc1_inte 3, s)
    | _ => (0, s)

/-- Register write (`rp2040_gpio_write`). -/
def rp2040_gpio_write (s : RP2040GPIOState) (offset value : Nat) : RP2040GPIOState :=
  if offset < 0xF0 then
    let pin := offset / 8
    if pin < GPIO_NUM_PINS then
      if offset &&& 7 = 0 then s
      else
        let s1 := { s with ctrl := Function.update s.ctrl pin (u32 value) }
        let funcsel := value &&& 0x1F
        if funcsel = FUNCSEL_SIO then
          { s1 with status := Function.update s1.status pin
                      ((s1.status pin &&& not32 0x1F) ||| funcsel) }
        else s1
    else s
  else
    match offset with
    | INTR0 | INTR1 | INTR2 | INTR3 =>
      let r := (offset - INTR0) / 4
      rp2040_gpio_update_irq
        { s with intr := Function.update s.intr r (s.intr r &&& not32 value) }
    | PROC0_INTE0 =>
      rp2040_gpio_update_irq
        { s with proc0_inte := Function.update s.proc0_inte 0 (u32 value) }
    | PROC0_INTE1 =>
      rp2040_gpio_update_irq
        { s with proc0_inte := Function.update s.proc0_inte 1 (u32 value) }
    | PROC0_INTE2 =>
      rp2040_gpio_update_irq
        { s with proc0_inte := Function.update s.proc0_inte 2 (u32 value) }
    | PROC0_INTE3 =>
      rp2040_gpio_update_irq
        { s with proc0_inte := Function.update s.proc0_inte 3 (u32 value) }
    | PROC0_INTF0 => { s with proc0_intf := Function.update s.proc0_intf 0 (u32 value) }
    | PROC0_INTF1 => { s with proc0_intf := Function.update s.proc0_intf 1 (u32 value) }
    | PROC0_INTF2 => { s with proc0_intf := Function.update s.proc0_intf 2 (u32 value) }
    | PROC0_INTF3 => { s with proc0_intf := Function.update s.proc0_intf 3 (u32 value) }
    | PROC1_INTE0 =>
      rp2040_gpio_update_irq
        { s with proc1_inte := Function.update s.proc1_inte 0 (u32 value) }
    | PROC1_INTE1 =>
      rp2040_gpio_update_irq
        { s with proc1_inte := Function.update s.proc1_inte 1 (u32 value) }
    | PROC1_INTE2 =>
      rp2040_gpio_update_irq
        { s with proc1_inte := Function.update s.proc1_inte 2 (u32 value) }
    | PROC1_INTE3 =>
      rp2040_gpio_update_irq
        { s with proc1_inte := Function.update s.proc1_inte 3 (u32 value) }
    | PROC1_INTF0 => { s with proc1_intf := Function.update s.proc1_intf 0 (u32 value) }
    | PROC1_INTF1 => { s with proc1_intf := Function.update s.proc1_intf 1 (u32 value) }
    | PROC1_INTF2 => { s with proc1_intf := Function.update s.proc1_intf 2 (u32 value) }
    | PROC1_INTF3 => { s with proc1_intf := Function.update s.proc1_intf 3 (u32 value) }
    | _ => s

/-- The conditions `int_status` that `rp2040_gpio_set_input` raises for a pin
whose CTRL mask is `int_mask`, whose previous level is `old_level` and whose
new level is `level`. -/
def gpio_int_status (int_mask old_level : Nat) (level : Int) : Nat :=
  let int_status := 0
  let int_status :=
    if int_mask &&& INT_LEVEL_LOW ≠ 0 ∧ level = 0 then int_status ||| INT_LEVEL_LOW
    else int_status
  let int_status :=
    if int_mask &&& INT_LEVEL_HIGH ≠ 0 ∧ level ≠ 0 then int_status ||| INT_LEVEL_HIGH
    else int_status
  let int_status :=
    if int_mask &&& INT_EDGE_LOW ≠ 0 ∧ old_level ≠ 0 ∧ level = 0 then int_status ||| INT_EDGE_LOW
    else int_status
  let int_status :=
    if int_mask &&& INT_EDGE_HIGH ≠ 0 ∧ old_level = 0 ∧ level ≠ 0 then
      int_status ||| INT_EDGE_HIGH
    else int_status
  int_status

/-- The update of the input-level bit (bit 17) of the STATUS register of a
pin in `rp2040_gpio_set_input`. -/
def gpio_store_level (s : RP2040GPIOState) (pin : Nat) (level : Int) : RP2040GPIOState :=
  if level ≠ 0 then
    { s with status := Function.update s.status pin (s.status pin ||| (1 <<< 17)) }
  else
    { s with status := Function.update s.status pin (s.status pin &&& not32 (1 <<< 17)) }

/-- Report the level of a pin (`rp2040_gpio_set_input`); `pin` is a
non-negative pin number, `level` the C integer whose truth value is the level. -/
def rp2040_gpio_set_input (s : RP2040GPIOState) (pin : Nat) (level : Int) : RP2040GPIOState :=
  if pin ≥ GPIO_NUM_PINS then s
  else
    let old_level := (s.status pin >>> 17) &&& 1
    let s1 := gpio_store_level s pin level
    let reg := pin / 8
    let bit := (pin % 8) * 4
    if s1.ctrl pin &&& 0x1F = FUNCSEL_SIO then
      let int_mask := (s1.ctrl pin >>> 28) &&& 0xF
      let int_status := gpio_int_status int_mask old_level level
      if int_status ≠ 0 then
        rp2040_gpio_update_irq
          { s1 with intr := Function.update s1.intr reg (s1.intr reg ||| (int_status <<< bit)) }
      else s1
    else s1

/-- Device reset (`rp2040_gpio_reset`): every register is cleared and every
pin is given the null function; the two lines are not driven. -/
def rp2040_gpio_reset (s : RP2040GPIOState) : RP2040GPIOState :=
  { s with status := fun i => if i < GPIO_NUM_PINS then FUNCSEL_NULL else 0,
           ctrl := fun i => if i < GPIO_NUM_PINS then FUNCSEL_NULL else 0,
           intr := fun _ => 0,
           proc0_inte := fun _ => 0,
           proc0_intf := fun _ => 0,
           proc1_inte := fun _ => 0,
           proc1_intf := fun _ => 0 }

/-- An all-zero GPIO state with both lines low, as allocated before the first
reset. -/
def gpio_zero : RP2040GPIOState :=
  { status := fun _ => 0, ctrl := fun _ => 0, intr := fun _ => 0, proc0_inte := fun _ => 0,
    proc0_intf := fun _ => 0, proc1_inte := fun _ => 0, proc1_intf := fun _ => 0,
    proc0_irq := false, proc1_irq := false }

/-- The configuration of the pin-5 scenario: from the reset state, the CTRL
register of pin 5 is written with `ctrl_value` and PROC0_INTE0 with
`inte_value`. -/
def gpio_pin5_setup (s0 : RP2040GPIOState) (ctrl_value inte_value : Nat) : RP2040GPIOState :=
  rp2040_gpio_write (rp2040_gpio_write (rp2040_gpio_reset s0) (GPIO_CTRL 5) ctrl_value)
    PROC0_INTE0 inte_value

/-- The pin-5 scenario: after the configuration, pin 5 is reported low and
then high. -/
def gpio_pin5_scenario (s0 : RP2040GPIOState) (ctrl_value inte_value : Nat) : RP2040GPIOState :=
  rp2040_gpio_set_input
    (rp2040_gpio_set_input (gpio_pin5_setup s0 ctrl_value inte_value) 5 0) 5 1

/-- A GPIO state in which pin 0 has a pending condition and an enabled
condition that differ: pin 0 is a software-I/O pin with the level-low bit of
its CTRL mask set, core 0 enables the edge-high condition of pin 0 only, and
the pin is reported low. -/
def gpio_mixed_field_state : RP2040GPIOState :=
  rp2040_gpio_set_input
    (rp2040_gpio_write (rp2040_gpio_write (rp2040_gpio_reset gpio_zero) (GPIO_CTRL 0) 0x10000005)
      PROC0_INTE0 0x8) 0 0

/-- The offsets of the interrupt block (from 0xF0 on) that `rp2040_gpio_read`
decodes as a register. -/
def gpio_read_offsets : List Nat :=
  [INTR0, INTR1, INTR2, INTR3,
    PROC0_INTE0, PROC0_INTE1, PROC0_INTE2, PROC0_INTE3,
    PROC0_INTF0, PROC0_INTF1, PROC0_INTF2, PROC0_INTF3,
    PROC0_INTS0, PROC0_INTS1, PROC0_INTS2, PROC0_INTS3,
    PROC1_INTE0, PROC1_INTE1, PROC1_INTE2, PROC1_INTE3,
    PROC1_INTF0, PROC1_INTF1, PROC1_INTF2, PROC1_INTF3,
    PROC1_INTS0, PROC1_INTS1, PROC1_INTS2, PROC1_INTS3]

/-- The offsets of the interrupt block at which `rp2040_gpio_write` has an
effect. -/
def gpio_write_offsets : List Nat :=
  [INTR0, INTR1, INTR2, INTR3,
    PROC0_INTE0, PROC0_INTE1, PROC0_INTE2, PROC0_INTE3,
    PROC0_INTF0, PROC0_INTF1, PROC0_INTF2, PROC0_INTF3,
    PROC1_INTE0, PROC1_INTE1, PROC1_INTE2, PROC1_INTE3,
    PROC1_INTF0, PROC1_INTF1, PROC1_INTF2, PROC1_INTF3]

/-- A run of level reports: each pair `(pin, level)` is a call of
`rp2040_gpio_set_input`. -/
def gpio_report_all (s : RP2040GPIOState) (reports : List (Nat × Int)) : RP2040GPIOState :=
  reports.foldl (fun t r => rp2040_gpio_set_input t r.1 r.2) s

/-- A GPIO state with one pending event, the edge-high bit of pin 0 in INTR0,
and the given values in PROC0_INTE0 and PROC1_INTE0, the lines recomputed. -/
def gpio_one_event (inte0 inte1 : Nat) : RP2040GPIOState :=
  rp2040_gpio_update_irq
    { gpio_zero with intr := fun r => if r = 0 then 8 else 0,
                     proc0_inte := fun r => if r = 0 then inte0 else 0,
                     proc1_inte := fun r => if r = 0 then inte1 else 0 }

/-- Pin 0 as a software-I/O pin with the level-high condition selected in
its CTRL mask (bit 29) and enabled for core 0 (bit 1 of PROC0_INTE0), after
the pin has been reported high. -/
def gpio_level_high_reported : RP2040GPIOState :=
  rp2040_gpio_set_input
    (rp2040_gpio_write (rp2040_gpio_write (rp2040_gpio_reset gpio_zero) (GPIO_CTRL 0) 0x20000005)
      PROC0_INTE0 0x2) 0 1

/-! ## Timer (`hw/timer/rp2040_timer.c`) -/

@[match_pattern] def TIMEHW : Nat := 0x00
@[match_pattern] def TIMELW : Nat := 0x04
@[match_pattern] def TIMEHR : Nat := 0x08
@[match_pattern] def TIMELR : Nat := 0x0C
@[match_pattern] def ALARM0 : Nat := 0x10
@[match_pattern] def ALARM1 : Nat := 0x14
@[match_pattern] def ALARM2 : Nat := 0x18
@[match_pattern] def ALARM3 : Nat := 0x1C
@[match_pattern] def ARMED : Nat := 0x20
@[match_pattern] def TIMERAWH : Nat := 0x24
@[match_pattern] def TIMERAWL : Nat := 0x28
@[match_pattern] def DBGPAUSE : Nat := 0x2C
@[match_pattern] def PAUSE : Nat := 0x30
@[match_pattern] def INTR : Nat := 0x34
@[match_pattern] def INTE : Nat := 0x38
@[match_pattern] def INTF : Nat := 0x3C
@[match_pattern] def INTS : Nat := 0x40

/-- The value of a `uint64_t` passed where an `int64_t` is expected (the
expiry time handed to `timer_mod`). -/
def toInt64 (x : Nat) : Int :=
  if x % 18446744073709551616 < 9223372036854775808 then (x % 18446744073709551616 : Nat)
  else ((x % 18446744073709551616 : Nat) : Int) - 18446744073709551616

/-- The device state `RP2040TimerState`. `alarm_timer k` is the expiry time
of the clock callback scheduled for alarm `k` (`none` when the QEMU timer is
not pending), `irq k` the level of the interrupt line of alarm `k`. -/
structure RP2040TimerState where
  time_base : Nat
  latched_count : Nat
  alarm : Nat → Nat
  alarm_high : Nat → Nat
  armed : Nat
  dbgpause : Nat
  pause : Nat
  intr : Nat
  inte : Nat
  intf : Nat
  alarm_timer : Nat → Option Int
  irq : Nat → Bool

/-- The 64-bit counter at virtual-clock time `now` (`rp2040_timer_get_count`). -/
def rp2040_timer_get_count (s : RP2040TimerState) (now : Nat) : Nat :=
  u64 (u64 now + 18446744073709551616 - u64 s.time_base)

/-- Re-evaluate one alarm against the counter (`rp2040_timer_update_alarm`). -/
def rp2040_timer_update_alarm (s : RP2040TimerState) (alarm : Nat) (now : Nat) :
    RP2040TimerState :=
  let count := rp2040_timer_get_count s now
  let alarm_time := (s.alarm_high alarm <<< 32) ||| s.alarm alarm
  if s.armed &&& (1 <<< alarm) = 0 then
    { s with alarm_timer := Function.update s.alarm_timer alarm none }
  else if alarm_time ≤ count then
    { s with intr := s.intr ||| (1 <<< alarm),
             armed := s.armed &&& not32 (1 <<< alarm),
             alarm_timer := Function.update s.alarm_timer alarm none }
  else
    { s with alarm_timer :=
        Function.update s.alarm_timer alarm (some (toInt64 (u64 now + (alarm_time - count)))) }

/-- Register read (`rp2040_timer_read`) at clock time `now`: the value
returned and the state left. -/
def rp2040_timer_read (s : RP2040TimerState) (offset : Nat) (now : Nat) :
    Nat × RP2040TimerState :=
  match offset with
  | TIMEHW =>
    let count := rp2040_timer_get_count s now
    (u32 (count >>> 32), { s with latched_count := count })
  | TIMELW => (u32 (s.latched_count &&& 0xFFFFFFFF), s)
  | TIMEHR => (u32 (rp2040_timer_get_count s now >>> 32), s)
  | TIMELR => (u32 (rp2040_timer_get_count s now &&& 0xFFFFFFFF), s)
  | ALARM0 => (s.alarm 0, s)
  | ALARM1 => (s.alarm 1, s)
  | ALARM2 => (s.alarm 2, s)
  | ALARM3 => (s.alarm 3, s)
  | ARMED => (s.armed, s)
  | TIMERAWH => (u32 (rp2040_timer_get_count s now >>> 32), s)
  | TIMERAWL => (u32 (rp2040_timer_get_count s now &&& 0xFFFFFFFF), s)
  | DBGPAUSE => (s.dbgpause, s)
  | PAUSE => (s.pause, s)
  | INTR => (s.intr, s)
  | INTE => (s.inte, s)
  | INTF => (s.intf, s)
  | INTS => (s.intr &&& s.inte, s)
  | _ => (0, s)

/-- The body shared by the four `ALARMk` cases of `rp2040_timer_write`. -/
def timer_write_alarm (s : RP2040TimerState) (k value now : Nat) : RP2040TimerState :=
  let s1 := { s with alarm := Function.update s.alarm k (u32 value) }
  let s2 := { s1 with alarm_high :=
                Function.update s1.alarm_high k (u32 (rp2040_timer_get_count s1 now >>> 32)) }
  let s3 := { s2 with armed := s2.armed ||| (1 <<< k) }
  rp2040_timer_update_alarm s3 k now

/-- Register write (`rp2040_timer_write`) at clock time `now`. -/
def rp2040_timer_write (s : RP2040TimerState) (offset value : Nat) (now : Nat) :
    RP2040TimerState :=
  match offset with
  | TIMELW =>
    let s1 := { s with time_base := u64 (u64 now + 18446744073709551616 - u64 value) }
    [0, 1, 2, 3].foldl (fun t i => rp2040_timer_update_alarm t i now) s1
  | ALARM0 => timer_write_alarm s 0 value now
  | ALARM1 => timer_write_alarm s 1 value now
  | ALARM2 => timer_write_alarm s 2 value now
  | ALARM3 => timer_write_alarm s 3 value now
  | ARMED =>
    let s1 := { s with armed := s.armed &&& not32 value }
    [0, 1, 2, 3].foldl
      (fun t i =>
        if value &&& (1 <<< i) ≠ 0 then
          { t with alarm_timer := Function.update t.alarm_timer i none }
        else t) s1
  | DBGPAUSE => { s with dbgpause := u32 (value &&& 0x3) }
  | PAUSE => { s with pause := u32 (value &&& 0x1) }
  | INTR =>
    let s1 := { s with intr := s.intr &&& not32 value }
    [0, 1, 2, 3].foldl
      (fun t i =>
        if value &&& (1 <<< i) ≠ 0 then { t with irq := Function.update t.irq i false }
        else t) s1
  | INTE => { s with inte := u32 (value &&& 0xF) }
  | INTF => { s with intf := u32 (value &&& 0xF) }
  | _ => s

/-- Device reset (`rp2040_timer_reset`) at clock time `now`; the four clock
callbacks are cancelled, the interrupt lines are not driven. -/
def rp2040_timer_reset (s : RP2040TimerState) (now : Nat) : RP2040TimerState :=
  { s with time_base := u64 now, latched_count := 0, armed := 0, dbgpause := 0, pause := 0,
           intr := 0, inte := 0, intf := 0,
           alarm := fun i => if i < 4 then 0 else s.alarm i,
           alarm_high := fun i => if i < 4 then 0 else s.alarm_high i,
           alarm_timer := fun i => if i < 4 then none else s.alarm_timer i }

/-- An all-zero timer state with no callback scheduled and the four lines
low, as allocated before the first reset. -/
def timer_zero : RP2040TimerState :=
  { time_base := 0, latched_count := 0, alarm := fun _ => 0, alarm_high := fun _ => 0,
    armed := 0, dbgpause := 0, pause := 0, intr := 0, inte := 0, intf := 0,
    alarm_timer := fun _ => none, irq := fun _ => false }

/-- A run of rebases: each pair `(now, value)` is a write of `value` to the
low-word register TIMELW at clock time `now`. -/
def timer_rebase_all (s : RP2040TimerState) (writes : List (Nat × Nat)) : RP2040TimerState :=
  writes.foldl (fun t w => rp2040_timer_write t TIMELW w.2 w.1) s

/-- The timer of the immediate-fire run: after a reset at clock time 0 the
guest enables the interrupt of alarm 0 (INTE = 1) and, at clock time 5, writes
the target 0 to ALARM0. -/
def timer_immediate_fire_state : RP2040TimerState :=
  rp2040_timer_write (rp2040_timer_write (rp2040_timer_reset timer_zero 0) INTE 1 0) ALARM0 0 5

/-- Size in bytes of one element of `alarm_timer`, a `QEMUTimer *` on a
64-bit host (`sizeof(s->alarm_timer[0])`). -/
def SIZEOF_ALARM_TIMER : Int := 8

/-- The pointer that `rp2040_timer_realize` registers as the `opaque`
argument of the clock callback of alarm `k`: the address `&s->alarm_timer[k]`,
where `slots` is the address of `s->alarm_timer[0]`. -/
def timer_cb_pointer (slots : Int) (k : Nat) : Int := slots + SIZEOF_ALARM_TIMER * k

/-- The clock callback `rp2040_timer_alarm_cb`. `ptr` is its pointer argument
(`opaque` in the source), which the function takes as its device pointer
(`RP2040TimerState *s = opaque`); `s` is the state read and written through
that pointer. The alarm index is the pointer difference `opaque - s` divided
by the size of a slot. -/
def rp2040_timer_alarm_cb (ptr : Int) (s : RP2040TimerState) : RP2040TimerState :=
  let s_ptr := ptr
  let alarm := ((ptr - s_ptr) / SIZEOF_ALARM_TIMER).toNat
  let s1 := { s with intr := s.intr ||| (1 <<< alarm), armed := s.armed &&& not32 (1 <<< alarm) }
  if s1.inte &&& (1 <<< alarm) ≠ 0 then
    { s1 with irq := Function.update s1.irq alarm true }
  else s1

/-- The operations that reach the timer: register reads and writes issued by
the guest and the expiry of the QEMU timer of alarm `k`, each at a
virtual-clock time `now`. -/
inductive TimerOp where
  | read (offset now : Nat)
  | write (offset value now : Nat)
  | callback (k now : Nat)

/-- One operation on the timer. The virtual clock runs the callback of alarm
`k` (`k < 4`) only when its QEMU timer is pending with an expiry time at or
before `now`; the timer is then no longer pending. `rp2040_timer_realize`
registers the address of the slot, `&s->alarm_timer[k]`, as the argument of
the callback, and `rp2040_timer_alarm_cb` takes that address as its device
pointer: the fields `intr`, `armed`, `inte` and `irq` that its body reads and
writes lie at their offsets from the slot, past the end of the device
(`alarm_timer` is the last member of `RP2040TimerState`). The callback
therefore changes no register and drives no line of the device; the memory
behind the device that it does change is not part of the device state. -/
def timer_step (s : RP2040TimerState) : TimerOp → RP2040TimerState
  | .read offset now => (rp2040_timer_read s offset now).2
  | .write offset value now => rp2040_timer_write s offset value now
  | .callback k now =>
    if k < 4 then
      match s.alarm_timer k with
      | some expire =>
        if expire ≤ (now : Int) then
          { s with alarm_timer := Function.update s.alarm_timer k none }
        else s
      | none => s
    else s

/-- A run of operations on the timer, in order. -/
def timer_run (s : RP2040TimerState) (ops : List TimerOp) : RP2040TimerState :=
  ops.foldl timer_step s

/-- The operation is a write to the register ALARMk. -/
def timer_op_is_alarm_write (k : Nat) : TimerOp → Prop
  | .write offset _ _ => offset = ALARM0 + 4 * k
  | _ => False

/-- The operation is a write to the low-word register TIMELW. -/
def timer_op_is_rebase : TimerOp → Prop
  | .write offset _ _ => offset = TIMELW
  | _ => False

instance timer_op_is_alarm_write_decidable (k : Nat) (op : TimerOp) :
    Decidable (timer_op_is_alarm_write k op) := by
  cases op <;> unfold timer_op_is_alarm_write <;> infer_instance

instance timer_op_is_rebase_decidable (op : TimerOp) : Decidable (timer_op_is_rebase op) := by
  cases op <;> unfold timer_op_is_rebase <;> infer_instance

/-- The timer with alarm 1 pending: after a reset at clock time 0 the guest
writes the target 100 to ALARM1. -/
def timer_alarm1_pending : RP2040TimerState :=
  rp2040_timer_write (rp2040_timer_reset timer_zero 0) ALARM1 100 0

/-- The paused timer: after a reset at clock time 0 the guest writes 1 to
PAUSE at clock time 10. -/
def timer_paused_state : RP2040TimerState :=
  rp2040_timer_write (rp2040_timer_reset timer_zero 0) PAUSE 1 10

/-- The offsets that `rp2040_timer_read` decodes as a register. -/
def timer_read_offsets : List Nat :=
  [TIMEHW, TIMELW, TIMEHR, TIMELR, ALARM0, ALARM1, ALARM2, ALARM3, ARMED, TIMERAWH, TIMERAWL,
    DBGPAUSE, PAUSE, INTR, INTE, INTF, INTS]

/-- The offsets at which `rp2040_timer_write` has an effect. -/
def timer_write_offsets : List Nat :=
  [TIMELW, ALARM0, ALARM1, ALARM2, ALARM3, ARMED, DBGPAUSE, PAUSE, INTR, INTE, INTF]

/-- The timer states reachable from a reset through resets, register reads,
register writes and clock callbacks. -/
inductive TimerReachable : RP2040TimerState → Prop
  | reset (s0 : RP2040TimerState) (now : Nat) : TimerReachable (rp2040_timer_reset s0 now)
  | step (s : RP2040TimerState) (op : TimerOp) :
      TimerReachable s → TimerReachable (timer_step s op)

/-- The control registers hold only bits that the device implements: bits
0..3 of ARMED, INTR, INTE and INTF, bit 0 of PAUSE and bits 0..1 of DBGPAUSE. -/
def timer_regs_in_range (s : RP2040TimerState) : Prop :=
  s.armed < 16 ∧ s.intr < 16 ∧ s.inte < 16 ∧ s.intf < 16 ∧ s.pause ≤ 1 ∧ s.dbgpause ≤ 3

instance timer_regs_in_range_decidable (s : RP2040TimerState) :
    Decidable (timer_regs_in_range s) := by
  unfold timer_regs_in_range; infer_instance

/-- The timer after a reset at clock time 0, a write of `h` to TIMEHW and a
write of `l` to TIMELW, both at clock time `now`. -/
def timer_set_time (h l now : Nat) : RP2040TimerState :=
  rp2040_timer_write (rp2040_timer_write (rp2040_timer_reset timer_zero 0) TIMEHW h now)
    TIMELW l now

/-! ## SoC memory map (`hw/arm/rp2040.c`) -/

def RP2040_ROM_BASE : Nat := 0x00000000
def RP2040_ROM_SIZE : Nat := 16 * 1024
def RP2040_XIP_BASE : Nat := 0x10000000
def RP2040_XIP_SIZE : Nat := 16 * 1024 * 1024
def RP2040_SRAM_BASE : Nat := 0x20000000
def RP2040_SRAM_SIZE : Nat := 264 * 1024
def RP2040_SIO_BASE : Nat := 0xD0000000
def RP2040_SYSINFO_BASE : Nat := 0x40000000
def RP2040_SYSCFG_BASE : Nat := 0x40004000
def RP2040_CLOCKS_BASE : Nat := 0x40008000
def RP2040_RESETS_BASE : Nat := 0x4000C000
def RP2040_PSM_BASE : Nat := 0x40010000
def RP2040_IO_BANK0_BASE : Nat := 0x40014000
def RP2040_PADS_BANK0_BASE : Nat := 0x4001C000
def RP2040_UART0_BASE : Nat := 0x40034000
def RP2040_UART1_BASE : Nat := 0x40038000
def RP2040_TIMER_BASE : Nat := 0x40054000
def RP2040_WATCHDOG_BASE : Nat := 0x40058000

/-- The regions that `rp2040_soc_realize` maps into the system memory. -/
inductive RP2040Region where
  | rom | sram | xip | uart0 | uart1 | gpio | timer
  | sysinfo | syscfg | clocks | resets | psm | pads_bank0 | watchdog | sio
  deriving DecidableEq

/-- One mapping: the region, its base address and its size in bytes. -/
structure RP2040Mapping where
  region : RP2040Region
  base : Nat
  size : Nat
  deriving DecidableEq

/-- The mappings made by `rp2040_soc_realize`, in program order. The size of
a device window is the size its `memory_region_init_io` gives the region
(0x1000 for the UART, the GPIO and the timer); the size of a stub is the
argument of `create_unimplemented_device`. -/
def rp2040_memory_map : List RP2040Mapping :=
  [ ⟨.rom, RP2040_ROM_BASE, RP2040_ROM_SIZE⟩,
    ⟨.sram, RP2040_SRAM_BASE, RP2040_SRAM_SIZE⟩,
    ⟨.xip, RP2040_XIP_BASE, RP2040_XIP_SIZE⟩,
    ⟨.uart0, RP2040_UART0_BASE, 0x1000⟩,
    ⟨.uart1, RP2040_UART1_BASE, 0x1000⟩,
    ⟨.gpio, RP2040_IO_BANK0_BASE, 0x1000⟩,
    ⟨.timer, RP2040_TIMER_BASE, 0x1000⟩,
    ⟨.sysinfo, RP2040_SYSINFO_BASE, 0x1000⟩,
    ⟨.syscfg, RP2040_SYSCFG_BASE, 0x1000⟩,
    ⟨.clocks, RP2040_CLOCKS_BASE, 0x1000⟩,
    ⟨.resets, RP2040_RESETS_BASE, 0x1000⟩,
    ⟨.psm, RP2040_PSM_BASE, 0x1000⟩,
    ⟨.pads_bank0, RP2040_PADS_BANK0_BASE, 0x1000⟩,
    ⟨.watchdog, RP2040_WATCHDOG_BASE, 0x1000⟩,
    ⟨.sio, RP2040_SIO_BASE, 0x1000⟩ ]

/-- The address lies in the range of the mapping. -/
def mapping_contains (m : RP2040Mapping) (addr : Nat) : Bool :=
  decide (m.base ≤ addr ∧ addr < m.base + m.size)

/-- Two mappings do not overlap. -/
def mappings_disjoint (a b : RP2040Mapping) : Prop :=
  a.base + a.size ≤ b.base ∨ b.base + b.size ≤ a.base

instance mappings_disjoint_decidable (a b : RP2040Mapping) : Decidable (mappings_disjoint a b) := by
  unfold mappings_disjoint; infer_instance

/-- The decodings of a physical address: every mapped region whose range
holds the address, with the device-local offset (address minus base). -/
def rp2040_decode (addr : Nat) : List (RP2040Region × Nat) :=
  (rp2040_memory_map.filter (fun m => mapping_contains m addr)).map
    (fun m => (m.region, addr - m.base))

/-! # Theorems -/

/-! ## Bit-level facts -/

theorem and_bit_ne_zero_iff (x k : Nat) : x &&& (1 <<< k) ≠ 0 ↔ x.testBit k = true := by
  rw [Nat.one_shiftLeft]
  constructor
  · intro h
    by_contra hb
    apply h
    apply Nat.eq_of_testBit_eq
    intro i
    rw [Nat.testBit_and, Nat.testBit_two_pow, Nat.zero_testBit]
    by_cases hik : k = i
    · subst hik; simp [hb]
    · simp [hik]
  · intro h h0
    have : (x &&& 2 ^ k).testBit k = true := by
      rw [Nat.testBit_and, Nat.testBit_two_pow_self, h]; rfl
    rw [h0, Nat.zero_testBit] at this
    exact Bool.noConfusion this

theorem ne_zero_of_testBit (x k : Nat) (h : x.testBit k = true) : x ≠ 0 := by
  intro h0
  rw [h0, Nat.zero_testBit] at h
  exact Bool.noConfusion h

/-! ## UART: invariants of the reachable states -/

theorem uartInv_update (s : RP2040UARTState) (hl : s.rx_fifo_len ≤ 32) (hr : s.rx_fifo_rd < 32)
    (hw : s.rx_fifo_wr = (s.rx_fifo_rd + s.rx_fifo_len) % 32) (ht : s.tx_fifo_len = 0) :
    UartInv (rp2040_uart_update s) :=
  ⟨rfl, rfl, rfl, hl, hr, hw, ht⟩

/-- A state that agrees with an invariant state on the fields the invariant
reads is itself invariant. -/
theorem uartInv_congr (s t : RP2040UARTState) (h : UartInv s)
    (e1 : t.fr = s.fr) (e2 : t.mis = s.mis) (e3 : t.irq = s.irq) (e4 : t.ris = s.ris)
    (e5 : t.imsc = s.imsc) (e6 : t.rx_fifo_len = s.rx_fifo_len)
    (e7 : t.rx_fifo_rd = s.rx_fifo_rd) (e8 : t.rx_fifo_wr = s.rx_fifo_wr)
    (e9 : t.tx_fifo_len = s.tx_fifo_len) : UartInv t := by
  constructor
  · rw [e1, e6, e9]; exact h.fr_eq
  · rw [e2, e4, e5]; exact h.mis_eq
  · rw [e3, e4, e5]; exact h.irq_eq
  · rw [e6]; exact h.len_le
  · rw [e7]; exact h.rd_lt
  · rw [e8, e7, e6]; exact h.wr_eq
  · rw [e9]; exact h.tx_zero

theorem uartInv_reset (s0 : RP2040UARTState) : UartInv (rp2040_uart_reset s0) :=
  uartInv_update _ (Nat.zero_le _) (Nat.zero_lt_succ 31) rfl rfl

theorem uartInv_read (s : RP2040UARTState) (offset : Nat) (h : UartInv s) :
    UartInv (rp2040_uart_read s offset).2 := by
  have h1 := h.len_le
  have h2 := h.rd_lt
  have h3 := h.wr_eq
  have h4 := h.tx_zero
  unfold rp2040_uart_read
  split
  all_goals try exact h
  split
  · apply uartInv_update
    · show (if s.rx_fifo_len - 1 = 0 then _ else _ : RP2040UARTState).rx_fifo_len ≤ 32
      split <;> (show s.rx_fifo_len - 1 ≤ 32) <;> omega
    · show (if s.rx_fifo_len - 1 = 0 then _ else _ : RP2040UARTState).rx_fifo_rd < 32
      split <;> (show u32 (s.rx_fifo_rd + 1) % FIFO_SIZE < 32) <;>
        (simp only [u32, FIFO_SIZE]; omega)
    · show (if s.rx_fifo_len - 1 = 0 then _ else _ : RP2040UARTState).rx_fifo_wr = _
      split <;>
        (show s.rx_fifo_wr = (u32 (s.rx_fifo_rd + 1) % FIFO_SIZE + (s.rx_fifo_len - 1)) % 32) <;>
        (simp only [u32, FIFO_SIZE]; omega)
    · show (if s.rx_fifo_len - 1 = 0 then _ else _ : RP2040UARTState).tx_fifo_len = 0
      split <;> exact h4
  · exact h

theorem uartInv_write (s : RP2040UARTState) (offset value : Nat) (h : UartInv s) :
    UartInv (rp2040_uart_write s offset value) := by
  unfold rp2040_uart_write
  split
  · split
    · split
      · exact uartInv_update _ h.len_le h.rd_lt h.wr_eq h.tx_zero
      · exact h
    · exact h
  all_goals
    first
    | exact h
    | exact uartInv_update _ h.len_le h.rd_lt h.wr_eq h.tx_zero
    | exact uartInv_congr s _ h rfl rfl rfl rfl rfl rfl rfl rfl rfl

theorem uartInv_rx_loop (buf : List Nat) (s : RP2040UARTState)
    (hl : s.rx_fifo_len ≤ 32) (hr : s.rx_fifo_rd < 32)
    (hw : s.rx_fifo_wr = (s.rx_fifo_rd + s.rx_fifo_len) % 32) (ht : s.tx_fifo_len = 0) :
    (uart_rx_loop s buf).rx_fifo_len ≤ 32 ∧ (uart_rx_loop s buf).rx_fifo_rd < 32 ∧
    (uart_rx_loop s buf).rx_fifo_wr
      = ((uart_rx_loop s buf).rx_fifo_rd + (uart_rx_loop s buf).rx_fifo_len) % 32 ∧
    (uart_rx_loop s buf).tx_fifo_len = 0 := by
  induction buf generalizing s with
  | nil => exact ⟨hl, hr, hw, ht⟩
  | cons b rest ih =>
    unfold uart_rx_loop
    split
    · rename_i hlt
      simp only [FIFO_SIZE] at hlt
      apply ih
      · show s.rx_fifo_len + 1 ≤ 32
        omega
      · exact hr
      · show u32 (s.rx_fifo_wr + 1) % FIFO_SIZE = (s.rx_fifo_rd + (s.rx_fifo_len + 1)) % 32
        simp only [u32, FIFO_SIZE]; omega
      · exact ht
    · exact ⟨hl, hr, hw, ht⟩

theorem uartInv_rx (s : RP2040UARTState) (buf : List Nat) (h : UartInv s) :
    UartInv (rp2040_uart_rx s buf) := by
  unfold rp2040_uart_rx
  split
  · exact h
  · obtain ⟨a, b, c, d⟩ := uartInv_rx_loop buf s h.len_le h.rd_lt h.wr_eq h.tx_zero
    exact uartInv_update _ a b c d

theorem uartInv_of_reachable (s : RP2040UARTState) (h : UartReachable s) : UartInv s := by
  induction h with
  | reset s0 => exact uartInv_reset s0
  | read s offset _ ih => exact uartInv_read s offset ih
  | write s offset value _ ih => exact uartInv_write s offset value ih
  | rx s buf _ ih => exact uartInv_rx s buf ih

/-! ## UART: registers derived from the state -/

/-- C3: in every UART state reachable from reset, the flag register read at
offset 0x18 has receive-empty (bit 4) set exactly when `rx_fifo_len` is 0 and
receive-full (bit 6) set exactly when `rx_fifo_len` is 32. -/
theorem uart_flag_register_tracks_fifo (s : RP2040UARTState) (h : UartReachable s) :
    ((rp2040_uart_read s UART_FR).1 &&& FR_RXFE ≠ 0 ↔ s.rx_fifo_len = 0) ∧
    ((rp2040_uart_read s UART_FR).1 &&& FR_RXFF ≠ 0 ↔ s.rx_fifo_len = 32) := by
  have hinv := uartInv_of_reachable s h
  have hfr : (rp2040_uart_read s UART_FR).1 = uart_flags s.rx_fifo_len 0 := by
    show s.fr = _
    rw [hinv.fr_eq, hinv.tx_zero]
  rw [hfr]
  unfold uart_flags
  by_cases h0 : s.rx_fifo_len = 0
  · rw [h0]; decide
  · by_cases h32 : s.rx_fifo_len = 32
    · rw [h32]; decide
    · have h32b : ¬ s.rx_fifo_len = FIFO_SIZE := h32
      simp only [h0, h32, h32b, if_false, if_true]
      decide

theorem uart_flag_register_tracks_fifo_witness :
    ((rp2040_uart_read (rp2040_uart_rx (rp2040_uart_write (rp2040_uart_reset uart_zero)
        UART_CR 0x301) [7]) UART_FR).1 &&& FR_RXFE ≠ 0 ↔
      (rp2040_uart_rx (rp2040_uart_write (rp2040_uart_reset uart_zero)
        UART_CR 0x301) [7]).rx_fifo_len = 0) ∧
    ((rp2040_uart_read (rp2040_uart_rx (rp2040_uart_write (rp2040_uart_reset uart_zero)
        UART_CR 0x301) [7]) UART_FR).1 &&& FR_RXFF ≠ 0 ↔
      (rp2040_uart_rx (rp2040_uart_write (rp2040_uart_reset uart_zero)
        UART_CR 0x301) [7]).rx_fifo_len = 32) :=
  uart_flag_register_tracks_fifo _
    (UartReachable.rx _ _ (UartReachable.write _ _ _ (UartReachable.reset uart_zero)))

/-- C4: in every UART state reachable from reset, a read of the masked
interrupt status (offset 0x40) returns `RIS & IMSC`, and the level driven on
the interrupt line is high exactly when `RIS & IMSC` is non-zero. -/
theorem uart_masked_status_and_line (s : RP2040UARTState) (h : UartReachable s) :
    (rp2040_uart_read s UART_MIS).1 = s.ris &&& s.imsc ∧
    (rp2040_uart_read s UART_MIS).2 = s ∧
    (s.irq = true ↔ s.ris &&& s.imsc ≠ 0) := by
  have hinv := uartInv_of_reachable s h
  refine ⟨hinv.mis_eq, rfl, ?_⟩
  rw [hinv.irq_eq]
  simp

theorem uart_masked_status_and_line_witness :
    (rp2040_uart_read (rp2040_uart_write (rp2040_uart_write (rp2040_uart_write
        (rp2040_uart_reset uart_zero) UART_CR 0x301) UART_IMSC 0x20) UART_DR 0x41) UART_MIS).1 = 0x20 ∧
    (rp2040_uart_write (rp2040_uart_write (rp2040_uart_write
        (rp2040_uart_reset uart_zero) UART_CR 0x301) UART_IMSC 0x20) UART_DR 0x41).irq = true := by
  have h := uart_masked_status_and_line
    (rp2040_uart_write (rp2040_uart_write (rp2040_uart_write
        (rp2040_uart_reset uart_zero) UART_CR 0x301) UART_IMSC 0x20) UART_DR 0x41)
    (UartReachable.write _ _ _ (UartReachable.write _ _ _
      (UartReachable.write _ _ _ (UartReachable.reset uart_zero))))
  exact ⟨h.1.trans (by decide), h.2.2.mpr (by decide)⟩

/-! ## UART: transmit path -/

/-- C2: a write of `v` to the data register (offset 0x00) with UARTEN and TXE
both set sends exactly the byte `v mod 256`, sets the transmit raw-interrupt
bit (bit 5 of RIS) and drives the line from `RIS & IMSC`, so the line is high
whenever bit 5 of the mask is set; with either enable bit clear the write
leaves the device state as it was. After 0x301 is written to the control
register of a reset device, writing 0x41 sends the single byte 0x41. -/
theorem uart_write_data_register (s : RP2040UARTState) (v : Nat) :
    (s.cr &&& CR_UARTEN ≠ 0 ∧ s.cr &&& CR_TXE ≠ 0 →
      (rp2040_uart_write s UART_DR v).chr = s.chr ++ [v % 256] ∧
      (rp2040_uart_write s UART_DR v).ris = s.ris ||| INT_TX ∧
      (rp2040_uart_write s UART_DR v).ris &&& INT_TX ≠ 0 ∧
      ((rp2040_uart_write s UART_DR v).irq = true ↔
        (rp2040_uart_write s UART_DR v).ris &&& (rp2040_uart_write s UART_DR v).imsc ≠ 0) ∧
      ((rp2040_uart_write s UART_DR v).imsc &&& INT_TX ≠ 0 →
        (rp2040_uart_write s UART_DR v).irq = true)) ∧
    (¬ (s.cr &&& CR_UARTEN ≠ 0 ∧ s.cr &&& CR_TXE ≠ 0) → rp2040_uart_write s UART_DR v = s) ∧
    (∀ s0 : RP2040UARTState,
      (rp2040_uart_write (rp2040_uart_write (rp2040_uart_reset s0) UART_CR 0x301)
        UART_DR 0x41).chr = s0.chr ++ [0x41]) := by
  have hsend : ∀ (t : RP2040UARTState) (w : Nat), t.cr &&& CR_UARTEN ≠ 0 → t.cr &&& CR_TXE ≠ 0 →
      rp2040_uart_write t UART_DR w
        = rp2040_uart_update { t with chr := t.chr ++ [w % 256], ris := t.ris ||| INT_TX } := by
    intro t w hen htx
    show (if t.cr &&& CR_UARTEN ≠ 0 then
            if t.cr &&& CR_TXE ≠ 0 then _ else t else t) = _
    rw [if_pos hen, if_pos htx]
  refine ⟨?_, ?_, ?_⟩
  · rintro ⟨hen, htx⟩
    rw [hsend s v hen htx]
    have hbit : (s.ris ||| INT_TX).testBit 5 = true := by
      rw [Nat.testBit_or]
      have : INT_TX.testBit 5 = true := by decide
      rw [this, Bool.or_true]
    have hirq : ((rp2040_uart_update
          { s with chr := s.chr ++ [v % 256], ris := s.ris ||| INT_TX }).irq = true ↔
        (s.ris ||| INT_TX) &&& s.imsc ≠ 0) := by
      show decide ((s.ris ||| INT_TX) &&& s.imsc ≠ 0) = true ↔ _
      simp
    refine ⟨rfl, rfl, ?_, hirq, ?_⟩
    · exact (and_bit_ne_zero_iff _ 5).mpr hbit
    · intro hm
      have hm5 : s.imsc.testBit 5 = true := (and_bit_ne_zero_iff _ 5).mp hm
      apply hirq.mpr
      apply ne_zero_of_testBit _ 5
      rw [Nat.testBit_and, hbit, hm5]
      rfl
  · intro hn
    show (if s.cr &&& CR_UARTEN ≠ 0 then
            if s.cr &&& CR_TXE ≠ 0 then _ else s else s) = s
    by_cases hen : s.cr &&& CR_UARTEN ≠ 0
    · have htx : ¬ s.cr &&& CR_TXE ≠ 0 := fun h => hn ⟨hen, h⟩
      rw [if_pos hen, if_neg htx]
    · rw [if_neg hen]
  · intro s0
    have hcr : (rp2040_uart_write (rp2040_uart_reset s0) UART_CR 0x301).cr = 0x301 := rfl
    rw [hsend _ _ (by rw [hcr]; decide) (by rw [hcr]; decide)]
    rfl

/-! ## UART: the receive FIFO is first-in-first-out -/

theorem uart_contents_update (s : RP2040UARTState) :
    uart_fifo_contents (rp2040_uart_update s) = uart_fifo_contents s := rfl

/-- Storing a byte at the write cursor appends it to the live bytes. -/
theorem uart_contents_push (s : RP2040UARTState) (b : Nat)
    (hl : s.rx_fifo_len < 32)
    (hw : s.rx_fifo_wr = (s.rx_fifo_rd + s.rx_fifo_len) % 32) :
    uart_fifo_contents
      { s with rx_fifo := Function.update s.rx_fifo s.rx_fifo_wr (b % 256),
               rx_fifo_wr := u32 (s.rx_fifo_wr + 1) % FIFO_SIZE,
               rx_fifo_len := s.rx_fifo_len + 1,
               ris := s.ris ||| INT_RX }
      = uart_fifo_contents s ++ [b % 256] := by
  show (List.range (s.rx_fifo_len + 1)).map
      (fun i => Function.update s.rx_fifo s.rx_fifo_wr (b % 256) ((s.rx_fifo_rd + i) % 32))
    = (List.range s.rx_fifo_len).map (fun i => s.rx_fifo ((s.rx_fifo_rd + i) % 32)) ++ [b % 256]
  rw [List.range_succ, List.map_append]
  congr 1
  · apply List.map_congr_left
    intro i hi
    have hi2 : i < s.rx_fifo_len := List.mem_range.mp hi
    have hne : (s.rx_fifo_rd + i) % 32 ≠ s.rx_fifo_wr := by omega
    exact Function.update_noteq hne _ _
  · show [Function.update s.rx_fifo s.rx_fifo_wr (b % 256) ((s.rx_fifo_rd + s.rx_fifo_len) % 32)]
      = [b % 256]
    rw [← hw, Function.update_same]

/-- With room for the whole buffer the receive loop appends every byte. -/
theorem uart_rx_loop_contents (buf : List Nat) (s : RP2040UARTState)
    (hl : s.rx_fifo_len + buf.length ≤ 32) (hr : s.rx_fifo_rd < 32)
    (hw : s.rx_fifo_wr = (s.rx_fifo_rd + s.rx_fifo_len) % 32) :
    uart_fifo_contents (uart_rx_loop s buf) = uart_fifo_contents s ++ buf.map (fun b => b % 256) ∧
    (uart_rx_loop s buf).rx_fifo_len = s.rx_fifo_len + buf.length ∧
    (uart_rx_loop s buf).cr = s.cr := by
  induction buf generalizing s with
  | nil => exact ⟨by simp [uart_rx_loop], rfl, rfl⟩
  | cons b rest ih =>
    have hlen : s.rx_fifo_len < 32 := by
      simp only [List.length_cons] at hl; omega
    have hlt : s.rx_fifo_len < FIFO_SIZE := hlen
    unfold uart_rx_loop
    rw [if_pos hlt]
    have hstep := ih
      { s with rx_fifo := Function.update s.rx_fifo s.rx_fifo_wr (b % 256),
               rx_fifo_wr := u32 (s.rx_fifo_wr + 1) % FIFO_SIZE,
               rx_fifo_len := s.rx_fifo_len + 1,
               ris := s.ris ||| INT_RX }
      (by show s.rx_fifo_len + 1 + rest.length ≤ 32
          simp only [List.length_cons] at hl; omega)
      hr
      (by show u32 (s.rx_fifo_wr + 1) % FIFO_SIZE = (s.rx_fifo_rd + (s.rx_fifo_len + 1)) % 32
          simp only [u32, FIFO_SIZE]; omega)
    obtain ⟨h1, h2, h3⟩ := hstep
    refine ⟨?_, ?_, ?_⟩
    · rw [h1, uart_contents_push s b hlen hw]
      simp
    · rw [h2]
      show s.rx_fifo_len + 1 + rest.length = s.rx_fifo_len + (rest.length + 1)
      omega
    · rw [h3]

/-- A receive event with the receiver enabled and room for the whole buffer
appends every byte and keeps the ring well formed. -/
theorem uart_rx_contents (s : RP2040UARTState) (buf : List Nat) (h : UartInv s)
    (hen : s.cr &&& CR_UARTEN ≠ 0) (hrx : s.cr &&& CR_RXE ≠ 0)
    (hl : s.rx_fifo_len + buf.length ≤ 32) :
    uart_fifo_contents (rp2040_uart_rx s buf)
      = uart_fifo_contents s ++ buf.map (fun b => b % 256) ∧
    (rp2040_uart_rx s buf).rx_fifo_len = s.rx_fifo_len + buf.length ∧
    (rp2040_uart_rx s buf).cr = s.cr := by
  have hcond : ¬ (s.cr &&& CR_UARTEN = 0 ∨ s.cr &&& CR_RXE = 0) := by
    rintro (h0 | h0)
    · exact hen h0
    · exact hrx h0
  unfold rp2040_uart_rx
  rw [if_neg hcond]
  exact uart_rx_loop_contents buf s hl h.rd_lt h.wr_eq

theorem uart_rx_all_contents (bufs : List (List Nat)) (s : RP2040UARTState) (h : UartInv s)
    (hen : s.cr &&& CR_UARTEN ≠ 0) (hrx : s.cr &&& CR_RXE ≠ 0)
    (hl : s.rx_fifo_len + bufs.flatten.length ≤ 32) :
    uart_fifo_contents (uart_rx_all s bufs)
      = uart_fifo_contents s ++ bufs.flatten.map (fun b => b % 256) ∧
    (uart_rx_all s bufs).rx_fifo_len = s.rx_fifo_len + bufs.flatten.length ∧
    UartInv (uart_rx_all s bufs) := by
  induction bufs generalizing s with
  | nil => exact ⟨by simp [uart_rx_all], rfl, h⟩
  | cons buf rest ih =>
    simp only [List.flatten_cons, List.length_append] at hl
    obtain ⟨h1, h2, h3⟩ := uart_rx_contents s buf h hen hrx (by omega)
    obtain ⟨k1, k2, k3⟩ := ih (rp2040_uart_rx s buf) (uartInv_rx s buf h)
      (by rw [h3]; exact hen) (by rw [h3]; exact hrx) (by rw [h2]; omega)
    have hfold : uart_rx_all s (buf :: rest) = uart_rx_all (rp2040_uart_rx s buf) rest := rfl
    rw [hfold]
    refine ⟨?_, ?_, k3⟩
    · rw [k1, h1]; simp
    · rw [k2, h2]; simp only [List.flatten_cons, List.length_append]; omega

/-- Reading the data register as many times as the FIFO holds bytes returns
the live bytes, oldest first, and leaves the FIFO empty. -/
theorem uart_read_dr_contents (n : Nat) (s : RP2040UARTState) (h : UartInv s)
    (hn : s.rx_fifo_len = n) :
    (uart_read_dr n s).1 = uart_fifo_contents s ∧ (uart_read_dr n s).2.rx_fifo_len = 0 := by
  induction n generalizing s with
  | zero =>
    refine ⟨?_, hn⟩
    show [] = (List.range s.rx_fifo_len).map _
    rw [hn]; rfl
  | succ n ih =>
    have hpos : s.rx_fifo_len > 0 := by omega
    have hrd := h.rd_lt
    have hinv := uartInv_read s UART_DR h
    have hval : (rp2040_uart_read s UART_DR).1 = s.rx_fifo s.rx_fifo_rd := by
      show (if s.rx_fifo_len > 0 then _ else ((0 : Nat), s)).1 = _
      rw [if_pos hpos]
    have hlen : (rp2040_uart_read s UART_DR).2.rx_fifo_len = n := by
      show (if s.rx_fifo_len > 0 then _ else ((0 : Nat), s)).2.rx_fifo_len = n
      rw [if_pos hpos]
      show (if s.rx_fifo_len - 1 = 0 then _ else _ : RP2040UARTState).rx_fifo_len = n
      split <;> (show s.rx_fifo_len - 1 = n) <;> omega
    have hrd2 : (rp2040_uart_read s UART_DR).2.rx_fifo_rd = (s.rx_fifo_rd + 1) % 32 := by
      show (if s.rx_fifo_len > 0 then _ else ((0 : Nat), s)).2.rx_fifo_rd = _
      rw [if_pos hpos]
      show (if s.rx_fifo_len - 1 = 0 then _ else _ : RP2040UARTState).rx_fifo_rd = _
      split <;> (show u32 (s.rx_fifo_rd + 1) % FIFO_SIZE = _) <;>
        (simp only [u32, FIFO_SIZE]; omega)
    have hfifo : (rp2040_uart_read s UART_DR).2.rx_fifo = s.rx_fifo := by
      show (if s.rx_fifo_len > 0 then _ else ((0 : Nat), s)).2.rx_fifo = _
      rw [if_pos hpos]
      show (if s.rx_fifo_len - 1 = 0 then _ else _ : RP2040UARTState).rx_fifo = _
      split <;> rfl
    obtain ⟨i1, i2⟩ := ih (rp2040_uart_read s UART_DR).2 hinv hlen
    refine ⟨?_, i2⟩
    show (rp2040_uart_read s UART_DR).1 :: (uart_read_dr n (rp2040_uart_read s UART_DR).2).1 = _
    rw [i1, hval]
    unfold uart_fifo_contents
    rw [hlen, hrd2, hfifo, hn, List.range_succ_eq_map, List.map_cons, List.map_map]
    congr 1
    · rw [Nat.add_zero, Nat.mod_eq_of_lt hrd]
    · apply List.map_congr_left
      intro i _
      show s.rx_fifo (((s.rx_fifo_rd + 1) % 32 + i) % 32) = s.rx_fifo ((s.rx_fifo_rd + (i + 1)) % 32)
      congr 1
      omega

/-- C1: the UART receive FIFO is first-in-first-out. From any state reachable
from reset whose receive FIFO is empty and whose control register has UARTEN
and RXE set, after at most 32 bytes have been delivered through
`rp2040_uart_rx`, in one buffer or split over several, as many reads of the
data register return exactly those bytes in delivery order and leave the FIFO
empty. -/
theorem uart_rx_fifo_is_fifo (s : RP2040UARTState) (h : UartReachable s)
    (hempty : s.rx_fifo_len = 0) (hen : s.cr &&& CR_UARTEN ≠ 0) (hrx : s.cr &&& CR_RXE ≠ 0)
    (bufs : List (List Nat)) (hbytes : ∀ b ∈ bufs.flatten, b < 256)
    (hn : bufs.flatten.length ≤ 32) :
    (uart_read_dr bufs.flatten.length (uart_rx_all s bufs)).1 = bufs.flatten ∧
    (uart_read_dr bufs.flatten.length (uart_rx_all s bufs)).2.rx_fifo_len = 0 := by
  have hinv := uartInv_of_reachable s h
  obtain ⟨h1, h2, h3⟩ := uart_rx_all_contents bufs s hinv hen hrx (by rw [hempty]; omega)
  obtain ⟨r1, r2⟩ := uart_read_dr_contents bufs.flatten.length (uart_rx_all s bufs) h3
    (by rw [h2, hempty]; omega)
  refine ⟨?_, r2⟩
  rw [r1, h1]
  have hnil : uart_fifo_contents s = [] := by
    unfold uart_fifo_contents
    rw [hempty]; rfl
  rw [hnil, List.nil_append]
  conv_rhs => rw [← List.map_id bufs.flatten]
  apply List.map_congr_left
  intro b hb
  exact Nat.mod_eq_of_lt (hbytes b hb)

theorem uart_rx_fifo_is_fifo_witness :
    (uart_read_dr 5 (uart_rx_all
      (rp2040_uart_write (rp2040_uart_reset uart_zero) UART_CR 0x301) [[1, 2], [], [3, 4, 255]])).1
      = [1, 2, 3, 4, 255] ∧
    (uart_read_dr 5 (uart_rx_all
      (rp2040_uart_write (rp2040_uart_reset uart_zero) UART_CR 0x301)
        [[1, 2], [], [3, 4, 255]])).2.rx_fifo_len = 0 :=
  uart_rx_fifo_is_fifo (rp2040_uart_write (rp2040_uart_reset uart_zero) UART_CR 0x301)
    (UartReachable.write _ _ _ (UartReachable.reset uart_zero)) rfl (by decide) (by decide)
    [[1, 2], [], [3, 4, 255]] (by decide) (by decide)

/-! ## GPIO: the interrupt lines computed by `rp2040_gpio_update_irq` -/

theorem gpio_irq_step_fst (s : RP2040GPIOState) (acc : Nat × Nat) (i : Nat) :
    (gpio_irq_step s acc i).1 ≠ 0 ↔
      acc.1 ≠ 0 ∨ (s.intr (i / 8) &&& (0xF <<< ((i % 8) * 4)) ≠ 0 ∧
        s.proc0_inte (i / 8) &&& (0xF <<< ((i % 8) * 4)) ≠ 0) := by
  unfold gpio_irq_step
  by_cases h1 : s.intr (i / 8) &&& (0xF <<< ((i % 8) * 4)) ≠ 0
  · by_cases h2 : s.proc0_inte (i / 8) &&& (0xF <<< ((i % 8) * 4)) ≠ 0
    · simp only [if_pos h1, if_pos h2]
      constructor
      · intro _; exact Or.inr ⟨h1, h2⟩
      · intro _; exact Nat.one_ne_zero
    · simp only [if_pos h1, if_neg h2]
      constructor
      · intro h; exact Or.inl h
      · rintro (h | ⟨_, h⟩)
        · exact h
        · exact absurd h h2
  · simp only [if_neg h1]
    constructor
    · intro h; exact Or.inl h
    · rintro (h | ⟨h, _⟩)
      · exact h
      · exact absurd h h1

theorem gpio_irq_step_snd (s : RP2040GPIOState) (acc : Nat × Nat) (i : Nat) :
    (gpio_irq_step s acc i).2 ≠ 0 ↔
      acc.2 ≠ 0 ∨ (s.intr (i / 8) &&& (0xF <<< ((i % 8) * 4)) ≠ 0 ∧
        s.proc1_inte (i / 8) &&& (0xF <<< ((i % 8) * 4)) ≠ 0) := by
  unfold gpio_irq_step
  by_cases h1 : s.intr (i / 8) &&& (0xF <<< ((i % 8) * 4)) ≠ 0
  · by_cases h2 : s.proc1_inte (i / 8) &&& (0xF <<< ((i % 8) * 4)) ≠ 0
    · simp only [if_pos h1, if_pos h2]
      constructor
      · intro _; exact Or.inr ⟨h1, h2⟩
      · intro _; exact Nat.one_ne_zero
    · simp only [if_pos h1, if_neg h2]
      constructor
      · intro h; exact Or.inl h
      · rintro (h | ⟨_, h⟩)
        · exact h
        · exact absurd h h2
  · simp only [if_neg h1]
    constructor
    · intro h; exact Or.inl h
    · rintro (h | ⟨h, _⟩)
      · exact h
      · exact absurd h h1

theorem gpio_irq_fold_fst (s : RP2040GPIOState) (l : List Nat) (acc : Nat × Nat) :
    (l.foldl (gpio_irq_step s) acc).1 ≠ 0 ↔
      acc.1 ≠ 0 ∨ ∃ i ∈ l, s.intr (i / 8) &&& (0xF <<< ((i % 8) * 4)) ≠ 0 ∧
        s.proc0_inte (i / 8) &&& (0xF <<< ((i % 8) * 4)) ≠ 0 := by
  induction l generalizing acc with
  | nil => simp
  | cons a rest ih =>
    rw [List.foldl_cons, ih, gpio_irq_step_fst]
    constructor
    · rintro ((h | h) | ⟨i, hi, h⟩)
      · exact Or.inl h
      · exact Or.inr ⟨a, List.mem_cons_self a rest, h⟩
      · exact Or.inr ⟨i, List.mem_cons_of_mem a hi, h⟩
    · rintro (h | ⟨i, hi, h⟩)
      · exact Or.inl (Or.inl h)
      · rcases List.mem_cons.mp hi with rfl | hi
        · exact Or.inl (Or.inr h)
        · exact Or.inr ⟨i, hi, h⟩

theorem gpio_irq_fold_snd (s : RP2040GPIOState) (l : List Nat) (acc : Nat × Nat) :
    (l.foldl (gpio_irq_step s) acc).2 ≠ 0 ↔
      acc.2 ≠ 0 ∨ ∃ i ∈ l, s.intr (i / 8) &&& (0xF <<< ((i % 8) * 4)) ≠ 0 ∧
        s.proc1_inte (i / 8) &&& (0xF <<< ((i % 8) * 4)) ≠ 0 := by
  induction l generalizing acc with
  | nil => simp
  | cons a rest ih =>
    rw [List.foldl_cons, ih, gpio_irq_step_snd]
    constructor
    · rintro ((h | h) | ⟨i, hi, h⟩)
      · exact Or.inl h
      · exact Or.inr ⟨a, List.mem_cons_self a rest, h⟩
      · exact Or.inr ⟨i, List.mem_cons_of_mem a hi, h⟩
    · rintro (h | ⟨i, hi, h⟩)
      · exact Or.inl (Or.inl h)
      · rcases List.mem_cons.mp hi with rfl | hi
        · exact Or.inl (Or.inr h)
        · exact Or.inr ⟨i, hi, h⟩

/-- The core-0 line driven by `rp2040_gpio_update_irq` is high exactly when
some pin below 30 has a pending bit in its 4-bit INTR field and an enable bit
in its 4-bit PROC0_INTE field. -/
theorem gpio_update_irq_proc0 (s : RP2040GPIOState) :
    (rp2040_gpio_update_irq s).proc0_irq = true ↔
      ∃ i, i < 30 ∧ s.intr (i / 8) &&& (0xF <<< ((i % 8) * 4)) ≠ 0 ∧
        s.proc0_inte (i / 8) &&& (0xF <<< ((i % 8) * 4)) ≠ 0 := by
  show decide ((gpio_irq_status s).1 ≠ 0) = true ↔ _
  rw [decide_eq_true_iff]
  unfold gpio_irq_status
  rw [gpio_irq_fold_fst]
  constructor
  · rintro (h | ⟨i, hi, h⟩)
    · exact absurd rfl h
    · exact ⟨i, List.mem_range.mp hi, h⟩
  · rintro ⟨i, hi, h⟩
    exact Or.inr ⟨i, List.mem_range.mpr hi, h⟩

/-- The core-1 line driven by `rp2040_gpio_update_irq`, likewise. -/
theorem gpio_update_irq_proc1 (s : RP2040GPIOState) :
    (rp2040_gpio_update_irq s).proc1_irq = true ↔
      ∃ i, i < 30 ∧ s.intr (i / 8) &&& (0xF <<< ((i % 8) * 4)) ≠ 0 ∧
        s.proc1_inte (i / 8) &&& (0xF <<< ((i % 8) * 4)) ≠ 0 := by
  show decide ((gpio_irq_status s).2 ≠ 0) = true ↔ _
  rw [decide_eq_true_iff]
  unfold gpio_irq_status
  rw [gpio_irq_fold_snd]
  constructor
  · rintro (h | ⟨i, hi, h⟩)
    · exact absurd rfl h
    · exact ⟨i, List.mem_range.mp hi, h⟩
  · rintro ⟨i, hi, h⟩
    exact Or.inr ⟨i, List.mem_range.mpr hi, h⟩

/-- The lines computed by `rp2040_gpio_update_irq` depend on the INTR and
enable registers only. -/
theorem gpio_irq_status_congr (s t : RP2040GPIOState) (h1 : t.intr = s.intr)
    (h2 : t.proc0_inte = s.proc0_inte) (h3 : t.proc1_inte = s.proc1_inte) :
    gpio_irq_status t = gpio_irq_status s := by
  unfold gpio_irq_status
  congr 1
  funext acc i
  unfold gpio_irq_step
  rw [h1, h2, h3]

/-! ## GPIO: reporting a pin level -/

theorem shiftLeft_or_shiftLeft (a b k : Nat) : (a <<< k) ||| (b <<< k) = (a ||| b) <<< k := by
  apply Nat.eq_of_testBit_eq
  intro i
  simp only [Nat.testBit_or, Nat.testBit_shiftLeft]
  cases decide (i ≥ k) <;> simp

theorem level_bit_after_set (x : Nat) : ((x ||| (1 <<< 17)) >>> 17) &&& 1 = 1 := by
  rw [Nat.and_one_is_mod, Nat.shiftRight_eq_div_pow, ← Nat.toNat_testBit, Nat.testBit_or]
  have : (1 <<< 17).testBit 17 = true := by decide
  rw [this, Bool.or_true]
  rfl

theorem level_bit_after_clear (x : Nat) : ((x &&& not32 (1 <<< 17)) >>> 17) &&& 1 = 0 := by
  rw [Nat.and_one_is_mod, Nat.shiftRight_eq_div_pow, ← Nat.toNat_testBit, Nat.testBit_and]
  have : (not32 (1 <<< 17)).testBit 17 = false := by decide
  rw [this, Bool.and_false]
  rfl

theorem gpio_store_level_ctrl (s : RP2040GPIOState) (pin : Nat) (level : Int) :
    (gpio_store_level s pin level).ctrl = s.ctrl := by
  unfold gpio_store_level
  split <;> rfl

theorem gpio_store_level_intr (s : RP2040GPIOState) (pin : Nat) (level : Int) :
    (gpio_store_level s pin level).intr = s.intr := by
  unfold gpio_store_level
  split <;> rfl

/-- Storing the level a second time changes nothing: the level bit already
has the value that is stored. -/
theorem gpio_store_level_again (s t : RP2040GPIOState) (pin : Nat) (level : Int)
    (h : t.status pin = (gpio_store_level s pin level).status pin) :
    gpio_store_level t pin level = t ∧
    (t.status pin >>> 17) &&& 1 = if level ≠ 0 then 1 else 0 := by
  unfold gpio_store_level at h ⊢
  by_cases hl : level ≠ 0
  · rw [if_pos hl] at h
    rw [if_pos hl, if_pos hl]
    have hv : t.status pin = s.status pin ||| (1 <<< 17) := by
      rw [h]; exact Function.update_same _ _ _
    refine ⟨?_, ?_⟩
    · have : t.status pin ||| (1 <<< 17) = t.status pin := by
        rw [hv, Nat.or_assoc, Nat.or_self]
      rw [this, Function.update_eq_self]
    · rw [hv]; exact level_bit_after_set _
  · rw [if_neg hl] at h
    rw [if_neg hl, if_neg hl]
    have hv : t.status pin = s.status pin &&& not32 (1 <<< 17) := by
      rw [h]; exact Function.update_same _ _ _
    refine ⟨?_, ?_⟩
    · have : t.status pin &&& not32 (1 <<< 17) = t.status pin := by
        rw [hv, Nat.and_assoc, Nat.and_self]
      rw [this, Function.update_eq_self]
    · rw [hv]; exact level_bit_after_clear _

/-- The conditions raised when the same level is reported again are among
those raised the first time. -/
theorem gpio_int_status_repeat (m old : Nat) (level : Int) :
    gpio_int_status m old level ||| gpio_int_status m (if level ≠ 0 then 1 else 0) level
      = gpio_int_status m old level := by
  unfold gpio_int_status
  by_cases hl : level = 0 <;> by_cases ho : old = 0 <;>
    by_cases h0 : m &&& INT_LEVEL_LOW = 0 <;> by_cases h1 : m &&& INT_LEVEL_HIGH = 0 <;>
    by_cases h2 : m &&& INT_EDGE_LOW = 0 <;> by_cases h3 : m &&& INT_EDGE_HIGH = 0 <;>
    simp [hl, ho, h0, h1, h2, h3] <;> decide

theorem gpio_update_irq_idem (s : RP2040GPIOState) :
    rp2040_gpio_update_irq (rp2040_gpio_update_irq s) = rp2040_gpio_update_irq s := by
  have h : gpio_irq_status (rp2040_gpio_update_irq s) = gpio_irq_status s :=
    gpio_irq_status_congr s _ rfl rfl rfl
  show ({ rp2040_gpio_update_irq s with
      proc0_irq := decide ((gpio_irq_status (rp2040_gpio_update_irq s)).1 ≠ 0),
      proc1_irq := decide ((gpio_irq_status (rp2040_gpio_update_irq s)).2 ≠ 0) } : RP2040GPIOState)
    = rp2040_gpio_update_irq s
  rw [h]
  rfl

/-- C7: reporting an unchanged level adds nothing. For every GPIO state,
every pin and every level, calling `rp2040_gpio_set_input` a second time with
the same pin and level yields the state left by the first call: the same
INTR pending bits, STATUS registers and interrupt line levels. -/
theorem gpio_set_input_unchanged_level (s : RP2040GPIOState) (pin : Nat) (level : Int) :
    rp2040_gpio_set_input (rp2040_gpio_set_input s pin level) pin level
      = rp2040_gpio_set_input s pin level := by
  by_cases hp : pin ≥ GPIO_NUM_PINS
  · unfold rp2040_gpio_set_input
    rw [if_pos hp, if_pos hp]
  -- the second call on a state `t` that carries the stored level
  have second : ∀ t : RP2040GPIOState,
      t.status pin = (gpio_store_level s pin level).status pin →
      rp2040_gpio_set_input t pin level =
        if t.ctrl pin &&& 0x1F = FUNCSEL_SIO then
          if gpio_int_status ((t.ctrl pin >>> 28) &&& 0xF) (if level ≠ 0 then 1 else 0) level ≠ 0
          then
            rp2040_gpio_update_irq
              { t with intr := (Function.update t.intr (pin / 8)
                  (t.intr (pin / 8) |||
                    (gpio_int_status ((t.ctrl pin >>> 28) &&& 0xF)
                      (if level ≠ 0 then 1 else 0) level <<< ((pin % 8) * 4)))) }
          else t
        else t := by
    intro t ht
    obtain ⟨e1, e2⟩ := gpio_store_level_again s t pin level ht
    unfold rp2040_gpio_set_input
    rw [if_neg hp]
    simp only [e1, e2]
  have first : rp2040_gpio_set_input s pin level =
      if s.ctrl pin &&& 0x1F = FUNCSEL_SIO then
        if gpio_int_status ((s.ctrl pin >>> 28) &&& 0xF) ((s.status pin >>> 17) &&& 1) level ≠ 0
        then
          rp2040_gpio_update_irq
            { gpio_store_level s pin level with
              intr := (Function.update s.intr (pin / 8)
                (s.intr (pin / 8) |||
                  (gpio_int_status ((s.ctrl pin >>> 28) &&& 0xF) ((s.status pin >>> 17) &&& 1)
                    level <<< ((pin % 8) * 4)))) }
        else gpio_store_level s pin level
      else gpio_store_level s pin level := by
    unfold rp2040_gpio_set_input
    rw [if_neg hp]
    simp only [gpio_store_level_ctrl, gpio_store_level_intr]
  have hrep := gpio_int_status_repeat ((s.ctrl pin >>> 28) &&& 0xF) ((s.status pin >>> 17) &&& 1)
    level
  rw [first]
  by_cases hsio : s.ctrl pin &&& 0x1F = FUNCSEL_SIO
  · rw [if_pos hsio]
    by_cases his : gpio_int_status ((s.ctrl pin >>> 28) &&& 0xF) ((s.status pin >>> 17) &&& 1)
        level ≠ 0
    · rw [if_pos his]
      obtain ⟨t, ht⟩ : ∃ t, t = rp2040_gpio_update_irq
            { gpio_store_level s pin level with
              intr := (Function.update s.intr (pin / 8)
                (s.intr (pin / 8) |||
                  (gpio_int_status ((s.ctrl pin >>> 28) &&& 0xF) ((s.status pin >>> 17) &&& 1)
                    level <<< ((pin % 8) * 4)))) } := ⟨_, rfl⟩
      rw [← ht]
      have hst : t.status pin = (gpio_store_level s pin level).status pin := by rw [ht]; rfl
      have hc : t.ctrl pin = s.ctrl pin := by
        rw [ht]; exact congrFun (gpio_store_level_ctrl s pin level) pin
      have hintr : t.intr = Function.update s.intr (pin / 8)
                (s.intr (pin / 8) |||
                  (gpio_int_status ((s.ctrl pin >>> 28) &&& 0xF) ((s.status pin >>> 17) &&& 1)
                    level <<< ((pin % 8) * 4))) := by rw [ht]; rfl
      have hidem : rp2040_gpio_update_irq t = t := by rw [ht]; exact gpio_update_irq_idem _
      rw [second t hst, hc, if_pos hsio]
      by_cases h2 : gpio_int_status ((s.ctrl pin >>> 28) &&& 0xF) (if level ≠ 0 then 1 else 0)
          level ≠ 0
      · -- the repeated conditions are already pending
        rw [if_pos h2]
        have hsame : Function.update t.intr (pin / 8)
            (t.intr (pin / 8) |||
              (gpio_int_status ((s.ctrl pin >>> 28) &&& 0xF) (if level ≠ 0 then 1 else 0) level
                <<< ((pin % 8) * 4))) = t.intr := by
          rw [hintr, Function.update_same, Nat.or_assoc, shiftLeft_or_shiftLeft, hrep,
            Function.update_idem]
        rw [hsame]
        exact hidem
      · rw [if_neg h2]
    · rw [if_neg his]
      rw [second (gpio_store_level s pin level) rfl, gpio_store_level_ctrl, if_pos hsio]
      have hz : gpio_int_status ((s.ctrl pin >>> 28) &&& 0xF) (if level ≠ 0 then 1 else 0) level
          = 0 := by
        have h0 : gpio_int_status ((s.ctrl pin >>> 28) &&& 0xF) ((s.status pin >>> 17) &&& 1)
            level = 0 := not_not.mp his
        rw [h0, Nat.zero_or] at hrep
        exact hrep
      rw [hz]
      rfl
  · rw [if_neg hsio]
    rw [second (gpio_store_level s pin level) rfl, gpio_store_level_ctrl, if_neg hsio]

/-- The form of `rp2040_gpio_set_input` on a pin below 30. -/
theorem gpio_set_input_eq (s : RP2040GPIOState) (pin : Nat) (level : Int)
    (hp : pin < GPIO_NUM_PINS) :
    rp2040_gpio_set_input s pin level =
      if s.ctrl pin &&& 0x1F = FUNCSEL_SIO then
        if gpio_int_status ((s.ctrl pin >>> 28) &&& 0xF) ((s.status pin >>> 17) &&& 1) level ≠ 0
        then
          rp2040_gpio_update_irq
            { gpio_store_level s pin level with
              intr := (Function.update s.intr (pin / 8)
                (s.intr (pin / 8) |||
                  (gpio_int_status ((s.ctrl pin >>> 28) &&& 0xF) ((s.status pin >>> 17) &&& 1)
                    level <<< ((pin % 8) * 4)))) }
        else gpio_store_level s pin level
      else gpio_store_level s pin level := by
  unfold rp2040_gpio_set_input
  rw [if_neg (Nat.not_le.mpr hp)]
  simp only [gpio_store_level_ctrl, gpio_store_level_intr]

theorem gpio_store_level_proc0_inte (s : RP2040GPIOState) (pin : Nat) (level : Int) :
    (gpio_store_level s pin level).proc0_inte = s.proc0_inte := by
  unfold gpio_store_level
  split <;> rfl

theorem gpio_store_level_proc1_inte (s : RP2040GPIOState) (pin : Nat) (level : Int) :
    (gpio_store_level s pin level).proc1_inte = s.proc1_inte := by
  unfold gpio_store_level
  split <;> rfl

theorem gpio_store_level_status (s : RP2040GPIOState) (pin : Nat) (level : Int) :
    (gpio_store_level s pin level).status =
      Function.update s.status pin
        (if level ≠ 0 then s.status pin ||| (1 <<< 17) else s.status pin &&& not32 (1 <<< 17)) := by
  unfold gpio_store_level
  split <;> rfl

/-- `rp2040_gpio_set_input` never writes a CTRL or an enable register. -/
theorem gpio_set_input_frame (s : RP2040GPIOState) (pin : Nat) (level : Int) :
    (rp2040_gpio_set_input s pin level).ctrl = s.ctrl ∧
    (rp2040_gpio_set_input s pin level).proc0_inte = s.proc0_inte ∧
    (rp2040_gpio_set_input s pin level).proc1_inte = s.proc1_inte := by
  by_cases hp : pin < GPIO_NUM_PINS
  · rw [gpio_set_input_eq s pin level hp]
    have h1 := gpio_store_level_ctrl s pin level
    have h2 := gpio_store_level_proc0_inte s pin level
    have h3 := gpio_store_level_proc1_inte s pin level
    split
    · split
      · exact ⟨h1, h2, h3⟩
      · exact ⟨h1, h2, h3⟩
    · exact ⟨h1, h2, h3⟩
  · unfold rp2040_gpio_set_input
    rw [if_pos (Nat.not_lt.mp hp)]
    exact ⟨rfl, rfl, rfl⟩

/-- On a software-I/O pin, `rp2040_gpio_set_input` stores the level in bit 17
of the STATUS register and ORs the raised conditions into the 4-bit INTR field
of the pin. -/
theorem gpio_set_input_sio (s : RP2040GPIOState) (pin : Nat) (level : Int)
    (hp : pin < GPIO_NUM_PINS) (hsio : s.ctrl pin &&& 0x1F = FUNCSEL_SIO) :
    (rp2040_gpio_set_input s pin level).status =
      Function.update s.status pin
        (if level ≠ 0 then s.status pin ||| (1 <<< 17) else s.status pin &&& not32 (1 <<< 17)) ∧
    (rp2040_gpio_set_input s pin level).intr =
      Function.update s.intr (pin / 8)
        (s.intr (pin / 8) |||
          (gpio_int_status ((s.ctrl pin >>> 28) &&& 0xF) ((s.status pin >>> 17) &&& 1) level
            <<< ((pin % 8) * 4))) := by
  rw [gpio_set_input_eq s pin level hp, if_pos hsio]
  by_cases his : gpio_int_status ((s.ctrl pin >>> 28) &&& 0xF) ((s.status pin >>> 17) &&& 1)
      level ≠ 0
  · rw [if_pos his]
    exact ⟨gpio_store_level_status s pin level, rfl⟩
  · rw [if_neg his]
    refine ⟨gpio_store_level_status s pin level, ?_⟩
    rw [not_not.mp his, Nat.zero_shiftLeft, Nat.or_zero, Function.update_eq_self]
    exact gpio_store_level_intr s pin level

/-- When a condition is raised the two lines are recomputed from the new
INTR registers. -/
theorem gpio_set_input_lines (s : RP2040GPIOState) (pin : Nat) (level : Int)
    (hp : pin < GPIO_NUM_PINS) (hsio : s.ctrl pin &&& 0x1F = FUNCSEL_SIO)
    (his : gpio_int_status ((s.ctrl pin >>> 28) &&& 0xF) ((s.status pin >>> 17) &&& 1) level ≠ 0) :
    rp2040_gpio_set_input s pin level
      = rp2040_gpio_update_irq (rp2040_gpio_set_input s pin level) := by
  rw [gpio_set_input_eq s pin level hp, if_pos hsio, if_pos his]
  exact (gpio_update_irq_idem _).symm

/-! ## GPIO: the pin-5 edge-high scenario -/

/-- C5, as stated: with pin 5 set to function select 5 by writing 5 to its
CTRL register and bit 23 of PROC0_INTE0 set, reporting pin 5 low and then
high records no pending bit and leaves the core-0 line low. -/
theorem gpio_pin5_scenario_plain_ctrl :
    (gpio_pin5_scenario gpio_zero 5 0x800000).ctrl 5 &&& 0x1F = FUNCSEL_SIO ∧
    (gpio_pin5_scenario gpio_zero 5 0x800000).proc0_inte 0 = 0x800000 ∧
    (gpio_pin5_scenario gpio_zero 5 0x800000).intr 0 = 0 ∧
    (gpio_pin5_scenario gpio_zero 5 0x800000).proc0_irq = false := by
  decide

theorem gpio_pin5_setup_fields (s0 : RP2040GPIOState) (v e : Nat)
    (hf : v &&& 0x1F = FUNCSEL_SIO) :
    (gpio_pin5_setup s0 v e).status 5 = 5 ∧
    (gpio_pin5_setup s0 v e).ctrl 5 = u32 v ∧
    (gpio_pin5_setup s0 v e).intr = (fun _ => 0) ∧
    (gpio_pin5_setup s0 v e).proc0_inte 0 = u32 e ∧
    (gpio_pin5_setup s0 v e).proc1_inte = (fun _ => 0) := by
  have hw : rp2040_gpio_write (rp2040_gpio_reset s0) (GPIO_CTRL 5) v =
      { rp2040_gpio_reset s0 with
        ctrl := Function.update (rp2040_gpio_reset s0).ctrl 5 (u32 v),
        status := Function.update (rp2040_gpio_reset s0).status 5
          (((rp2040_gpio_reset s0).status 5 &&& not32 0x1F) ||| (v &&& 0x1F)) } := by
    show (if v &&& 0x1F = FUNCSEL_SIO then _ else _) = _
    rw [if_pos hf]
    rfl
  unfold gpio_pin5_setup
  rw [hw]
  refine ⟨?_, ?_, rfl, ?_, rfl⟩
  · show Function.update (rp2040_gpio_reset s0).status 5
      (((rp2040_gpio_reset s0).status 5 &&& not32 0x1F) ||| (v &&& 0x1F)) 5 = 5
    have h5 : (rp2040_gpio_reset s0).status 5 = 31 := rfl
    rw [Function.update_same, hf, h5]
    decide
  · show Function.update (rp2040_gpio_reset s0).ctrl 5 (u32 v) 5 = u32 v
    rw [Function.update_same]
  · show Function.update (rp2040_gpio_reset s0).proc0_inte 0 (u32 e) 0 = u32 e
    rw [Function.update_same]

theorem edge_high_mask_of_bit31 (v : Nat) (hm : v &&& (INT_EDGE_HIGH <<< 28) ≠ 0) :
    ((u32 v >>> 28) &&& 0xF) &&& INT_EDGE_HIGH ≠ 0 := by
  have h31 : v.testBit 31 = true := (and_bit_ne_zero_iff v 31).mp hm
  apply (and_bit_ne_zero_iff _ 3).mpr
  show ((v % 2 ^ 32) >>> 28 &&& (2 ^ 4 - 1)).testBit 3 = true
  rw [Nat.testBit_and, Nat.testBit_shiftRight, Nat.testBit_mod_two_pow, Nat.testBit_two_pow_sub_one,
    h31]
  rfl

theorem sio_of_low_bits (v : Nat) (hf : v &&& 0x1F = FUNCSEL_SIO) :
    u32 v &&& 0x1F = FUNCSEL_SIO := by
  rw [← hf]
  apply Nat.eq_of_testBit_eq
  intro i
  show ((v % 2 ^ 32) &&& (2 ^ 5 - 1)).testBit i = (v &&& (2 ^ 5 - 1)).testBit i
  rw [Nat.testBit_and, Nat.testBit_and, Nat.testBit_mod_two_pow, Nat.testBit_two_pow_sub_one]
  by_cases hi : i < 5
  · have : i < 32 := by omega
    simp [hi, this]
  · simp [hi]

theorem enable_field_of_bit23 (e : Nat) (he : e &&& (INT_EDGE_HIGH <<< 20) ≠ 0) :
    u32 e &&& (0xF <<< ((5 % 8) * 4)) ≠ 0 := by
  have h23 : e.testBit 23 = true := (and_bit_ne_zero_iff e 23).mp he
  apply ne_zero_of_testBit _ 23
  show ((e % 2 ^ 32) &&& (0xF <<< ((5 % 8) * 4))).testBit 23 = true
  rw [Nat.testBit_and, Nat.testBit_mod_two_pow, h23]
  decide

/-- The conditions raised by the two reports of the scenario, for a mask with
the edge-high bit set: the low report raises at most level-low, the high
report raises edge-high and at most level-high besides. -/
theorem gpio_scenario_int_status (m : Nat) (hm : m &&& INT_EDGE_HIGH ≠ 0) :
    (gpio_int_status m 0 0 = 0 ∨ gpio_int_status m 0 0 = 1) ∧
    (gpio_int_status m 0 1 = 8 ∨ gpio_int_status m 0 1 = 10) := by
  unfold gpio_int_status
  by_cases h0 : m &&& INT_LEVEL_LOW = 0 <;> by_cases h1 : m &&& INT_LEVEL_HIGH = 0 <;>
    simp [h0, h1, hm] <;> decide

/-- C5, amended: from the GPIO reset state, after the CTRL register of pin 5
is written with function select 5 and with the edge-high bit of its interrupt
mask (bit 31 of CTRL) set, and PROC0_INTE0 is written with the edge-high bit
of pin 5 (bit 23) set, nothing being enabled for core 1, reporting pin 5 low
and then high leaves the edge-high pending bit of pin 5 (bit 23 of INTR0) as
the only edge-high bit pending in INTR0..3, the core-0 line high and the
core-1 line low. -/
theorem gpio_pin5_edge_high_scenario (s0 : RP2040GPIOState) (v e : Nat)
    (hf : v &&& 0x1F = FUNCSEL_SIO) (hm : v &&& (INT_EDGE_HIGH <<< 28) ≠ 0)
    (he : e &&& (INT_EDGE_HIGH <<< 20) ≠ 0) :
    (gpio_pin5_scenario s0 v e).intr 0 &&& 0x88888888 = INT_EDGE_HIGH <<< 20 ∧
    (∀ r, r ≠ 0 → (gpio_pin5_scenario s0 v e).intr r = 0) ∧
    (gpio_pin5_scenario s0 v e).proc0_irq = true ∧
    (gpio_pin5_scenario s0 v e).proc1_irq = false := by
  obtain ⟨f1, f2, f3, f4, f5⟩ := gpio_pin5_setup_fields s0 v e hf
  have hmask := edge_high_mask_of_bit31 v hm
  obtain ⟨hs1, hs2⟩ := gpio_scenario_int_status ((u32 v >>> 28) &&& 0xF) hmask
  have hp : 5 < GPIO_NUM_PINS := by decide
  -- the low report
  obtain ⟨g2, hg2⟩ : ∃ g, g = gpio_pin5_setup s0 v e := ⟨_, rfl⟩
  rw [← hg2] at f1 f2 f3 f4 f5
  have hsio2 : g2.ctrl 5 &&& 0x1F = FUNCSEL_SIO := by rw [f2]; exact sio_of_low_bits v hf
  have hold2 : (g2.status 5 >>> 17) &&& 1 = 0 := by rw [f1]; decide
  obtain ⟨a1, a2⟩ := gpio_set_input_sio g2 5 0 hp hsio2
  obtain ⟨a3, a4, a5⟩ := gpio_set_input_frame g2 5 0
  rw [f2, hold2, f3] at a2
  -- the high report
  obtain ⟨g3, hg3⟩ : ∃ g, g = rp2040_gpio_set_input g2 5 0 := ⟨_, rfl⟩
  rw [← hg3] at a1 a2 a3 a4 a5
  have hsio3 : g3.ctrl 5 &&& 0x1F = FUNCSEL_SIO := by rw [a3]; exact hsio2
  have hold3 : (g3.status 5 >>> 17) &&& 1 = 0 := by
    rw [a1, Function.update_same, if_neg (by decide)]
    exact level_bit_after_clear _
  obtain ⟨b1, b2⟩ := gpio_set_input_sio g3 5 1 hp hsio3
  obtain ⟨b3, b4, b5⟩ := gpio_set_input_frame g3 5 1
  have hraise : gpio_int_status ((g3.ctrl 5 >>> 28) &&& 0xF) ((g3.status 5 >>> 17) &&& 1) 1 ≠ 0 := by
    rw [a3, f2, hold3]
    rcases hs2 with h | h <;> rw [h] <;> decide
  have hlines := gpio_set_input_lines g3 5 1 hp hsio3 hraise
  rw [a3, f2, hold3, a2] at b2
  have hscen : gpio_pin5_scenario s0 v e = rp2040_gpio_set_input g3 5 1 := by
    rw [hg3, hg2]; rfl
  rw [hscen]
  obtain ⟨g4, hg4⟩ : ∃ g, g = rp2040_gpio_set_input g3 5 1 := ⟨_, rfl⟩
  rw [← hg4] at b1 b2 b3 b4 b5 hlines ⊢
  have hintr0 : g4.intr 0 =
      ((0 ||| (gpio_int_status ((u32 v >>> 28) &&& 0xF) 0 0 <<< ((5 % 8) * 4))) |||
        (gpio_int_status ((u32 v >>> 28) &&& 0xF) 0 1 <<< ((5 % 8) * 4))) := by
    rw [b2]
    simp only [Function.update_same]
  refine ⟨?_, ?_, ?_, ?_⟩
  · rw [hintr0]
    rcases hs1 with h | h <;> rcases hs2 with k | k <;> rw [h, k] <;> decide
  · intro r hr
    rw [b2]
    show Function.update (Function.update (fun _ => 0) (5 / 8) _) (5 / 8) _ r = 0
    have hr2 : r ≠ 5 / 8 := hr
    rw [Function.update_noteq hr2, Function.update_noteq hr2]
  · rw [hlines, gpio_update_irq_proc0]
    refine ⟨5, by decide, ?_, ?_⟩
    · show g4.intr 0 &&& (0xF <<< ((5 % 8) * 4)) ≠ 0
      rw [hintr0]
      rcases hs1 with h | h <;> rcases hs2 with k | k <;> rw [h, k] <;> decide
    · show g4.proc0_inte 0 &&& (0xF <<< ((5 % 8) * 4)) ≠ 0
      rw [b4, a4, f4]
      exact enable_field_of_bit23 e he
  · have hno : ¬ (rp2040_gpio_update_irq g4).proc1_irq = true := by
      rw [gpio_update_irq_proc1]
      rintro ⟨i, _, _, h⟩
      rw [b5, a5, f5] at h
      exact h (Nat.zero_and _)
    rw [hlines]
    exact Bool.eq_false_iff.mpr hno

theorem gpio_pin5_edge_high_scenario_witness :
    (gpio_pin5_scenario gpio_zero 0x80000005 0x800000).intr 0 &&& 0x88888888
      = INT_EDGE_HIGH <<< 20 ∧
    (∀ r, r ≠ 0 → (gpio_pin5_scenario gpio_zero 0x80000005 0x800000).intr r = 0) ∧
    (gpio_pin5_scenario gpio_zero 0x80000005 0x800000).proc0_irq = true ∧
    (gpio_pin5_scenario gpio_zero 0x80000005 0x800000).proc1_irq = false :=
  gpio_pin5_edge_high_scenario gpio_zero 0x80000005 0x800000 (by decide) (by decide) (by decide)

/-! ## GPIO: the line test of `rp2040_gpio_update_irq` against `INTR & INTE` -/

/-- C6, at the failing input: pin 0 has only its level-low bit pending
(INTR0 = 1) and core 0 enables only its edge-high condition
(PROC0_INTE0 = 8), so `INTR[r] & PROC0_INTE[r]` is zero for every register and
PROC0_INTS0 reads 0, yet the operation has driven the core-0 line high. -/
theorem gpio_line_high_with_zero_masked_status :
    gpio_mixed_field_state.intr 0 = 1 ∧
    gpio_mixed_field_state.proc0_inte 0 = 8 ∧
    (∀ r, r < 4 → gpio_mixed_field_state.intr r &&& gpio_mixed_field_state.proc0_inte r = 0) ∧
    (rp2040_gpio_read gpio_mixed_field_state PROC0_INTS0).1 = 0 ∧
    gpio_mixed_field_state.proc0_irq = true := by
  decide

/-! ## Timer: the latched 64-bit read -/

theorem timer_update_alarm_latched (s : RP2040TimerState) (alarm now : Nat) :
    (rp2040_timer_update_alarm s alarm now).latched_count = s.latched_count := by
  unfold rp2040_timer_update_alarm
  dsimp only
  split_ifs <;> rfl

theorem timer_rebase_latched (s : RP2040TimerState) (value now : Nat) :
    (rp2040_timer_write s TIMELW value now).latched_count = s.latched_count := by
  show ([0, 1, 2, 3].foldl (fun t i => rp2040_timer_update_alarm t i now) _).latched_count = _
  simp only [List.foldl_cons, List.foldl_nil, timer_update_alarm_latched]

theorem timer_rebase_all_latched (writes : List (Nat × Nat)) (s : RP2040TimerState) :
    (timer_rebase_all s writes).latched_count = s.latched_count := by
  induction writes generalizing s with
  | nil => rfl
  | cons w rest ih =>
    show (timer_rebase_all (rp2040_timer_write s TIMELW w.2 w.1) rest).latched_count = _
    rw [ih, timer_rebase_latched]

theorem timer_get_count_lt (s : RP2040TimerState) (now : Nat) :
    rp2040_timer_get_count s now < 2 ^ 64 := by
  unfold rp2040_timer_get_count u64
  exact Nat.mod_lt _ (by decide)

/-- The two 32-bit halves read by the guest reassemble the 64-bit value. -/
theorem halves_reassemble (c : Nat) (hc : c < 2 ^ 64) :
    (u32 (c >>> 32) <<< 32) ||| u32 (c &&& 0xFFFFFFFF) = c := by
  have h1 : c >>> 32 < 4294967296 := by
    rw [Nat.shiftRight_eq_div_pow]
    have : c < 2 ^ 32 * 4294967296 := by
      calc c < 2 ^ 64 := hc
        _ = 2 ^ 32 * 4294967296 := by norm_num
    exact (Nat.div_lt_iff_lt_mul (by norm_num)).mpr (by omega)
  have h2 : c &&& 0xFFFFFFFF = c % 2 ^ 32 := Nat.and_pow_two_sub_one_eq_mod c 32
  have h3 : c % 2 ^ 32 < 2 ^ 32 := Nat.mod_lt _ (by norm_num)
  unfold u32
  rw [Nat.mod_eq_of_lt h1, h2, Nat.mod_eq_of_lt (by simpa using h3), Nat.shiftLeft_eq,
    Nat.mul_comm, ← Nat.mul_add_lt_is_or h3, Nat.shiftRight_eq_div_pow]
  exact Nat.div_add_mod c (2 ^ 32)

/-- C8: a read of TIMEHW (offset 0x00) at clock time `t1` snapshots the
64-bit counter and returns its high word; a following read of TIMELW (offset
0x04) returns the low word of that snapshot, whatever rebases (writes to the
low-word register, at any later clock times) happen in between and whatever
the clock time `t3` of the second read: high and low word together are the
counter value at the instant of the first read. -/
theorem timer_latched_read_not_torn (s : RP2040TimerState) (t1 t3 : Nat)
    (writes : List (Nat × Nat)) :
    (rp2040_timer_read s TIMEHW t1).1 = u32 (rp2040_timer_get_count s t1 >>> 32) ∧
    (rp2040_timer_read (timer_rebase_all (rp2040_timer_read s TIMEHW t1).2 writes) TIMELW t3).1
      = u32 (rp2040_timer_get_count s t1 &&& 0xFFFFFFFF) ∧
    ((rp2040_timer_read s TIMEHW t1).1 <<< 32) |||
      (rp2040_timer_read (timer_rebase_all (rp2040_timer_read s TIMEHW t1).2 writes) TIMELW t3).1
      = rp2040_timer_get_count s t1 := by
  have hlow : (rp2040_timer_read (timer_rebase_all (rp2040_timer_read s TIMEHW t1).2 writes)
      TIMELW t3).1 = u32 (rp2040_timer_get_count s t1 &&& 0xFFFFFFFF) := by
    show u32 ((timer_rebase_all (rp2040_timer_read s TIMEHW t1).2 writes).latched_count
      &&& 0xFFFFFFFF) = _
    rw [timer_rebase_all_latched]
    rfl
  refine ⟨rfl, hlow, ?_⟩
  rw [hlow]
  exact halves_reassemble _ (timer_get_count_lt s t1)

/-! ## Timer: arming an alarm whose target has passed -/

/-- The body of an `ALARMk` write fires the alarm at once when the captured
target, the high word of the counter with `v` as low word, is at or below the
counter; it drives no interrupt line. -/
theorem timer_write_alarm_fires (s : RP2040TimerState) (k v now : Nat)
    (hbit : (not32 (1 <<< k)).testBit k = false)
    (hT : (u32 (rp2040_timer_get_count s now >>> 32) <<< 32) ||| u32 v
      ≤ rp2040_timer_get_count s now) :
    (timer_write_alarm s k v now).intr.testBit k = true ∧
    (timer_write_alarm s k v now).armed.testBit k = false ∧
    (timer_write_alarm s k v now).alarm_timer k = none ∧
    (timer_write_alarm s k v now).irq = s.irq := by
  have harmed : ¬ ((s.armed ||| (1 <<< k)) &&& (1 <<< k) = 0) := by
    apply (and_bit_ne_zero_iff _ k).mpr
    rw [Nat.testBit_or, Nat.one_shiftLeft, Nat.testBit_two_pow_self, Bool.or_true]
  have hw : timer_write_alarm s k v now =
      { s with alarm := Function.update s.alarm k (u32 v),
               alarm_high := Function.update s.alarm_high k
                 (u32 (rp2040_timer_get_count s now >>> 32)),
               intr := s.intr ||| (1 <<< k),
               armed := (s.armed ||| (1 <<< k)) &&& not32 (1 <<< k),
               alarm_timer := Function.update s.alarm_timer k none } := by
    unfold timer_write_alarm rp2040_timer_update_alarm
    dsimp only
    rw [if_neg harmed]
    simp only [Function.update_same]
    have hc : ∀ a : Nat → Nat, rp2040_timer_get_count
        { s with alarm := Function.update s.alarm k (u32 v),
                 alarm_high := a, armed := s.armed ||| (1 <<< k) } now
        = rp2040_timer_get_count s now := fun _ => rfl
    have hc2 : rp2040_timer_get_count
        { s with alarm := Function.update s.alarm k (u32 v) } now
        = rp2040_timer_get_count s now := rfl
    rw [hc, hc2, if_pos hT]
  rw [hw]
  refine ⟨?_, ?_, ?_, rfl⟩
  · show (s.intr ||| (1 <<< k)).testBit k = true
    rw [Nat.testBit_or, Nat.one_shiftLeft, Nat.testBit_two_pow_self, Bool.or_true]
  · show ((s.armed ||| (1 <<< k)) &&& not32 (1 <<< k)).testBit k = false
    rw [Nat.testBit_and, hbit, Bool.and_false]
  · show Function.update s.alarm_timer k none k = none
    rw [Function.update_same]

/-- C9: a write of `v` to ALARMk (offset 0x10 + 4k, k in 0..3) whose 64-bit
target, the counter's current high word with `v` as low word, is at or below
the counter fires the alarm before the write returns: raw-interrupt bit k of
INTR is set, armed bit k is clear and no clock callback of alarm k is left
scheduled. Writing the counter's current low word is such a write. -/
theorem timer_arm_at_or_before_now_fires (s : RP2040TimerState) (k now : Nat) (hk : k < 4) :
    (∀ v : Nat,
      (u32 (rp2040_timer_get_count s now >>> 32) <<< 32) ||| u32 v
        ≤ rp2040_timer_get_count s now →
      (rp2040_timer_write s (ALARM0 + 4 * k) v now).intr.testBit k = true ∧
      (rp2040_timer_write s (ALARM0 + 4 * k) v now).armed.testBit k = false ∧
      (rp2040_timer_write s (ALARM0 + 4 * k) v now).alarm_timer k = none) ∧
    ((rp2040_timer_write s (ALARM0 + 4 * k)
        (rp2040_timer_get_count s now &&& 0xFFFFFFFF) now).intr.testBit k = true ∧
      (rp2040_timer_write s (ALARM0 + 4 * k)
        (rp2040_timer_get_count s now &&& 0xFFFFFFFF) now).armed.testBit k = false ∧
      (rp2040_timer_write s (ALARM0 + 4 * k)
        (rp2040_timer_get_count s now &&& 0xFFFFFFFF) now).alarm_timer k = none) := by
  have hwrite : ∀ v, rp2040_timer_write s (ALARM0 + 4 * k) v now = timer_write_alarm s k v now := by
    intro v
    have h4 : k = 0 ∨ k = 1 ∨ k = 2 ∨ k = 3 := by omega
    rcases h4 with rfl | rfl | rfl | rfl <;> rfl
  have hbit : (not32 (1 <<< k)).testBit k = false := by
    have h4 : k = 0 ∨ k = 1 ∨ k = 2 ∨ k = 3 := by omega
    rcases h4 with rfl | rfl | rfl | rfl <;> decide
  have hgen : ∀ v : Nat,
      (u32 (rp2040_timer_get_count s now >>> 32) <<< 32) ||| u32 v
        ≤ rp2040_timer_get_count s now →
      (rp2040_timer_write s (ALARM0 + 4 * k) v now).intr.testBit k = true ∧
      (rp2040_timer_write s (ALARM0 + 4 * k) v now).armed.testBit k = false ∧
      (rp2040_timer_write s (ALARM0 + 4 * k) v now).alarm_timer k = none := by
    intro v hT
    rw [hwrite v]
    obtain ⟨a, b, c, _⟩ := timer_write_alarm_fires s k v now hbit hT
    exact ⟨a, b, c⟩
  refine ⟨hgen, hgen _ ?_⟩
  exact Nat.le_of_eq (halves_reassemble _ (timer_get_count_lt s now))

theorem timer_arm_at_or_before_now_fires_witness :
    (rp2040_timer_write (rp2040_timer_reset timer_zero 100) (ALARM0 + 4 * 2)
        (rp2040_timer_get_count (rp2040_timer_reset timer_zero 100) 164 &&& 0xFFFFFFFF)
        164).intr.testBit 2 = true ∧
    (rp2040_timer_write (rp2040_timer_reset timer_zero 100) (ALARM0 + 4 * 2)
        (rp2040_timer_get_count (rp2040_timer_reset timer_zero 100) 164 &&& 0xFFFFFFFF)
        164).armed.testBit 2 = false ∧
    (rp2040_timer_write (rp2040_timer_reset timer_zero 100) (ALARM0 + 4 * 2)
        (rp2040_timer_get_count (rp2040_timer_reset timer_zero 100) 164 &&& 0xFFFFFFFF)
        164).alarm_timer 2 = none :=
  (timer_arm_at_or_before_now_fires (rp2040_timer_reset timer_zero 100) 2 164 (by decide)).2

/-- C10, at the failing input: with the interrupt of alarm 0 enabled
(INTE = 1), a write to ALARM0 whose target has passed fires the alarm at once
(raw-interrupt bit 0 set, armed bit 0 clear, no callback scheduled) but the
interrupt line of alarm 0 is left low. -/
theorem timer_immediate_fire_line_low :
    timer_immediate_fire_state.inte = 1 ∧
    timer_immediate_fire_state.intr = 1 ∧
    timer_immediate_fire_state.armed = 0 ∧
    timer_immediate_fire_state.alarm_timer 0 = none ∧
    (rp2040_timer_read timer_immediate_fire_state INTS 5).1 = 1 ∧
    timer_immediate_fire_state.irq 0 = false := by
  decide

/-! ## UART: receive events and data-register reads, step by step -/

/-- With room for the whole buffer the receive loop stores byte `i` of the
buffer `i` slots after the write cursor, touches no other slot, and advances
the write cursor and the length by the size of the buffer. -/
theorem uart_rx_loop_slots (buf : List Nat) (s : RP2040UARTState)
    (hl : s.rx_fifo_len + buf.length ≤ 32) (hw : s.rx_fifo_wr < 32) :
    (uart_rx_loop s buf).rx_fifo_len = s.rx_fifo_len + buf.length ∧
    (uart_rx_loop s buf).rx_fifo_wr = (s.rx_fifo_wr + buf.length) % 32 ∧
    (uart_rx_loop s buf).rx_fifo_rd = s.rx_fifo_rd ∧
    (∀ i, i < buf.length →
      (uart_rx_loop s buf).rx_fifo ((s.rx_fifo_wr + i) % 32) = buf.getD i 0 % 256) ∧
    (∀ j, (∀ i, i < buf.length → j ≠ (s.rx_fifo_wr + i) % 32) →
      (uart_rx_loop s buf).rx_fifo j = s.rx_fifo j) := by
  induction buf generalizing s with
  | nil =>
    refine ⟨rfl, ?_, rfl, ?_, ?_⟩
    · show s.rx_fifo_wr = (s.rx_fifo_wr + 0) % 32
      omega
    · intro i hi
      exact absurd hi (Nat.not_lt_zero i)
    · intro j _
      rfl
  | cons b rest ih =>
    have hlen : s.rx_fifo_len < 32 := by
      simp only [List.length_cons] at hl; omega
    have hrest : rest.length ≤ 31 := by
      simp only [List.length_cons] at hl; omega
    have hlt : s.rx_fifo_len < FIFO_SIZE := hlen
    unfold uart_rx_loop
    rw [if_pos hlt]
    obtain ⟨h1, h2, h3, h4, h5⟩ := ih
      { s with rx_fifo := Function.update s.rx_fifo s.rx_fifo_wr (b % 256),
               rx_fifo_wr := u32 (s.rx_fifo_wr + 1) % FIFO_SIZE,
               rx_fifo_len := s.rx_fifo_len + 1,
               ris := s.ris ||| INT_RX }
      (by show s.rx_fifo_len + 1 + rest.length ≤ 32
          simp only [List.length_cons] at hl; omega)
      (by show u32 (s.rx_fifo_wr + 1) % FIFO_SIZE < 32
          simp only [u32, FIFO_SIZE]; omega)
    have hwr1 : u32 (s.rx_fifo_wr + 1) % FIFO_SIZE = (s.rx_fifo_wr + 1) % 32 := by
      simp only [u32, FIFO_SIZE]; omega
    refine ⟨?_, ?_, h3, ?_, ?_⟩
    · rw [h1]
      show s.rx_fifo_len + 1 + rest.length = s.rx_fifo_len + (rest.length + 1)
      omega
    · rw [h2]
      show (u32 (s.rx_fifo_wr + 1) % FIFO_SIZE + rest.length) % 32
        = (s.rx_fifo_wr + (rest.length + 1)) % 32
      rw [hwr1]; omega
    · intro i hi
      cases i with
      | zero =>
        rw [h5]
        · show Function.update s.rx_fifo s.rx_fifo_wr (b % 256) ((s.rx_fifo_wr + 0) % 32) = _
          have : (s.rx_fifo_wr + 0) % 32 = s.rx_fifo_wr := by omega
          rw [this, Function.update_same]
          rfl
        · intro i' hi'
          show (s.rx_fifo_wr + 0) % 32 ≠ (u32 (s.rx_fifo_wr + 1) % FIFO_SIZE + i') % 32
          rw [hwr1]; omega
      | succ i' =>
        have hi' : i' < rest.length := by
          simp only [List.length_cons] at hi; omega
        have := h4 i' hi'
        have hidx : (u32 (s.rx_fifo_wr + 1) % FIFO_SIZE + i') % 32
            = (s.rx_fifo_wr + (i' + 1)) % 32 := by
          rw [hwr1]; omega
        show (uart_rx_loop _ rest).rx_fifo ((s.rx_fifo_wr + (i' + 1)) % 32) = _
        rw [← hidx]
        exact this
    · intro j hj
      rw [h5]
      · show Function.update s.rx_fifo s.rx_fifo_wr (b % 256) j = s.rx_fifo j
        have h0 := hj 0 (by simp)
        have : j ≠ s.rx_fifo_wr := by
          intro e; apply h0; rw [e]; omega
        exact Function.update_noteq this _ _
      · intro i' hi'
        have := hj (i' + 1) (by simp only [List.length_cons]; omega)
        show j ≠ (u32 (s.rx_fifo_wr + 1) % FIFO_SIZE + i') % 32
        rw [hwr1]
        intro e; apply this; rw [e]; omega

/-- C19: when a byte arrives, the receiver being enabled, while the receive
FIFO of a state reachable from reset already holds 32 bytes, the overrun
raw-interrupt bit (bit 10 of RIS) is set and the byte, with the rest of its
buffer, is dropped: apart from RIS, the masked status and the interrupt line
derived from it, the state is the one before the event, so the FIFO storage,
its length and both cursors are unchanged. -/
theorem uart_rx_overrun (s : RP2040UARTState) (h : UartReachable s)
    (hen : s.cr &&& CR_UARTEN ≠ 0) (hrx : s.cr &&& CR_RXE ≠ 0)
    (hfull : s.rx_fifo_len = 32) (b : Nat) (rest : List Nat) :
    rp2040_uart_rx s (b :: rest)
      = { s with ris := s.ris ||| INT_OE,
                 mis := (s.ris ||| INT_OE) &&& s.imsc,
                 irq := decide ((s.ris ||| INT_OE) &&& s.imsc ≠ 0) } ∧
    (rp2040_uart_rx s (b :: rest)).ris &&& INT_OE ≠ 0 ∧
    (rp2040_uart_rx s (b :: rest)).rx_fifo = s.rx_fifo ∧
    (rp2040_uart_rx s (b :: rest)).rx_fifo_len = 32 ∧
    (rp2040_uart_rx s (b :: rest)).rx_fifo_rd = s.rx_fifo_rd ∧
    (rp2040_uart_rx s (b :: rest)).rx_fifo_wr = s.rx_fifo_wr ∧
    uart_fifo_contents (rp2040_uart_rx s (b :: rest)) = uart_fifo_contents s := by
  have hinv := uartInv_of_reachable s h
  have hcond : ¬ (s.cr &&& CR_UARTEN = 0 ∨ s.cr &&& CR_RXE = 0) := by
    rintro (h0 | h0)
    · exact hen h0
    · exact hrx h0
  have hnot : ¬ s.rx_fifo_len < FIFO_SIZE := by
    rw [hfull]; decide
  have hloop : uart_rx_loop s (b :: rest) = { s with ris := s.ris ||| INT_OE } := by
    unfold uart_rx_loop
    rw [if_neg hnot]
  have hrxeq : rp2040_uart_rx s (b :: rest)
      = { s with ris := s.ris ||| INT_OE,
                 mis := (s.ris ||| INT_OE) &&& s.imsc,
                 irq := decide ((s.ris ||| INT_OE) &&& s.imsc ≠ 0) } := by
    unfold rp2040_uart_rx
    rw [if_neg hcond, hloop]
    show ({ s with ris := s.ris ||| INT_OE,
                   fr := uart_flags s.rx_fifo_len s.tx_fifo_len,
                   mis := (s.ris ||| INT_OE) &&& s.imsc,
                   irq := decide ((s.ris ||| INT_OE) &&& s.imsc ≠ 0) } : RP2040UARTState) = _
    rw [← hinv.fr_eq]
  rw [hrxeq]
  refine ⟨rfl, ?_, rfl, hfull, rfl, rfl, rfl⟩
  show (s.ris ||| INT_OE) &&& INT_OE ≠ 0
  apply (and_bit_ne_zero_iff _ 10).mpr
  rw [Nat.testBit_or]
  have : INT_OE.testBit 10 = true := by decide
  rw [this, Bool.or_true]

/-- The form of a data-register read on a non-empty FIFO. -/
theorem uart_read_dr_pop (s : RP2040UARTState) (hpos : 0 < s.rx_fifo_len) :
    rp2040_uart_read s UART_DR =
      (s.rx_fifo s.rx_fifo_rd,
        rp2040_uart_update
          { s with rx_fifo_rd := u32 (s.rx_fifo_rd + 1) % FIFO_SIZE,
                   rx_fifo_len := s.rx_fifo_len - 1,
                   ris := (if s.rx_fifo_len - 1 = 0 then s.ris &&& not32 INT_RX else s.ris) }) := by
  show (if s.rx_fifo_len > 0 then _ else ((0 : Nat), s)) = _
  rw [if_pos hpos]
  by_cases hz : s.rx_fifo_len - 1 = 0
  · simp only [hz, if_true]
  · simp only [hz, if_false]

/-- C20: a read of the UART data register in a state reachable from reset
whose receive FIFO is non-empty returns the oldest byte, the one at the read
cursor, advances the read cursor by one modulo 32, decrements the length by
one and clears the receive raw-interrupt bit (bit 4 of RIS) exactly when the
length reaches 0; on an empty FIFO the read returns 0 and changes no state. -/
theorem uart_read_data_register (s : RP2040UARTState) (h : UartReachable s) :
    (0 < s.rx_fifo_len →
      (rp2040_uart_read s UART_DR).1 = s.rx_fifo s.rx_fifo_rd ∧
      uart_fifo_contents s
        = (rp2040_uart_read s UART_DR).1 :: uart_fifo_contents (rp2040_uart_read s UART_DR).2 ∧
      (rp2040_uart_read s UART_DR).2.rx_fifo_rd = (s.rx_fifo_rd + 1) % 32 ∧
      (rp2040_uart_read s UART_DR).2.rx_fifo_len = s.rx_fifo_len - 1 ∧
      (rp2040_uart_read s UART_DR).2.rx_fifo = s.rx_fifo ∧
      (rp2040_uart_read s UART_DR).2.rx_fifo_wr = s.rx_fifo_wr ∧
      (s.rx_fifo_len = 1 →
        (rp2040_uart_read s UART_DR).2.ris = s.ris &&& not32 INT_RX ∧
        (rp2040_uart_read s UART_DR).2.ris &&& INT_RX = 0) ∧
      (s.rx_fifo_len ≠ 1 → (rp2040_uart_read s UART_DR).2.ris = s.ris)) ∧
    (s.rx_fifo_len = 0 → rp2040_uart_read s UART_DR = (0, s)) := by
  have hinv := uartInv_of_reachable s h
  have hrd := hinv.rd_lt
  constructor
  · intro hpos
    rw [uart_read_dr_pop s hpos]
    have hrd1 : u32 (s.rx_fifo_rd + 1) % FIFO_SIZE = (s.rx_fifo_rd + 1) % 32 := by
      simp only [u32, FIFO_SIZE]; omega
    refine ⟨rfl, ?_, hrd1, rfl, rfl, rfl, ?_, ?_⟩
    · show (List.range s.rx_fifo_len).map (fun i => s.rx_fifo ((s.rx_fifo_rd + i) % 32))
        = s.rx_fifo s.rx_fifo_rd ::
          (List.range (s.rx_fifo_len - 1)).map
            (fun i => s.rx_fifo ((u32 (s.rx_fifo_rd + 1) % FIFO_SIZE + i) % 32))
      obtain ⟨n, hn⟩ : ∃ n, s.rx_fifo_len = n + 1 := ⟨s.rx_fifo_len - 1, by omega⟩
      rw [hn, Nat.add_sub_cancel, List.range_succ_eq_map, List.map_cons, List.map_map, hrd1]
      congr 1
      · rw [Nat.add_zero, Nat.mod_eq_of_lt hrd]
      · apply List.map_congr_left
        intro i _
        show s.rx_fifo ((s.rx_fifo_rd + (i + 1)) % 32)
          = s.rx_fifo (((s.rx_fifo_rd + 1) % 32 + i) % 32)
        congr 1
        omega
    · intro h1
      have hz : s.rx_fifo_len - 1 = 0 := by omega
      have hris : (rp2040_uart_update
          { s with rx_fifo_rd := u32 (s.rx_fifo_rd + 1) % FIFO_SIZE,
                   rx_fifo_len := s.rx_fifo_len - 1,
                   ris := (if s.rx_fifo_len - 1 = 0 then s.ris &&& not32 INT_RX
                     else s.ris) }).ris = s.ris &&& not32 INT_RX := by
        show (if s.rx_fifo_len - 1 = 0 then s.ris &&& not32 INT_RX else s.ris) = _
        rw [if_pos hz]
      refine ⟨hris, ?_⟩
      show (rp2040_uart_update _).ris &&& INT_RX = 0
      rw [hris]
      apply Nat.eq_of_testBit_eq
      intro i
      rw [Nat.testBit_and, Nat.testBit_and, Nat.zero_testBit]
      by_cases hi : i = 4
      · subst hi
        have : (not32 INT_RX).testBit 4 = false := by decide
        rw [this]; simp
      · have : INT_RX.testBit i = false := by
          show (1 <<< 4).testBit i = false
          rw [Nat.one_shiftLeft]
          exact Nat.testBit_two_pow_of_ne (fun e => hi e.symm)
        rw [this]; simp
    · intro h1
      have hz : ¬ s.rx_fifo_len - 1 = 0 := by omega
      show (if s.rx_fifo_len - 1 = 0 then s.ris &&& not32 INT_RX else s.ris) = _
      rw [if_neg hz]
  · intro hz
    show (if s.rx_fifo_len > 0 then _ else ((0 : Nat), s)) = _
    rw [if_neg (by omega)]

theorem uart_read_data_register_witness :
    (rp2040_uart_read (rp2040_uart_rx (rp2040_uart_write (rp2040_uart_reset uart_zero)
        UART_CR 0x301) [0x41]) UART_DR).1 = 0x41 ∧
    (rp2040_uart_read (rp2040_uart_rx (rp2040_uart_write (rp2040_uart_reset uart_zero)
        UART_CR 0x301) [0x41]) UART_DR).2.ris &&& INT_RX = 0 := by
  have h := (uart_read_data_register
    (rp2040_uart_rx (rp2040_uart_write (rp2040_uart_reset uart_zero) UART_CR 0x301) [0x41])
    (UartReachable.rx _ _ (UartReachable.write _ _ _ (UartReachable.reset uart_zero)))).1
    (by decide)
  exact ⟨h.1.trans (by decide), (h.2.2.2.2.2.2.1 (by decide)).2⟩

theorem uart_rx_overrun_witness :
    (rp2040_uart_rx uart_full_state [9]).ris &&& INT_OE ≠ 0 ∧
    (rp2040_uart_rx uart_full_state [9]).rx_fifo_len = 32 ∧
    uart_fifo_contents (rp2040_uart_rx uart_full_state [9])
      = uart_fifo_contents uart_full_state := by
  have h := uart_rx_overrun uart_full_state
    (UartReachable.rx _ _ (UartReachable.write _ _ _ (UartReachable.reset uart_zero)))
    (by decide) (by decide) (by decide) 9 []
  exact ⟨h.2.1, h.2.2.2.1, h.2.2.2.2.2.2⟩

/-! ## Timer: one alarm seen through the armed and raw-interrupt registers -/

theorem testBit_not32 (x j : Nat) :
    (not32 x).testBit j = (decide (j < 32) && !x.testBit j) := by
  have hlt : x % 2 ^ 32 < 2 ^ 32 := Nat.mod_lt _ (by norm_num)
  show (2 ^ 32 - (x % 2 ^ 32 + 1)).testBit j = _
  rw [Nat.testBit_two_pow_sub_succ hlt, Nat.testBit_mod_two_pow]
  cases decide (j < 32) <;> simp

theorem testBit_one_shiftLeft (i k : Nat) : (1 <<< i).testBit k = decide (i = k) := by
  rw [Nat.one_shiftLeft, Nat.testBit_two_pow]

theorem testBit_or_bit_other (x i k : Nat) (h : k ≠ i) :
    (x ||| (1 <<< i)).testBit k = x.testBit k := by
  rw [Nat.testBit_or, testBit_one_shiftLeft]
  have : decide (i = k) = false := decide_eq_false (fun e => h e.symm)
  rw [this, Bool.or_false]

theorem testBit_clear_bit_other (x i k : Nat) (h : k ≠ i) (hk : k < 32) :
    (x &&& not32 (1 <<< i)).testBit k = x.testBit k := by
  rw [Nat.testBit_and, testBit_not32, testBit_one_shiftLeft]
  have h1 : decide (i = k) = false := decide_eq_false (fun e => h e.symm)
  have h2 : decide (k < 32) = true := decide_eq_true hk
  rw [h1, h2]
  simp

theorem testBit_clear_bit_self (x k : Nat) :
    (x &&& not32 (1 <<< k)).testBit k = false := by
  rw [Nat.testBit_and, testBit_not32, testBit_one_shiftLeft]
  simp

theorem armed_test_iff (x k : Nat) : x &&& (1 <<< k) = 0 ↔ x.testBit k = false := by
  rw [← Bool.not_eq_true, ← and_bit_ne_zero_iff, not_not]

/-- The fields that `rp2040_timer_update_alarm` never writes. -/
theorem timer_update_alarm_frame (s : RP2040TimerState) (i now : Nat) :
    (rp2040_timer_update_alarm s i now).time_base = s.time_base ∧
    (rp2040_timer_update_alarm s i now).alarm = s.alarm ∧
    (rp2040_timer_update_alarm s i now).alarm_high = s.alarm_high ∧
    (rp2040_timer_update_alarm s i now).inte = s.inte ∧
    (rp2040_timer_update_alarm s i now).irq = s.irq := by
  unfold rp2040_timer_update_alarm
  dsimp only
  split_ifs <;> exact ⟨rfl, rfl, rfl, rfl, rfl⟩

/-- Re-evaluating alarm `i` leaves the armed bit, the raw-interrupt bit and
the callback of another alarm `k` as they were. -/
theorem timer_update_alarm_other (s : RP2040TimerState) (i k now : Nat) (h : k ≠ i)
    (hk : k < 32) :
    (rp2040_timer_update_alarm s i now).armed.testBit k = s.armed.testBit k ∧
    (rp2040_timer_update_alarm s i now).intr.testBit k = s.intr.testBit k ∧
    (rp2040_timer_update_alarm s i now).alarm_timer k = s.alarm_timer k := by
  unfold rp2040_timer_update_alarm
  dsimp only
  split_ifs
  · exact ⟨rfl, rfl, Function.update_noteq h _ _⟩
  · exact ⟨testBit_clear_bit_other _ _ _ h hk, testBit_or_bit_other _ _ _ h,
      Function.update_noteq h _ _⟩
  · exact ⟨rfl, rfl, Function.update_noteq h _ _⟩

/-- Re-evaluating an alarm that is not armed cancels its callback and changes
nothing else. -/
theorem timer_update_alarm_unarmed (s : RP2040TimerState) (k now : Nat)
    (h : s.armed.testBit k = false) :
    rp2040_timer_update_alarm s k now
      = { s with alarm_timer := Function.update s.alarm_timer k none } := by
  unfold rp2040_timer_update_alarm
  dsimp only
  rw [if_pos ((armed_test_iff _ _).mpr h)]

/-- Re-evaluating an armed alarm whose target is at or below the counter
fires it. -/
theorem timer_update_alarm_due (s : RP2040TimerState) (k now : Nat)
    (h : s.armed.testBit k = true)
    (hT : (s.alarm_high k <<< 32) ||| s.alarm k ≤ rp2040_timer_get_count s now) :
    rp2040_timer_update_alarm s k now
      = { s with intr := s.intr ||| (1 <<< k),
                 armed := s.armed &&& not32 (1 <<< k),
                 alarm_timer := Function.update s.alarm_timer k none } := by
  unfold rp2040_timer_update_alarm
  dsimp only
  have hne : ¬ s.armed &&& (1 <<< k) = 0 := by
    rw [armed_test_iff, h]; exact Bool.noConfusion
  rw [if_neg hne, if_pos hT]

/-- Re-evaluating an armed alarm whose target is above the counter schedules
its callback. -/
theorem timer_update_alarm_pending (s : RP2040TimerState) (k now : Nat)
    (h : s.armed.testBit k = true)
    (hT : rp2040_timer_get_count s now < (s.alarm_high k <<< 32) ||| s.alarm k) :
    rp2040_timer_update_alarm s k now
      = { s with alarm_timer := (Function.update s.alarm_timer k
            (some (toInt64 (u64 now +
              (((s.alarm_high k <<< 32) ||| s.alarm k) - rp2040_timer_get_count s now))))) } := by
  unfold rp2040_timer_update_alarm
  dsimp only
  have hne : ¬ s.armed &&& (1 <<< k) = 0 := by
    rw [armed_test_iff, h]; exact Bool.noConfusion
  rw [if_neg hne, if_neg (Nat.not_le.mpr hT)]

/-- Re-evaluating any alarm leaves a disarmed, unscheduled alarm `k`
disarmed and unscheduled and does not touch its raw-interrupt bit. -/
theorem timer_update_alarm_disarmed (s : RP2040TimerState) (i k now : Nat) (hk : k < 32)
    (ha : s.armed.testBit k = false) (ht : s.alarm_timer k = none) :
    (rp2040_timer_update_alarm s i now).armed.testBit k = false ∧
    (rp2040_timer_update_alarm s i now).alarm_timer k = none ∧
    (rp2040_timer_update_alarm s i now).intr.testBit k = s.intr.testBit k := by
  by_cases hik : k = i
  · subst hik
    rw [timer_update_alarm_unarmed s k now ha]
    exact ⟨ha, Function.update_same _ _ _, rfl⟩
  · obtain ⟨h1, h2, h3⟩ := timer_update_alarm_other s i k now hik hk
    exact ⟨h1.trans ha, h3.trans ht, h2⟩
theorem timer_get_count_congr (s t : RP2040TimerState) (now : Nat)
    (h : t.time_base = s.time_base) :
    rp2040_timer_get_count t now = rp2040_timer_get_count s now := by
  unfold rp2040_timer_get_count
  rw [h]

theorem timer_update_fold_frame (l : List Nat) (s : RP2040TimerState) (now : Nat) :
    (l.foldl (fun t i => rp2040_timer_update_alarm t i now) s).time_base = s.time_base ∧
    (l.foldl (fun t i => rp2040_timer_update_alarm t i now) s).alarm = s.alarm ∧
    (l.foldl (fun t i => rp2040_timer_update_alarm t i now) s).alarm_high = s.alarm_high ∧
    (l.foldl (fun t i => rp2040_timer_update_alarm t i now) s).inte = s.inte ∧
    (l.foldl (fun t i => rp2040_timer_update_alarm t i now) s).irq = s.irq := by
  induction l generalizing s with
  | nil => exact ⟨rfl, rfl, rfl, rfl, rfl⟩
  | cons a rest ih =>
    obtain ⟨h1, h2, h3, h4, h5⟩ := ih (rp2040_timer_update_alarm s a now)
    obtain ⟨k1, k2, k3, k4, k5⟩ := timer_update_alarm_frame s a now
    rw [List.foldl_cons]
    exact ⟨h1.trans k1, h2.trans k2, h3.trans k3, h4.trans k4, h5.trans k5⟩

theorem timer_update_fold_other (l : List Nat) (s : RP2040TimerState) (k now : Nat)
    (hk : k < 32) (hnot : k ∉ l) :
    (l.foldl (fun t i => rp2040_timer_update_alarm t i now) s).armed.testBit k
      = s.armed.testBit k ∧
    (l.foldl (fun t i => rp2040_timer_update_alarm t i now) s).intr.testBit k
      = s.intr.testBit k ∧
    (l.foldl (fun t i => rp2040_timer_update_alarm t i now) s).alarm_timer k
      = s.alarm_timer k := by
  induction l generalizing s with
  | nil => exact ⟨rfl, rfl, rfl⟩
  | cons a rest ih =>
    have hka : k ≠ a := fun e => hnot (e ▸ List.mem_cons_self _ _)
    have hrest : k ∉ rest := fun e => hnot (List.mem_cons_of_mem _ e)
    obtain ⟨h1, h2, h3⟩ := ih (rp2040_timer_update_alarm s a now) hrest
    obtain ⟨k1, k2, k3⟩ := timer_update_alarm_other s a k now hka hk
    rw [List.foldl_cons]
    exact ⟨h1.trans k1, h2.trans k2, h3.trans k3⟩

/-- Re-evaluating a list of alarms in which `k` occurs once: the outcome for
alarm `k` is decided by its armed bit and its target in the state before. -/
theorem timer_update_fold_at (pre post : List Nat) (s : RP2040TimerState) (k now : Nat)
    (hk : k < 32) (h1 : k ∉ pre) (h2 : k ∉ post) :
    (s.armed.testBit k = false →
      ((pre ++ k :: post).foldl (fun t i => rp2040_timer_update_alarm t i now) s).armed.testBit k
        = false ∧
      ((pre ++ k :: post).foldl (fun t i => rp2040_timer_update_alarm t i now) s).alarm_timer k
        = none ∧
      ((pre ++ k :: post).foldl (fun t i => rp2040_timer_update_alarm t i now) s).intr.testBit k
        = s.intr.testBit k) ∧
    (s.armed.testBit k = true →
      (s.alarm_high k <<< 32) ||| s.alarm k ≤ rp2040_timer_get_count s now →
      ((pre ++ k :: post).foldl (fun t i => rp2040_timer_update_alarm t i now) s).armed.testBit k
        = false ∧
      ((pre ++ k :: post).foldl (fun t i => rp2040_timer_update_alarm t i now) s).alarm_timer k
        = none ∧
      ((pre ++ k :: post).foldl (fun t i => rp2040_timer_update_alarm t i now) s).intr.testBit k
        = true) ∧
    (s.armed.testBit k = true →
      rp2040_timer_get_count s now < (s.alarm_high k <<< 32) ||| s.alarm k →
      ((pre ++ k :: post).foldl (fun t i => rp2040_timer_update_alarm t i now) s).armed.testBit k
        = true ∧
      ((pre ++ k :: post).foldl (fun t i => rp2040_timer_update_alarm t i now) s).alarm_timer k
        = some (toInt64 (u64 now +
            (((s.alarm_high k <<< 32) ||| s.alarm k) - rp2040_timer_get_count s now))) ∧
      ((pre ++ k :: post).foldl (fun t i => rp2040_timer_update_alarm t i now) s).intr.testBit k
        = s.intr.testBit k) := by
  obtain ⟨p, hp⟩ : ∃ p, p = pre.foldl (fun t i => rp2040_timer_update_alarm t i now) s :=
    ⟨_, rfl⟩
  obtain ⟨f1, f2, f3, _, _⟩ := timer_update_fold_frame pre s now
  obtain ⟨o1, o2, o3⟩ := timer_update_fold_other pre s k now hk h1
  rw [← hp] at f1 f2 f3 o1 o2 o3
  have hcount : rp2040_timer_get_count p now = rp2040_timer_get_count s now :=
    timer_get_count_congr s p now f1
  rw [List.foldl_append, List.foldl_cons, ← hp]
  obtain ⟨q1, q2, q3⟩ := timer_update_fold_other post (rp2040_timer_update_alarm p k now) k now
    hk h2
  rw [q1, q2, q3]
  refine ⟨?_, ?_, ?_⟩
  · intro ha
    rw [timer_update_alarm_unarmed p k now (o1.trans ha)]
    exact ⟨o1.trans ha, Function.update_same _ _ _, o2⟩
  · intro ha hT
    have hT2 : (p.alarm_high k <<< 32) ||| p.alarm k ≤ rp2040_timer_get_count p now := by
      rw [f2, f3, hcount]; exact hT
    rw [timer_update_alarm_due p k now (o1.trans ha) hT2]
    refine ⟨testBit_clear_bit_self _ _, Function.update_same _ _ _, ?_⟩
    show (p.intr ||| (1 <<< k)).testBit k = true
    rw [Nat.testBit_or, testBit_one_shiftLeft]
    simp
  · intro ha hT
    have hT2 : rp2040_timer_get_count p now < (p.alarm_high k <<< 32) ||| p.alarm k := by
      rw [f2, f3, hcount]; exact hT
    rw [timer_update_alarm_pending p k now (o1.trans ha) hT2]
    refine ⟨o1.trans ha, ?_, o2⟩
    show Function.update p.alarm_timer k _ k = _
    rw [Function.update_same, f2, f3, hcount]
/-! ## Timer: the counter and the deadline of a scheduled alarm -/

theorem timer_target_lt (h l : Nat) (hh : h < 2 ^ 32) (hl : l < 2 ^ 32) :
    (h <<< 32) ||| l < 2 ^ 64 := by
  apply Nat.or_lt_two_pow
  · rw [Nat.shiftLeft_eq]
    calc h * 2 ^ 32 < 2 ^ 32 * 2 ^ 32 := Nat.mul_lt_mul_of_pos_right hh (by norm_num)
      _ = 2 ^ 64 := by norm_num
  · exact Nat.lt_of_lt_of_le hl (by norm_num)

/-- The counter just after a rebase is the value written. -/
theorem timer_count_after_rebase (s : RP2040TimerState) (v now : Nat) :
    rp2040_timer_get_count (rp2040_timer_write s TIMELW v now) now = u64 v := by
  have htb : (rp2040_timer_write s TIMELW v now).time_base
      = u64 (u64 now + 18446744073709551616 - u64 v) :=
    (timer_update_fold_frame [0, 1, 2, 3]
      { s with time_base := u64 (u64 now + 18446744073709551616 - u64 v) } now).1
  unfold rp2040_timer_get_count
  rw [htb]
  unfold u64
  omega

/-- An alarm scheduled `T - c` microseconds ahead, `c` being the counter now
and `T` its target, expires at the clock instant at which the counter reads
`T`, as long as that instant is a clock value (below 2^63). -/
theorem timer_deadline_reaches_target (s : RP2040TimerState) (now T : Nat)
    (hT : rp2040_timer_get_count s now < T) (hT64 : T < 2 ^ 64)
    (hclk : now + (T - rp2040_timer_get_count s now) < 2 ^ 63) :
    toInt64 (u64 now + (T - rp2040_timer_get_count s now))
      = ((now + (T - rp2040_timer_get_count s now) : Nat) : Int) ∧
    rp2040_timer_get_count s (now + (T - rp2040_timer_get_count s now)) = T ∧
    u64 (now + (T - rp2040_timer_get_count s now)) = u64 (s.time_base + T) := by
  have hc : rp2040_timer_get_count s now
      = (now % 18446744073709551616 + 18446744073709551616
          - s.time_base % 18446744073709551616) % 18446744073709551616 := rfl
  obtain ⟨c, hcdef⟩ : ∃ c, c = rp2040_timer_get_count s now := ⟨_, rfl⟩
  rw [← hcdef] at hT hclk hc ⊢
  have h63 : (2 : Nat) ^ 63 = 9223372036854775808 := by norm_num
  have h64 : (2 : Nat) ^ 64 = 18446744073709551616 := by norm_num
  rw [h63] at hclk
  rw [h64] at hT64
  refine ⟨?_, ?_, ?_⟩
  · unfold toInt64 u64
    have hlt : (now % 18446744073709551616 + (T - c)) % 18446744073709551616
        < 9223372036854775808 := by omega
    rw [if_pos hlt]
    congr 1
    omega
  · unfold rp2040_timer_get_count u64
    omega
  · unfold u64
    omega
/-! ## Timer: rebase -/

/-- C16: after a write to the low-word register TIMELW, for each alarm k in
0..3: if it was armed and its 64-bit target `(alarm_high[k] << 32) | alarm[k]`
is at or below the new counter value it has fired (raw-interrupt bit k set,
armed bit k clear, no callback pending); if it was armed and its target is
above the new counter value it stays armed and its callback is scheduled
`target - counter` microseconds ahead, which, the registers being 32-bit and
that instant being a clock value, is the clock instant at which the rebased
counter reads the target; if it was not armed it stays unarmed with no
callback pending. -/
theorem timer_rebase_reevaluates_alarms (s : RP2040TimerState) (v now k : Nat) (hk : k < 4) :
    (s.armed.testBit k = true →
      (s.alarm_high k <<< 32) ||| s.alarm k
        ≤ rp2040_timer_get_count (rp2040_timer_write s TIMELW v now) now →
      (rp2040_timer_write s TIMELW v now).intr.testBit k = true ∧
      (rp2040_timer_write s TIMELW v now).armed.testBit k = false ∧
      (rp2040_timer_write s TIMELW v now).alarm_timer k = none) ∧
    (s.armed.testBit k = true →
      rp2040_timer_get_count (rp2040_timer_write s TIMELW v now) now
        < (s.alarm_high k <<< 32) ||| s.alarm k →
      (rp2040_timer_write s TIMELW v now).armed.testBit k = true ∧
      (rp2040_timer_write s TIMELW v now).intr.testBit k = s.intr.testBit k ∧
      (rp2040_timer_write s TIMELW v now).alarm_timer k
        = some (toInt64 (u64 now + (((s.alarm_high k <<< 32) ||| s.alarm k)
            - rp2040_timer_get_count (rp2040_timer_write s TIMELW v now) now))) ∧
      (s.alarm k < 2 ^ 32 → s.alarm_high k < 2 ^ 32 →
        now + (((s.alarm_high k <<< 32) ||| s.alarm k)
          - rp2040_timer_get_count (rp2040_timer_write s TIMELW v now) now) < 2 ^ 63 →
        (rp2040_timer_write s TIMELW v now).alarm_timer k
          = some ((now + (((s.alarm_high k <<< 32) ||| s.alarm k)
              - rp2040_timer_get_count (rp2040_timer_write s TIMELW v now) now) : Nat) : Int) ∧
        rp2040_timer_get_count (rp2040_timer_write s TIMELW v now)
          (now + (((s.alarm_high k <<< 32) ||| s.alarm k)
              - rp2040_timer_get_count (rp2040_timer_write s TIMELW v now) now))
          = (s.alarm_high k <<< 32) ||| s.alarm k)) ∧
    (s.armed.testBit k = false →
      (rp2040_timer_write s TIMELW v now).armed.testBit k = false ∧
      (rp2040_timer_write s TIMELW v now).alarm_timer k = none ∧
      (rp2040_timer_write s TIMELW v now).intr.testBit k = s.intr.testBit k) ∧
    rp2040_timer_get_count (rp2040_timer_write s TIMELW v now) now = u64 v := by
  obtain ⟨s1, hs1⟩ : ∃ s1 : RP2040TimerState,
      s1 = { s with time_base := u64 (u64 now + 18446744073709551616 - u64 v) } := ⟨_, rfl⟩
  have hk32 : k < 32 := by omega
  have hcount : rp2040_timer_get_count (rp2040_timer_write s TIMELW v now) now
      = rp2040_timer_get_count s1 now := by
    apply timer_get_count_congr
    rw [hs1]
    exact (timer_update_fold_frame [0, 1, 2, 3] _ now).1
  have hat : ∃ pre post : List Nat, k ∉ pre ∧ k ∉ post ∧
      rp2040_timer_write s TIMELW v now
        = (pre ++ k :: post).foldl (fun t i => rp2040_timer_update_alarm t i now) s1 := by
    have h4 : k = 0 ∨ k = 1 ∨ k = 2 ∨ k = 3 := by omega
    rcases h4 with rfl | rfl | rfl | rfl
    · exact ⟨[], [1, 2, 3], by decide, by decide, by rw [hs1]; rfl⟩
    · exact ⟨[0], [2, 3], by decide, by decide, by rw [hs1]; rfl⟩
    · exact ⟨[0, 1], [3], by decide, by decide, by rw [hs1]; rfl⟩
    · exact ⟨[0, 1, 2], [], by decide, by decide, by rw [hs1]; rfl⟩
  obtain ⟨pre, post, hpre, hpost, hW⟩ := hat
  obtain ⟨c1, c2, c3⟩ := timer_update_fold_at pre post s1 k now hk32 hpre hpost
  have e1 : s1.armed = s.armed := by rw [hs1]
  have e2 : s1.alarm = s.alarm := by rw [hs1]
  have e3 : s1.alarm_high = s.alarm_high := by rw [hs1]
  have e4 : s1.intr = s.intr := by rw [hs1]
  rw [e1, e4, ← hW] at c1
  rw [e1, e2, e3, ← hW, ← hcount] at c2
  rw [e1, e2, e3, e4, ← hW, ← hcount] at c3
  refine ⟨?_, ?_, ?_, timer_count_after_rebase s v now⟩
  · intro ha hT
    obtain ⟨a, b, c⟩ := c2 ha hT
    exact ⟨c, a, b⟩
  · intro ha hT
    obtain ⟨a, b, c⟩ := c3 ha hT
    refine ⟨a, c, b, ?_⟩
    intro hl hh hclk
    obtain ⟨d1, d2, _⟩ := timer_deadline_reaches_target (rp2040_timer_write s TIMELW v now) now
      ((s.alarm_high k <<< 32) ||| s.alarm k) hT (timer_target_lt _ _ hh hl) hclk
    exact ⟨by rw [b, d1], d2⟩
  · intro ha
    exact c1 ha

theorem timer_rebase_reevaluates_alarms_witness :
    (rp2040_timer_write timer_alarm1_pending TIMELW 100 7).intr.testBit 1 = true ∧
    (rp2040_timer_write timer_alarm1_pending TIMELW 100 7).armed.testBit 1 = false ∧
    (rp2040_timer_write timer_alarm1_pending TIMELW 100 7).alarm_timer 1 = none :=
  (timer_rebase_reevaluates_alarms timer_alarm1_pending 100 7 1 (by decide)).1
    (by decide) (by decide)
/-! ## Timer: arming an alarm ahead of the counter -/

/-- C17: a write of a 32-bit value `v` to ALARMk (offset 0x10 + 4k, k in
0..3) when the counter is `c` stores `v` as the low word of the alarm and
`c >> 32` as its high word, so the 64-bit target is
`T = ((c >> 32) << 32) | v`. When `T > c` the write leaves armed bit k set and
the callback of alarm k scheduled `T - c` microseconds ahead, at clock time
`time_base + T` modulo 2^64, which, when it is a clock value, is the instant
at which the counter reads `T`. The low and high words, the armed bits and the
callbacks of the other alarms are unchanged. -/
theorem timer_alarm_write_schedules (s : RP2040TimerState) (k v now : Nat) (hk : k < 4)
    (hv : v < 2 ^ 32) :
    (rp2040_timer_write s (ALARM0 + 4 * k) v now).alarm k = v ∧
    (rp2040_timer_write s (ALARM0 + 4 * k) v now).alarm_high k
      = rp2040_timer_get_count s now >>> 32 ∧
    (rp2040_timer_get_count s now < ((rp2040_timer_get_count s now >>> 32) <<< 32) ||| v →
      (rp2040_timer_write s (ALARM0 + 4 * k) v now).armed.testBit k = true ∧
      (rp2040_timer_write s (ALARM0 + 4 * k) v now).alarm_timer k
        = some (toInt64 (u64 now + ((((rp2040_timer_get_count s now >>> 32) <<< 32) ||| v)
            - rp2040_timer_get_count s now))) ∧
      (now + ((((rp2040_timer_get_count s now >>> 32) <<< 32) ||| v)
          - rp2040_timer_get_count s now) < 2 ^ 63 →
        (rp2040_timer_write s (ALARM0 + 4 * k) v now).alarm_timer k
          = some ((now + ((((rp2040_timer_get_count s now >>> 32) <<< 32) ||| v)
              - rp2040_timer_get_count s now) : Nat) : Int) ∧
        rp2040_timer_get_count (rp2040_timer_write s (ALARM0 + 4 * k) v now)
          (now + ((((rp2040_timer_get_count s now >>> 32) <<< 32) ||| v)
              - rp2040_timer_get_count s now))
          = ((rp2040_timer_get_count s now >>> 32) <<< 32) ||| v ∧
        u64 (now + ((((rp2040_timer_get_count s now >>> 32) <<< 32) ||| v)
              - rp2040_timer_get_count s now))
          = u64 (s.time_base + (((rp2040_timer_get_count s now >>> 32) <<< 32) ||| v)))) ∧
    (∀ j, j ≠ k → j < 32 →
      (rp2040_timer_write s (ALARM0 + 4 * k) v now).alarm j = s.alarm j ∧
      (rp2040_timer_write s (ALARM0 + 4 * k) v now).alarm_high j = s.alarm_high j ∧
      (rp2040_timer_write s (ALARM0 + 4 * k) v now).armed.testBit j = s.armed.testBit j ∧
      (rp2040_timer_write s (ALARM0 + 4 * k) v now).alarm_timer j = s.alarm_timer j) := by
  have hwrite : rp2040_timer_write s (ALARM0 + 4 * k) v now = timer_write_alarm s k v now := by
    have h4 : k = 0 ∨ k = 1 ∨ k = 2 ∨ k = 3 := by omega
    rcases h4 with rfl | rfl | rfl | rfl <;> rfl
  have hc64 := timer_get_count_lt s now
  have hhigh : rp2040_timer_get_count s now >>> 32 < 2 ^ 32 := by
    rw [Nat.shiftRight_eq_div_pow]
    exact (Nat.div_lt_iff_lt_mul (by norm_num)).mpr (by
      calc rp2040_timer_get_count s now < 2 ^ 64 := hc64
        _ = 2 ^ 32 * 2 ^ 32 := by norm_num)
  have hu32v : u32 v = v := Nat.mod_eq_of_lt (by simpa using hv)
  have hu32h : u32 (rp2040_timer_get_count s now >>> 32) = rp2040_timer_get_count s now >>> 32 :=
    Nat.mod_eq_of_lt (by simpa using hhigh)
  -- the state on which the alarm is re-evaluated
  obtain ⟨s3, hs3⟩ : ∃ s3 : RP2040TimerState,
      s3 = { s with alarm := Function.update s.alarm k v,
                    alarm_high := Function.update s.alarm_high k
                      (rp2040_timer_get_count s now >>> 32),
                    armed := s.armed ||| (1 <<< k) } := ⟨_, rfl⟩
  have hW : rp2040_timer_write s (ALARM0 + 4 * k) v now = rp2040_timer_update_alarm s3 k now := by
    rw [hwrite, hs3]
    unfold timer_write_alarm
    dsimp only
    rw [hu32v]
    have hcnt : rp2040_timer_get_count { s with alarm := Function.update s.alarm k v } now
        = rp2040_timer_get_count s now := rfl
    rw [hcnt, hu32h]
  obtain ⟨f1, f2, f3, _, _⟩ := timer_update_alarm_frame s3 k now
  have a3 : s3.alarm k = v := by rw [hs3]; exact Function.update_same _ _ _
  have h3 : s3.alarm_high k = rp2040_timer_get_count s now >>> 32 := by
    rw [hs3]; exact Function.update_same _ _ _
  have c3 : rp2040_timer_get_count s3 now = rp2040_timer_get_count s now := by rw [hs3]; rfl
  have arm3 : s3.armed.testBit k = true := by
    rw [hs3]
    show (s.armed ||| (1 <<< k)).testBit k = true
    rw [Nat.testBit_or, testBit_one_shiftLeft]
    simp
  rw [hW]
  refine ⟨?_, ?_, ?_, ?_⟩
  · rw [f2, a3]
  · rw [f3, h3]
  · intro hT
    have hT3 : rp2040_timer_get_count s3 now < (s3.alarm_high k <<< 32) ||| s3.alarm k := by
      rw [c3, a3, h3]; exact hT
    have hpend := timer_update_alarm_pending s3 k now arm3 hT3
    have htimer : (rp2040_timer_update_alarm s3 k now).alarm_timer k
        = some (toInt64 (u64 now + ((((rp2040_timer_get_count s now >>> 32) <<< 32) ||| v)
            - rp2040_timer_get_count s now))) := by
      rw [hpend]
      show Function.update s3.alarm_timer k _ k = _
      rw [Function.update_same, a3, h3, c3]
    refine ⟨?_, htimer, ?_⟩
    · rw [hpend]; exact arm3
    · intro hclk
      have hT64 : ((rp2040_timer_get_count s now >>> 32) <<< 32) ||| v < 2 ^ 64 :=
        timer_target_lt _ _ hhigh hv
      obtain ⟨d1, d2, d3⟩ := timer_deadline_reaches_target s now
        (((rp2040_timer_get_count s now >>> 32) <<< 32) ||| v) hT hT64 hclk
      refine ⟨by rw [htimer, d1], ?_, d3⟩
      rw [timer_get_count_congr s _ _ (f1.trans (by rw [hs3]))]
      exact d2
  · intro j hj hj32
    obtain ⟨o1, _, o3⟩ := timer_update_alarm_other s3 k j now hj hj32
    refine ⟨?_, ?_, ?_, ?_⟩
    · rw [f2, hs3]; exact Function.update_noteq hj _ _
    · rw [f3, hs3]; exact Function.update_noteq hj _ _
    · rw [o1, hs3]; exact testBit_or_bit_other _ _ _ hj
    · rw [o3, hs3]

theorem timer_alarm_write_schedules_witness :
    (rp2040_timer_write (rp2040_timer_reset timer_zero 0) (ALARM0 + 4 * 1) 100 0).armed.testBit 1
      = true ∧
    (rp2040_timer_write (rp2040_timer_reset timer_zero 0) (ALARM0 + 4 * 1) 100 0).alarm_timer 1
      = some (100 : Int) := by
  have h := (timer_alarm_write_schedules (rp2040_timer_reset timer_zero 0) 1 100 0 (by decide)
    (by decide)).2.2.1 (by decide)
  exact ⟨h.1, h.2.1.trans (by decide)⟩
/-! ## Timer: operations and the counter -/

/-- Only a write to TIMELW changes `time_base`. -/
theorem timer_step_time_base (s : RP2040TimerState) (op : TimerOp)
    (h : ¬ timer_op_is_rebase op) : (timer_step s op).time_base = s.time_base := by
  cases op with
  | read offset now =>
    show (rp2040_timer_read s offset now).2.time_base = s.time_base
    unfold rp2040_timer_read
    split <;> rfl
  | write offset value now =>
    have hoff : offset ≠ TIMELW := h
    show (rp2040_timer_write s offset value now).time_base = s.time_base
    unfold rp2040_timer_write
    split
    · exact absurd rfl hoff
    · exact (timer_update_alarm_frame _ 0 now).1
    · exact (timer_update_alarm_frame _ 1 now).1
    · exact (timer_update_alarm_frame _ 2 now).1
    · exact (timer_update_alarm_frame _ 3 now).1
    · simp only [List.foldl_cons, List.foldl_nil]
      repeat' split
      all_goals rfl
    · rfl
    · rfl
    · simp only [List.foldl_cons, List.foldl_nil]
      repeat' split
      all_goals rfl
    · rfl
    · rfl
    · rfl
  | callback k now =>
    show (if k < 4 then _ else s : RP2040TimerState).time_base = s.time_base
    split
    · split
      · split
        · rfl
        · rfl
      · rfl
    · rfl

theorem timer_run_time_base (ops : List TimerOp) (s : RP2040TimerState)
    (h : ∀ op ∈ ops, ¬ timer_op_is_rebase op) : (timer_run s ops).time_base = s.time_base := by
  induction ops generalizing s with
  | nil => rfl
  | cons op rest ih =>
    show (timer_run (timer_step s op) rest).time_base = s.time_base
    rw [ih (timer_step s op) (fun o ho => h o (List.mem_cons_of_mem _ ho)),
      timer_step_time_base s op (h op (List.mem_cons_self _ _))]

/-- C14: with no write to the low-word register in between (whatever other
reads, writes and callbacks happen, the value of PAUSE included), a counter
read at clock time `t2` is the counter read at an earlier clock time `t1` plus
`t2 - t1`, modulo 2^64; successive reads are therefore non-decreasing as long
as the 64-bit counter does not wrap. -/
theorem timer_counter_advances_with_clock (s : RP2040TimerState) (ops : List TimerOp)
    (t1 t2 : Nat) (hops : ∀ op ∈ ops, ¬ timer_op_is_rebase op) (ht : t1 ≤ t2) :
    rp2040_timer_get_count (timer_run s ops) t2
      = (rp2040_timer_get_count s t1 + (t2 - t1)) % 2 ^ 64 ∧
    (rp2040_timer_get_count s t1 + (t2 - t1) < 2 ^ 64 →
      rp2040_timer_get_count s t1 ≤ rp2040_timer_get_count (timer_run s ops) t2) := by
  have htb := timer_run_time_base ops s hops
  have h64 : (2 : Nat) ^ 64 = 18446744073709551616 := by norm_num
  rw [timer_get_count_congr s _ t2 htb, h64]
  unfold rp2040_timer_get_count u64
  constructor
  · omega
  · intro hw
    omega

theorem timer_counter_advances_with_clock_witness :
    rp2040_timer_get_count
        (timer_run (rp2040_timer_reset timer_zero 5)
          [TimerOp.write PAUSE 0 6, TimerOp.write ALARM0 50 7, TimerOp.read TIMEHW 8,
            TimerOp.callback 0 60]) 70
      = (rp2040_timer_get_count (rp2040_timer_reset timer_zero 5) 10 + (70 - 10)) % 2 ^ 64 :=
  (timer_counter_advances_with_clock (rp2040_timer_reset timer_zero 5)
    [TimerOp.write PAUSE 0 6, TimerOp.write ALARM0 50 7, TimerOp.read TIMEHW 8,
      TimerOp.callback 0 60] 10 70
    (by decide)
    (by decide)).1
/-! ## Timer: the clock callback -/

/-- Whatever pointer is registered, the callback computes the alarm index 0. -/
theorem timer_alarm_cb_index (ptr : Int) (s : RP2040TimerState) :
    rp2040_timer_alarm_cb ptr s =
      if s.inte &&& (1 <<< 0) ≠ 0 then
        { s with intr := s.intr ||| (1 <<< 0), armed := s.armed &&& not32 (1 <<< 0),
                 irq := Function.update s.irq 0 true }
      else
        { s with intr := s.intr ||| (1 <<< 0), armed := s.armed &&& not32 (1 <<< 0) } := by
  unfold rp2040_timer_alarm_cb
  simp only [Int.sub_self, Int.zero_ediv, Int.toNat_zero]

/-- C15: a write of a 32-bit value `v` to the low-word register TIMELW at
clock time `t` sets `time_base` to `t - v` modulo 2^64, so that a counter read
at the same instant returns `v` (high word 0, low word `v`) and a read `d`
microseconds later, at a clock value `t + d`, returns `v + d`. -/
theorem timer_rebase_sets_counter (s : RP2040TimerState) (v t d : Nat) (hv : v < 2 ^ 32)
    (hclk : t + d < 2 ^ 63) :
    ((rp2040_timer_write s TIMELW v t).time_base + v) % 2 ^ 64 = t ∧
    rp2040_timer_get_count (rp2040_timer_write s TIMELW v t) t = v ∧
    (rp2040_timer_read (rp2040_timer_write s TIMELW v t) TIMERAWH t).1 = 0 ∧
    (rp2040_timer_read (rp2040_timer_write s TIMELW v t) TIMERAWL t).1 = v ∧
    (rp2040_timer_read (rp2040_timer_write s TIMELW v t) TIMEHR t).1 = 0 ∧
    (rp2040_timer_read (rp2040_timer_write s TIMELW v t) TIMELR t).1 = v ∧
    rp2040_timer_get_count (rp2040_timer_write s TIMELW v t) (t + d) = v + d ∧
    ((rp2040_timer_read (rp2040_timer_write s TIMELW v t) TIMERAWH (t + d)).1 <<< 32) |||
      (rp2040_timer_read (rp2040_timer_write s TIMELW v t) TIMERAWL (t + d)).1 = v + d := by
  have h32 : (2 : Nat) ^ 32 = 4294967296 := by norm_num
  have h63 : (2 : Nat) ^ 63 = 9223372036854775808 := by norm_num
  have h64 : (2 : Nat) ^ 64 = 18446744073709551616 := by norm_num
  rw [h32] at hv
  rw [h63] at hclk
  have htb : (rp2040_timer_write s TIMELW v t).time_base
      = u64 (u64 t + 18446744073709551616 - u64 v) :=
    (timer_update_fold_frame [0, 1, 2, 3]
      { s with time_base := u64 (u64 t + 18446744073709551616 - u64 v) } t).1
  have hcount : ∀ e, t + e < 9223372036854775808 →
      rp2040_timer_get_count (rp2040_timer_write s TIMELW v t) (t + e) = v + e := by
    intro e he
    unfold rp2040_timer_get_count
    rw [htb]
    unfold u64
    omega
  have hc0 : rp2040_timer_get_count (rp2040_timer_write s TIMELW v t) t = v := by
    have := hcount 0 (by omega)
    simpa using this
  have hhigh : (v >>> 32) = 0 := by
    rw [Nat.shiftRight_eq_div_pow]
    exact Nat.div_eq_of_lt (by omega)
  have hlow : v &&& 0xFFFFFFFF = v := by
    have : v &&& (2 ^ 32 - 1) = v % 2 ^ 32 := Nat.and_pow_two_sub_one_eq_mod v 32
    rw [show (0xFFFFFFFF : Nat) = 2 ^ 32 - 1 from rfl, this]
    exact Nat.mod_eq_of_lt (by omega)
  have hrawh : (rp2040_timer_read (rp2040_timer_write s TIMELW v t) TIMERAWH t).1 = 0 := by
    show u32 (rp2040_timer_get_count _ t >>> 32) = 0
    rw [hc0, hhigh]; rfl
  have hrawl : (rp2040_timer_read (rp2040_timer_write s TIMELW v t) TIMERAWL t).1 = v := by
    show u32 (rp2040_timer_get_count _ t &&& 0xFFFFFFFF) = v
    rw [hc0, hlow]
    exact Nat.mod_eq_of_lt hv
  refine ⟨?_, hc0, hrawh, hrawl, hrawh, hrawl, hcount d hclk, ?_⟩
  · rw [htb, h64]
    unfold u64
    omega
  · have := halves_reassemble (rp2040_timer_get_count (rp2040_timer_write s TIMELW v t) (t + d))
      (timer_get_count_lt _ _)
    rw [hcount d hclk] at this
    rw [← this]
    show (u32 (rp2040_timer_get_count _ (t + d) >>> 32) <<< 32) |||
      u32 (rp2040_timer_get_count _ (t + d) &&& 0xFFFFFFFF) = _
    rw [hcount d hclk]

theorem timer_rebase_sets_counter_witness :
    rp2040_timer_get_count (rp2040_timer_write (rp2040_timer_reset timer_zero 3) TIMELW 1000 50)
      50 = 1000 ∧
    rp2040_timer_get_count (rp2040_timer_write (rp2040_timer_reset timer_zero 3) TIMELW 1000 50)
      (50 + 25) = 1000 + 25 := by
  have h := timer_rebase_sets_counter (rp2040_timer_reset timer_zero 3) 1000 50 25 (by decide)
    (by decide)
  exact ⟨h.2.1, h.2.2.2.2.2.2.1⟩

/-- C13, at the failing input: with 1 written to PAUSE at clock time 10, the
pause flag reads 1, yet the counter read through TIMELR and TIMERAWL is 10 at
clock time 10 and 20 at clock time 20: it advances with the clock while the
flag is set. -/
theorem timer_counter_runs_while_paused :
    (rp2040_timer_read timer_paused_state PAUSE 10).1 = 1 ∧
    (rp2040_timer_read timer_paused_state TIMELR 10).1 = 10 ∧
    (rp2040_timer_read timer_paused_state TIMELR 20).1 = 20 ∧
    (rp2040_timer_read timer_paused_state TIMERAWL 10).1 = 10 ∧
    (rp2040_timer_read timer_paused_state TIMERAWL 20).1 = 20 := by
  decide

/-- C11, at the failing input: whatever pointer is registered, the callback
computes the alarm index 0 from it, so it sets raw-interrupt bit 0 and clears
armed bit 0 of the state it is run on. With alarm 1 armed and its callback
pending (ARMED = 2, INTR = 0), the body run on the device state at the deadline
of alarm 1 leaves raw-interrupt bit 1 clear and armed bit 1 set, and sets
raw-interrupt bit 0. Run through the pointer that is registered, the address
of the slot, the callback does not reach the device: after it the device has
INTR = 0 and ARMED = 2, so raw-interrupt bit 1 is clear and armed bit 1 set,
with the callback no longer pending. -/
theorem timer_callback_of_alarm1_uses_index0 :
    (∀ (ptr : Int) (s : RP2040TimerState),
      (rp2040_timer_alarm_cb ptr s).intr = s.intr ||| (1 <<< 0) ∧
      (rp2040_timer_alarm_cb ptr s).armed = s.armed &&& not32 (1 <<< 0)) ∧
    timer_alarm1_pending.armed = 2 ∧
    timer_alarm1_pending.intr = 0 ∧
    timer_alarm1_pending.alarm_timer 1 = some 100 ∧
    (rp2040_timer_alarm_cb (timer_cb_pointer 0 1)
      { timer_alarm1_pending with
        alarm_timer := Function.update timer_alarm1_pending.alarm_timer 1 none }).intr = 1 ∧
    (rp2040_timer_alarm_cb (timer_cb_pointer 0 1)
      { timer_alarm1_pending with
        alarm_timer := Function.update timer_alarm1_pending.alarm_timer 1 none }).armed = 2 ∧
    (rp2040_timer_alarm_cb (timer_cb_pointer 0 1)
      { timer_alarm1_pending with
        alarm_timer := Function.update timer_alarm1_pending.alarm_timer 1 none }).intr.testBit 1
      = false ∧
    (rp2040_timer_alarm_cb (timer_cb_pointer 0 1)
      { timer_alarm1_pending with
        alarm_timer := Function.update timer_alarm1_pending.alarm_timer 1 none }).armed.testBit 1
      = true ∧
    (timer_step timer_alarm1_pending (TimerOp.callback 1 100)).intr = 0 ∧
    (timer_step timer_alarm1_pending (TimerOp.callback 1 100)).armed = 2 ∧
    (timer_step timer_alarm1_pending (TimerOp.callback 1 100)).intr.testBit 1 = false ∧
    (timer_step timer_alarm1_pending (TimerOp.callback 1 100)).armed.testBit 1 = true ∧
    (timer_step timer_alarm1_pending (TimerOp.callback 1 100)).alarm_timer 1 = none := by
  refine ⟨?_, by decide⟩
  intro ptr s
  rw [timer_alarm_cb_index]
  split <;> exact ⟨rfl, rfl⟩

/-! ## Timer: disarming an alarm -/

/-- The loop of the ARMED write that cancels the callbacks of the alarms
whose bit is set in the written value. -/
theorem timer_disarm_fold (l : List Nat) (s : RP2040TimerState) (value : Nat) :
    (l.foldl (fun t i => if value &&& (1 <<< i) ≠ 0 then
        { t with alarm_timer := Function.update t.alarm_timer i none } else t) s).armed
      = s.armed ∧
    (l.foldl (fun t i => if value &&& (1 <<< i) ≠ 0 then
        { t with alarm_timer := Function.update t.alarm_timer i none } else t) s).intr
      = s.intr ∧
    (l.foldl (fun t i => if value &&& (1 <<< i) ≠ 0 then
        { t with alarm_timer := Function.update t.alarm_timer i none } else t) s).irq
      = s.irq ∧
    (∀ j, (j ∈ l ∧ value &&& (1 <<< j) ≠ 0) ∨ s.alarm_timer j = none →
      (l.foldl (fun t i => if value &&& (1 <<< i) ≠ 0 then
        { t with alarm_timer := Function.update t.alarm_timer i none } else t) s).alarm_timer j
        = none) ∧
    (∀ j, value &&& (1 <<< j) = 0 →
      (l.foldl (fun t i => if value &&& (1 <<< i) ≠ 0 then
        { t with alarm_timer := Function.update t.alarm_timer i none } else t) s).alarm_timer j
        = s.alarm_timer j) := by
  induction l generalizing s with
  | nil =>
    refine ⟨rfl, rfl, rfl, ?_, fun _ _ => rfl⟩
    rintro j (⟨hj, _⟩ | hj)
    · exact absurd hj (List.not_mem_nil j)
    · exact hj
  | cons a rest ih =>
    rw [List.foldl_cons]
    by_cases hc : value &&& (1 <<< a) ≠ 0
    · rw [if_pos hc]
      obtain ⟨h1, h2, h3, h4, h5⟩ := ih { s with alarm_timer := Function.update s.alarm_timer a none }
      refine ⟨h1, h2, h3, ?_, ?_⟩
      · intro j hj
        apply h4
        by_cases hja : j = a
        · right
          show Function.update s.alarm_timer a none j = none
          rw [hja, Function.update_same]
        · rcases hj with ⟨hj, hv⟩ | hj
          · left
            exact ⟨(List.mem_cons.mp hj).resolve_left hja, hv⟩
          · right
            show Function.update s.alarm_timer a none j = none
            rw [Function.update_noteq hja]
            exact hj
      · intro j hj
        rw [h5 j hj]
        have hja : j ≠ a := fun e => hc (e ▸ hj)
        exact Function.update_noteq hja _ _
    · rw [if_neg hc]
      obtain ⟨h1, h2, h3, h4, h5⟩ := ih s
      refine ⟨h1, h2, h3, ?_, h5⟩
      intro j hj
      apply h4
      rcases hj with ⟨hj, hv⟩ | hj
      · left
        refine ⟨(List.mem_cons.mp hj).resolve_left ?_, hv⟩
        intro e
        exact hc (e ▸ hv)
      · right
        exact hj

/-- The loop of the INTR write lowers lines and touches nothing else. -/
theorem timer_intr_fold (l : List Nat) (s : RP2040TimerState) (value : Nat) :
    (l.foldl (fun t i => if value &&& (1 <<< i) ≠ 0 then
        { t with irq := Function.update t.irq i false } else t) s).armed = s.armed ∧
    (l.foldl (fun t i => if value &&& (1 <<< i) ≠ 0 then
        { t with irq := Function.update t.irq i false } else t) s).intr = s.intr ∧
    (l.foldl (fun t i => if value &&& (1 <<< i) ≠ 0 then
        { t with irq := Function.update t.irq i false } else t) s).alarm_timer
      = s.alarm_timer ∧
    (∀ j, (l.foldl (fun t i => if value &&& (1 <<< i) ≠ 0 then
        { t with irq := Function.update t.irq i false } else t) s).irq j = true →
      s.irq j = true) := by
  induction l generalizing s with
  | nil => exact ⟨rfl, rfl, rfl, fun _ h => h⟩
  | cons a rest ih =>
    rw [List.foldl_cons]
    by_cases hc : value &&& (1 <<< a) ≠ 0
    · rw [if_pos hc]
      obtain ⟨h1, h2, h3, h4⟩ := ih { s with irq := Function.update s.irq a false }
      refine ⟨h1, h2, h3, ?_⟩
      intro j hj
      have := h4 j hj
      by_cases hja : j = a
      · rw [hja] at this
        have hf : Function.update s.irq a false a = false := Function.update_same _ _ _
        rw [show ({ s with irq := Function.update s.irq a false } : RP2040TimerState).irq a
          = Function.update s.irq a false a from rfl, hf] at this
        exact Bool.noConfusion this
      · rw [show ({ s with irq := Function.update s.irq a false } : RP2040TimerState).irq j
          = Function.update s.irq a false j from rfl, Function.update_noteq hja] at this
        exact this
    · rw [if_neg hc]
      exact ih s

theorem timer_update_fold_disarmed (l : List Nat) (s : RP2040TimerState) (k now : Nat)
    (hk : k < 32) (ha : s.armed.testBit k = false) (ht : s.alarm_timer k = none) :
    (l.foldl (fun t i => rp2040_timer_update_alarm t i now) s).armed.testBit k = false ∧
    (l.foldl (fun t i => rp2040_timer_update_alarm t i now) s).alarm_timer k = none ∧
    (l.foldl (fun t i => rp2040_timer_update_alarm t i now) s).intr.testBit k
      = s.intr.testBit k := by
  induction l generalizing s with
  | nil => exact ⟨ha, ht, rfl⟩
  | cons a rest ih =>
    obtain ⟨u1, u2, u3⟩ := timer_update_alarm_disarmed s a k now hk ha ht
    obtain ⟨h1, h2, h3⟩ := ih (rp2040_timer_update_alarm s a now) u1 u2
    rw [List.foldl_cons]
    exact ⟨h1, h2, h3.trans u3⟩
theorem timer_write_alarm_disarmed (s : RP2040TimerState) (j k v now : Nat) (hjk : k ≠ j)
    (hk : k < 32) (ha : s.armed.testBit k = false) (ht : s.alarm_timer k = none) :
    (timer_write_alarm s j v now).armed.testBit k = false ∧
    (timer_write_alarm s j v now).alarm_timer k = none ∧
    (timer_write_alarm s j v now).intr.testBit k = s.intr.testBit k ∧
    (timer_write_alarm s j v now).irq = s.irq := by
  unfold timer_write_alarm
  dsimp only
  obtain ⟨h1, h2, h3⟩ := timer_update_alarm_disarmed
    { s with alarm := Function.update s.alarm j (u32 v),
             alarm_high := Function.update s.alarm_high j
               (u32 (rp2040_timer_get_count
                 { s with alarm := Function.update s.alarm j (u32 v) } now >>> 32)),
             armed := s.armed ||| (1 <<< j) } j k now hk
    ((testBit_or_bit_other _ _ _ hjk).trans ha) ht
  exact ⟨h1, h2, h3, (timer_update_alarm_frame _ j now).2.2.2.2⟩

/-- A register write other than to ALARMk leaves a disarmed, unscheduled
alarm `k` disarmed and unscheduled, and sets neither its raw-interrupt bit
nor its line. -/
theorem timer_write_disarmed (s : RP2040TimerState) (offset value now k : Nat) (hk : k < 4)
    (hoff : offset ≠ ALARM0 + 4 * k)
    (ha : s.armed.testBit k = false) (ht : s.alarm_timer k = none) :
    (rp2040_timer_write s offset value now).armed.testBit k = false ∧
    (rp2040_timer_write s offset value now).alarm_timer k = none ∧
    ((rp2040_timer_write s offset value now).intr.testBit k = true → s.intr.testBit k = true) ∧
    ((rp2040_timer_write s offset value now).irq k = true → s.irq k = true) := by
  have hk32 : k < 32 := by omega
  unfold rp2040_timer_write
  split
  · obtain ⟨h1, h2, h3⟩ := timer_update_fold_disarmed [0, 1, 2, 3]
      { s with time_base := u64 (u64 now + 18446744073709551616 - u64 value) } k now hk32 ha ht
    have h5 := (timer_update_fold_frame [0, 1, 2, 3]
      { s with time_base := u64 (u64 now + 18446744073709551616 - u64 value) } now).2.2.2.2
    refine ⟨h1, h2, fun h => (h3 ▸ h), fun h => ?_⟩
    rw [h5] at h
    exact h
  · have hj : k ≠ 0 := by
      intro e; apply hoff; rw [e]; rfl
    obtain ⟨h1, h2, h3, h4⟩ := timer_write_alarm_disarmed s 0 k value now hj hk32 ha ht
    exact ⟨h1, h2, fun h => h3 ▸ h, fun h => by rw [h4] at h; exact h⟩
  · have hj : k ≠ 1 := by
      intro e; apply hoff; rw [e]; rfl
    obtain ⟨h1, h2, h3, h4⟩ := timer_write_alarm_disarmed s 1 k value now hj hk32 ha ht
    exact ⟨h1, h2, fun h => h3 ▸ h, fun h => by rw [h4] at h; exact h⟩
  · have hj : k ≠ 2 := by
      intro e; apply hoff; rw [e]; rfl
    obtain ⟨h1, h2, h3, h4⟩ := timer_write_alarm_disarmed s 2 k value now hj hk32 ha ht
    exact ⟨h1, h2, fun h => h3 ▸ h, fun h => by rw [h4] at h; exact h⟩
  · have hj : k ≠ 3 := by
      intro e; apply hoff; rw [e]; rfl
    obtain ⟨h1, h2, h3, h4⟩ := timer_write_alarm_disarmed s 3 k value now hj hk32 ha ht
    exact ⟨h1, h2, fun h => h3 ▸ h, fun h => by rw [h4] at h; exact h⟩
  · obtain ⟨h1, h2, h3, h4, _⟩ := timer_disarm_fold [0, 1, 2, 3]
      { s with armed := s.armed &&& not32 value } value
    refine ⟨?_, h4 k (Or.inr ht), fun h => ?_, fun h => ?_⟩
    · rw [h1]
      show (s.armed &&& not32 value).testBit k = false
      rw [Nat.testBit_and, ha, Bool.false_and]
    · rw [h2] at h; exact h
    · rw [h3] at h; exact h
  · exact ⟨ha, ht, fun h => h, fun h => h⟩
  · exact ⟨ha, ht, fun h => h, fun h => h⟩
  · obtain ⟨h1, h2, h3, h4⟩ := timer_intr_fold [0, 1, 2, 3]
      { s with intr := s.intr &&& not32 value } value
    refine ⟨?_, ?_, fun h => ?_, fun h => h4 k h⟩
    · rw [h1]; exact ha
    · rw [h3]; exact ht
    · rw [h2] at h
      have h' : (s.intr &&& not32 value).testBit k = true := h
      rw [Nat.testBit_and, Bool.and_eq_true] at h'
      exact h'.1
  · exact ⟨ha, ht, fun h => h, fun h => h⟩
  · exact ⟨ha, ht, fun h => h, fun h => h⟩
  · exact ⟨ha, ht, fun h => h, fun h => h⟩

/-- An operation other than a write to ALARMk leaves a disarmed, unscheduled
alarm `k` disarmed and unscheduled. -/
theorem timer_step_keeps_disarmed (s : RP2040TimerState) (op : TimerOp) (k : Nat) (hk : k < 4)
    (hop : ¬ timer_op_is_alarm_write k op)
    (ha : s.armed.testBit k = false) (ht : s.alarm_timer k = none) :
    (timer_step s op).armed.testBit k = false ∧ (timer_step s op).alarm_timer k = none := by
  cases op with
  | read offset now =>
    show (rp2040_timer_read s offset now).2.armed.testBit k = false ∧
      (rp2040_timer_read s offset now).2.alarm_timer k = none
    unfold rp2040_timer_read
    split <;> exact ⟨ha, ht⟩
  | write offset value now =>
    obtain ⟨h1, h2, _, _⟩ := timer_write_disarmed s offset value now k hk hop ha ht
    exact ⟨h1, h2⟩
  | callback j now =>
    show (if j < 4 then _ else s : RP2040TimerState).armed.testBit k = false ∧
      (if j < 4 then _ else s : RP2040TimerState).alarm_timer k = none
    split
    · split
      · split
        · have hnone : Function.update s.alarm_timer j none k = none := by
            by_cases hkj : k = j
            · rw [hkj, Function.update_same]
            · rw [Function.update_noteq hkj]; exact ht
          exact ⟨ha, hnone⟩
        · exact ⟨ha, ht⟩
      · exact ⟨ha, ht⟩
    · exact ⟨ha, ht⟩

/-- An operation other than a write to ALARMk sets neither the
raw-interrupt bit nor the line of a disarmed, unscheduled alarm `k`. -/
theorem timer_step_no_fire (s : RP2040TimerState) (op : TimerOp) (k : Nat) (hk : k < 4)
    (hop : ¬ timer_op_is_alarm_write k op)
    (ha : s.armed.testBit k = false) (ht : s.alarm_timer k = none) :
    ((timer_step s op).intr.testBit k = true → s.intr.testBit k = true) ∧
    ((timer_step s op).irq k = true → s.irq k = true) := by
  cases op with
  | read offset now =>
    show ((rp2040_timer_read s offset now).2.intr.testBit k = true → _) ∧
      ((rp2040_timer_read s offset now).2.irq k = true → _)
    unfold rp2040_timer_read
    split <;> exact ⟨fun h => h, fun h => h⟩
  | write offset value now =>
    obtain ⟨_, _, h3, h4⟩ := timer_write_disarmed s offset value now k hk hop ha ht
    exact ⟨h3, h4⟩
  | callback j now =>
    show ((if j < 4 then _ else s : RP2040TimerState).intr.testBit k = true → _) ∧
      ((if j < 4 then _ else s : RP2040TimerState).irq k = true → _)
    split
    · split
      · split
        · exact ⟨fun h => h, fun h => h⟩
        · exact ⟨fun h => h, fun h => h⟩
      · exact ⟨fun h => h, fun h => h⟩
    · exact ⟨fun h => h, fun h => h⟩

theorem timer_run_keeps_disarmed (ops : List TimerOp) (s : RP2040TimerState) (k : Nat)
    (hk : k < 4) (hops : ∀ op ∈ ops, ¬ timer_op_is_alarm_write k op)
    (ha : s.armed.testBit k = false) (ht : s.alarm_timer k = none) :
    (timer_run s ops).armed.testBit k = false ∧ (timer_run s ops).alarm_timer k = none := by
  induction ops generalizing s with
  | nil => exact ⟨ha, ht⟩
  | cons op rest ih =>
    obtain ⟨h1, h2⟩ := timer_step_keeps_disarmed s op k hk (hops op (List.mem_cons_self _ _))
      ha ht
    exact ih (timer_step s op) (fun o ho => hops o (List.mem_cons_of_mem _ ho)) h1 h2

theorem timer_run_no_fire (ops : List TimerOp) (s : RP2040TimerState) (k : Nat) (hk : k < 4)
    (hops : ∀ op ∈ ops, ¬ timer_op_is_alarm_write k op)
    (ha : s.armed.testBit k = false) (ht : s.alarm_timer k = none) :
    ((timer_run s ops).intr.testBit k = true → s.intr.testBit k = true) ∧
    ((timer_run s ops).irq k = true → s.irq k = true) := by
  induction ops generalizing s with
  | nil => exact ⟨fun h => h, fun h => h⟩
  | cons op rest ih =>
    have hop := hops op (List.mem_cons_self _ _)
    obtain ⟨h1, h2⟩ := timer_step_keeps_disarmed s op k hk hop ha ht
    obtain ⟨f1, f2⟩ := timer_step_no_fire s op k hk hop ha ht
    obtain ⟨g1, g2⟩ := ih (timer_step s op) (fun o ho => hops o (List.mem_cons_of_mem _ ho))
      h1 h2
    exact ⟨fun h => f1 (g1 h), fun h => f2 (g2 h)⟩

/-- C12: a write to the ARMED register (offset 0x20) of a value with bit k
set (k in 0..3) clears armed bit k and cancels the callback of alarm k. After
it, through any run of register reads, register writes other than to ALARMk
and clock callbacks of any alarm at any clock times, alarm k stays disarmed
with no callback pending, so neither the immediate-fire branch nor the
callback of alarm k can run; and no operation of such a run sets raw-interrupt
bit k or raises line k. The alarms whose bit is 0 in the written value keep
their armed bit and their callback. -/
theorem timer_disarm_cancels (s : RP2040TimerState) (v now k : Nat) (hk : k < 4)
    (hbit : v &&& (1 <<< k) ≠ 0) :
    (rp2040_timer_write s ARMED v now).armed.testBit k = false ∧
    (rp2040_timer_write s ARMED v now).alarm_timer k = none ∧
    (rp2040_timer_write s ARMED v now).intr = s.intr ∧
    (rp2040_timer_write s ARMED v now).irq = s.irq ∧
    (∀ ops : List TimerOp, (∀ op ∈ ops, ¬ timer_op_is_alarm_write k op) →
      (timer_run (rp2040_timer_write s ARMED v now) ops).armed.testBit k = false ∧
      (timer_run (rp2040_timer_write s ARMED v now) ops).alarm_timer k = none ∧
      ((timer_run (rp2040_timer_write s ARMED v now) ops).intr.testBit k = true →
        s.intr.testBit k = true) ∧
      ((timer_run (rp2040_timer_write s ARMED v now) ops).irq k = true → s.irq k = true)) ∧
    (∀ j, j < 4 → v &&& (1 <<< j) = 0 →
      (rp2040_timer_write s ARMED v now).armed.testBit j = s.armed.testBit j ∧
      (rp2040_timer_write s ARMED v now).alarm_timer j = s.alarm_timer j) := by
  obtain ⟨h1, h2, h3, h4, h5⟩ := timer_disarm_fold [0, 1, 2, 3]
    { s with armed := s.armed &&& not32 v } v
  have hW : rp2040_timer_write s ARMED v now
      = [0, 1, 2, 3].foldl (fun t i => if v &&& (1 <<< i) ≠ 0 then
          { t with alarm_timer := Function.update t.alarm_timer i none } else t)
          { s with armed := s.armed &&& not32 v } := rfl
  rw [← hW] at h1 h2 h3 h4 h5
  have hmem : k ∈ [0, 1, 2, 3] := by
    have h4 : k = 0 ∨ k = 1 ∨ k = 2 ∨ k = 3 := by omega
    rcases h4 with rfl | rfl | rfl | rfl <;> decide
  have hvk : v.testBit k = true := (and_bit_ne_zero_iff v k).mp hbit
  have ha : (rp2040_timer_write s ARMED v now).armed.testBit k = false := by
    rw [h1]
    show (s.armed &&& not32 v).testBit k = false
    rw [Nat.testBit_and, testBit_not32, hvk]
    simp
  have ht : (rp2040_timer_write s ARMED v now).alarm_timer k = none :=
    h4 k (Or.inl ⟨hmem, hbit⟩)
  refine ⟨ha, ht, h2, h3, ?_, ?_⟩
  · intro ops hops
    obtain ⟨d1, d2⟩ := timer_run_keeps_disarmed ops _ k hk hops ha ht
    obtain ⟨f1, f2⟩ := timer_run_no_fire ops _ k hk hops ha ht
    rw [h2] at f1
    rw [h3] at f2
    exact ⟨d1, d2, f1, f2⟩
  · intro j hj hvj
    refine ⟨?_, h5 j hvj⟩
    rw [h1]
    show (s.armed &&& not32 v).testBit j = s.armed.testBit j
    have hvj2 : v.testBit j = false := (armed_test_iff v j).mp hvj
    have hj32 : decide (j < 32) = true := decide_eq_true (by omega)
    rw [Nat.testBit_and, testBit_not32, hvj2, hj32]
    simp

theorem timer_disarm_cancels_witness :
    (timer_run (rp2040_timer_write timer_alarm1_pending ARMED 2 10)
      [TimerOp.write TIMELW 500 20, TimerOp.callback 1 100, TimerOp.write ALARM0 600 30,
        TimerOp.callback 0 700, TimerOp.read TIMELR 800]).armed.testBit 1 = false ∧
    (timer_run (rp2040_timer_write timer_alarm1_pending ARMED 2 10)
      [TimerOp.write TIMELW 500 20, TimerOp.callback 1 100, TimerOp.write ALARM0 600 30,
        TimerOp.callback 0 700, TimerOp.read TIMELR 800]).alarm_timer 1 = none ∧
    ((timer_run (rp2040_timer_write timer_alarm1_pending ARMED 2 10)
      [TimerOp.write TIMELW 500 20, TimerOp.callback 1 100, TimerOp.write ALARM0 600 30,
        TimerOp.callback 0 700, TimerOp.read TIMELR 800]).irq 1 = true →
      timer_alarm1_pending.irq 1 = true) := by
  have h := timer_disarm_cancels timer_alarm1_pending 2 10 1 (by decide) (by decide)
  have h5 := h.2.2.2.2.1
    [TimerOp.write TIMELW 500 20, TimerOp.callback 1 100, TimerOp.write ALARM0 600 30,
      TimerOp.callback 0 700, TimerOp.read TIMELR 800] (by decide)
  exact ⟨h5.1, h5.2.1, h5.2.2.2⟩

/-! ## UART: bounds and the interrupt-clear register -/

/-- C21: in every UART state reachable from reset through register reads,
register writes and receive events of any size, `rx_fifo_len` is at most 32
(and, being unsigned, at least 0: the decrement of a data-register read is
guarded by `rx_fifo_len > 0`). -/
theorem uart_fifo_len_bounded (s : RP2040UARTState) (h : UartReachable s) :
    0 ≤ s.rx_fifo_len ∧ s.rx_fifo_len ≤ 32 :=
  ⟨Nat.zero_le _, (uartInv_of_reachable s h).len_le⟩

theorem uart_fifo_len_bounded_witness :
    0 ≤ (rp2040_uart_rx uart_full_state (List.replicate 40 1)).rx_fifo_len ∧
    (rp2040_uart_rx uart_full_state (List.replicate 40 1)).rx_fifo_len ≤ 32 :=
  uart_fifo_len_bounded _
    (UartReachable.rx _ _
      (UartReachable.rx _ _ (UartReachable.write _ _ _ (UartReachable.reset uart_zero))))

/-- C22: in a state reachable from reset, a write of `v` to the UART
interrupt-clear register (offset 0x44) replaces the raw interrupt status by
`RIS AND NOT v` on the low 32 bits and recomputes the masked status and the
interrupt line from it; every other register and every FIFO field keeps its
value. -/
theorem uart_write_interrupt_clear (s : RP2040UARTState) (h : UartReachable s) (v : Nat) :
    rp2040_uart_write s UART_ICR v
      = { s with ris := s.ris &&& not32 v,
                 mis := (s.ris &&& not32 v) &&& s.imsc,
                 irq := decide ((s.ris &&& not32 v) &&& s.imsc ≠ 0) } ∧
    (∀ i, (rp2040_uart_write s UART_ICR v).ris.testBit i
      = (s.ris.testBit i && (decide (i < 32) && !v.testBit i))) := by
  have hinv := uartInv_of_reachable s h
  have hw : rp2040_uart_write s UART_ICR v
      = { s with ris := s.ris &&& not32 v,
                 mis := (s.ris &&& not32 v) &&& s.imsc,
                 irq := decide ((s.ris &&& not32 v) &&& s.imsc ≠ 0) } := by
    show ({ s with ris := s.ris &&& not32 v,
                   fr := uart_flags s.rx_fifo_len s.tx_fifo_len,
                   mis := (s.ris &&& not32 v) &&& s.imsc,
                   irq := decide ((s.ris &&& not32 v) &&& s.imsc ≠ 0) } : RP2040UARTState) = _
    rw [← hinv.fr_eq]
  refine ⟨hw, ?_⟩
  intro i
  rw [hw]
  show (s.ris &&& not32 v).testBit i = _
  rw [Nat.testBit_and, testBit_not32]

theorem uart_write_interrupt_clear_witness :
    (rp2040_uart_write (rp2040_uart_rx uart_full_state [9]) UART_ICR 0x400).ris = 0x10 := by
  have h := (uart_write_interrupt_clear (rp2040_uart_rx uart_full_state [9])
    (UartReachable.rx _ _
      (UartReachable.rx _ _ (UartReachable.write _ _ _ (UartReachable.reset uart_zero))))
    0x400).1
  rw [h]
  decide

/-! ## Timer: raw counter reads and the interrupt-status clear -/

/-- C27: at virtual-clock time `t`, reads of TIMERAWH and TIMERAWL (offsets
0x24 and 0x28), and likewise of TIMEHR and TIMELR (0x08 and 0x0C), return the
high and the low 32-bit half of `(t - time_base) mod 2^64` and leave the whole
timer state, the latched snapshot included, as it was. -/
theorem timer_raw_reads (s : RP2040TimerState) (t : Nat) :
    rp2040_timer_get_count s t = (t % 2 ^ 64 + 2 ^ 64 - s.time_base % 2 ^ 64) % 2 ^ 64 ∧
    rp2040_timer_read s TIMERAWH t = (rp2040_timer_get_count s t / 2 ^ 32, s) ∧
    rp2040_timer_read s TIMERAWL t = (rp2040_timer_get_count s t % 2 ^ 32, s) ∧
    rp2040_timer_read s TIMEHR t = (rp2040_timer_get_count s t / 2 ^ 32, s) ∧
    rp2040_timer_read s TIMELR t = (rp2040_timer_get_count s t % 2 ^ 32, s) ∧
    ((rp2040_timer_read s TIMERAWH t).1 <<< 32) ||| (rp2040_timer_read s TIMERAWL t).1
      = rp2040_timer_get_count s t := by
  have hc := timer_get_count_lt s t
  have hhigh : u32 (rp2040_timer_get_count s t >>> 32) = rp2040_timer_get_count s t / 2 ^ 32 := by
    rw [Nat.shiftRight_eq_div_pow]
    apply Nat.mod_eq_of_lt
    have : rp2040_timer_get_count s t / 2 ^ 32 < 2 ^ 32 :=
      (Nat.div_lt_iff_lt_mul (by norm_num)).mpr (by
        calc rp2040_timer_get_count s t < 2 ^ 64 := hc
          _ = 2 ^ 32 * 2 ^ 32 := by norm_num)
    simpa using this
  have hlow : u32 (rp2040_timer_get_count s t &&& 0xFFFFFFFF)
      = rp2040_timer_get_count s t % 2 ^ 32 := by
    have h1 : rp2040_timer_get_count s t &&& (2 ^ 32 - 1) = rp2040_timer_get_count s t % 2 ^ 32 :=
      Nat.and_pow_two_sub_one_eq_mod _ 32
    rw [show (0xFFFFFFFF : Nat) = 2 ^ 32 - 1 from rfl, h1]
    exact Nat.mod_mod _ _
  have e1 : rp2040_timer_read s TIMERAWH t = (u32 (rp2040_timer_get_count s t >>> 32), s) := rfl
  have e2 : rp2040_timer_read s TIMERAWL t
      = (u32 (rp2040_timer_get_count s t &&& 0xFFFFFFFF), s) := rfl
  have e3 : rp2040_timer_read s TIMEHR t = (u32 (rp2040_timer_get_count s t >>> 32), s) := rfl
  have e4 : rp2040_timer_read s TIMELR t
      = (u32 (rp2040_timer_get_count s t &&& 0xFFFFFFFF), s) := rfl
  refine ⟨rfl, ?_, ?_, ?_, ?_, ?_⟩
  · rw [e1, hhigh]
  · rw [e2, hlow]
  · rw [e3, hhigh]
  · rw [e4, hlow]
  · rw [e1, e2]
    exact halves_reassemble _ hc

/-- The loop of the INTR write: the line of alarm `j` is lowered when `j` is
in the list and its bit is set in the written value, and is left alone when
its bit is clear. -/
theorem timer_intr_fold_lines (l : List Nat) (s : RP2040TimerState) (value : Nat) :
    (∀ j, (j ∈ l ∧ value &&& (1 <<< j) ≠ 0) ∨ s.irq j = false →
      (l.foldl (fun t i => if value &&& (1 <<< i) ≠ 0 then
        { t with irq := Function.update t.irq i false } else t) s).irq j = false) ∧
    (∀ j, value &&& (1 <<< j) = 0 →
      (l.foldl (fun t i => if value &&& (1 <<< i) ≠ 0 then
        { t with irq := Function.update t.irq i false } else t) s).irq j = s.irq j) := by
  induction l generalizing s with
  | nil =>
    refine ⟨?_, fun _ _ => rfl⟩
    rintro j (⟨hj, _⟩ | hj)
    · exact absurd hj (List.not_mem_nil j)
    · exact hj
  | cons a rest ih =>
    rw [List.foldl_cons]
    by_cases hc : value &&& (1 <<< a) ≠ 0
    · rw [if_pos hc]
      obtain ⟨h4, h5⟩ := ih { s with irq := Function.update s.irq a false }
      refine ⟨?_, ?_⟩
      · intro j hj
        apply h4
        by_cases hja : j = a
        · right
          show Function.update s.irq a false j = false
          rw [hja, Function.update_same]
        · rcases hj with ⟨hj, hv⟩ | hj
          · left
            exact ⟨(List.mem_cons.mp hj).resolve_left hja, hv⟩
          · right
            show Function.update s.irq a false j = false
            rw [Function.update_noteq hja]
            exact hj
      · intro j hj
        rw [h5 j hj]
        have hja : j ≠ a := fun e => hc (e ▸ hj)
        exact Function.update_noteq hja _ _
    · rw [if_neg hc]
      obtain ⟨h4, h5⟩ := ih s
      refine ⟨?_, h5⟩
      intro j hj
      apply h4
      rcases hj with ⟨hj, hv⟩ | hj
      · left
        refine ⟨(List.mem_cons.mp hj).resolve_left ?_, hv⟩
        intro e
        exact hc (e ▸ hv)
      · right
        exact hj

/-- C28: a write of `v` to the timer INTR register (offset 0x34) replaces the
raw interrupt status by `INTR AND NOT v` (on the low 32 bits) and lowers the
interrupt line of every alarm i in 0..3 whose bit is set in `v`; the raw bit
and the line of an alarm whose bit is 0 in `v` are unchanged, and so are the
armed bits and the callbacks. -/
theorem timer_write_interrupt_clear (s : RP2040TimerState) (v now : Nat) :
    (rp2040_timer_write s INTR v now).intr = s.intr &&& not32 v ∧
    (∀ i, (rp2040_timer_write s INTR v now).intr.testBit i
      = (s.intr.testBit i && (decide (i < 32) && !v.testBit i))) ∧
    (∀ i, i < 4 → v.testBit i = true → (rp2040_timer_write s INTR v now).irq i = false) ∧
    (∀ i, i < 4 → v.testBit i = false →
      (rp2040_timer_write s INTR v now).irq i = s.irq i ∧
      (rp2040_timer_write s INTR v now).intr.testBit i = s.intr.testBit i) ∧
    (rp2040_timer_write s INTR v now).armed = s.armed ∧
    (rp2040_timer_write s INTR v now).alarm_timer = s.alarm_timer := by
  have hW : rp2040_timer_write s INTR v now
      = [0, 1, 2, 3].foldl (fun t i => if v &&& (1 <<< i) ≠ 0 then
          { t with irq := Function.update t.irq i false } else t)
          { s with intr := s.intr &&& not32 v } := rfl
  obtain ⟨h1, h2, h3, _⟩ := timer_intr_fold [0, 1, 2, 3] { s with intr := s.intr &&& not32 v } v
  obtain ⟨l1, l2⟩ := timer_intr_fold_lines [0, 1, 2, 3] { s with intr := s.intr &&& not32 v } v
  rw [← hW] at h1 h2 h3 l1 l2
  have hbits : ∀ i, (rp2040_timer_write s INTR v now).intr.testBit i
      = (s.intr.testBit i && (decide (i < 32) && !v.testBit i)) := by
    intro i
    rw [h2]
    show (s.intr &&& not32 v).testBit i = _
    rw [Nat.testBit_and, testBit_not32]
  refine ⟨h2, hbits, ?_, ?_, h1, h3⟩
  · intro i hi hv
    apply l1 i
    left
    refine ⟨?_, (and_bit_ne_zero_iff v i).mpr hv⟩
    have h4 : i = 0 ∨ i = 1 ∨ i = 2 ∨ i = 3 := by omega
    rcases h4 with rfl | rfl | rfl | rfl <;> decide
  · intro i hi hv
    refine ⟨l2 i ((armed_test_iff v i).mpr hv), ?_⟩
    rw [hbits i, hv]
    have : decide (i < 32) = true := decide_eq_true (by omega)
    rw [this]
    simp

/-! ## GPIO: pins that are not software-I/O -/

/-- On a pin whose function select is not software-I/O,
`rp2040_gpio_set_input` only stores the level. -/
theorem gpio_set_input_not_sio (s : RP2040GPIOState) (pin : Nat) (level : Int)
    (hns : s.ctrl pin &&& 0x1F ≠ FUNCSEL_SIO) :
    rp2040_gpio_set_input s pin level =
      if pin < GPIO_NUM_PINS then gpio_store_level s pin level else s := by
  by_cases hp : pin < GPIO_NUM_PINS
  · rw [if_pos hp, gpio_set_input_eq s pin level hp, if_neg hns]
  · rw [if_neg hp]
    unfold rp2040_gpio_set_input
    rw [if_pos (Nat.not_lt.mp hp)]

theorem gpio_store_level_frame (s : RP2040GPIOState) (pin : Nat) (level : Int) :
    (gpio_store_level s pin level).proc0_intf = s.proc0_intf ∧
    (gpio_store_level s pin level).proc1_intf = s.proc1_intf ∧
    (gpio_store_level s pin level).proc0_irq = s.proc0_irq ∧
    (gpio_store_level s pin level).proc1_irq = s.proc1_irq := by
  unfold gpio_store_level
  split <;> exact ⟨rfl, rfl, rfl, rfl⟩

/-- The level store changes bit 17 of the STATUS register of the pin and
nothing else in the STATUS registers. -/
theorem gpio_store_level_status_bits (s : RP2040GPIOState) (pin : Nat) (level : Int) :
    (∀ q, q ≠ pin → (gpio_store_level s pin level).status q = s.status q) ∧
    (∀ i, i ≠ 17 → i < 32 →
      ((gpio_store_level s pin level).status pin).testBit i = (s.status pin).testBit i) ∧
    (((gpio_store_level s pin level).status pin).testBit 17 = decide (level ≠ 0)) := by
  rw [gpio_store_level_status]
  refine ⟨fun q hq => Function.update_noteq hq _ _, fun i hi hi32 => ?_, ?_⟩
  · rw [Function.update_same]
    by_cases hl : level ≠ 0
    · rw [if_pos hl]; exact testBit_or_bit_other _ _ _ hi
    · rw [if_neg hl]; exact testBit_clear_bit_other _ _ _ hi hi32
  · rw [Function.update_same]
    by_cases hl : level ≠ 0
    · rw [if_pos hl, Nat.testBit_or, testBit_one_shiftLeft]
      simp [hl]
    · rw [if_neg hl, testBit_clear_bit_self]
      simp [hl]

/-- After a reset no pin is a software-I/O pin, and level reports keep it so. -/
theorem gpio_report_all_after_reset (reports : List (Nat × Int)) (t : RP2040GPIOState)
    (hc : ∀ q, t.ctrl q &&& 0x1F ≠ FUNCSEL_SIO) :
    (gpio_report_all t reports).intr = t.intr ∧
    (gpio_report_all t reports).proc0_irq = t.proc0_irq ∧
    (gpio_report_all t reports).proc1_irq = t.proc1_irq := by
  induction reports generalizing t with
  | nil => exact ⟨rfl, rfl, rfl⟩
  | cons r rest ih =>
    have hstep : gpio_report_all t (r :: rest)
        = gpio_report_all (rp2040_gpio_set_input t r.1 r.2) rest := rfl
    rw [hstep]
    have hfr := gpio_set_input_frame t r.1 r.2
    have hc2 : ∀ q, (rp2040_gpio_set_input t r.1 r.2).ctrl q &&& 0x1F ≠ FUNCSEL_SIO := by
      intro q; rw [hfr.1]; exact hc q
    obtain ⟨h1, h2, h3⟩ := ih _ hc2
    have he := gpio_set_input_not_sio t r.1 r.2 (hc r.1)
    have hf := gpio_store_level_frame t r.1 r.2
    have hi := gpio_store_level_intr t r.1 r.2
    rw [h1, h2, h3, he]
    split
    · exact ⟨hi, hf.2.2.1, hf.2.2.2⟩
    · exact ⟨rfl, rfl, rfl⟩

theorem gpio_reset_no_sio (s0 : RP2040GPIOState) (q : Nat) :
    (rp2040_gpio_reset s0).ctrl q &&& 0x1F ≠ FUNCSEL_SIO := by
  show (if q < GPIO_NUM_PINS then FUNCSEL_NULL else 0) &&& 0x1F ≠ FUNCSEL_SIO
  split <;> decide

/-- C24: if the function select of a pin (the low 5 bits of its CTRL
register) is not 5, `rp2040_gpio_set_input` on that pin changes nothing but
bit 17 of the STATUS register of that pin, which takes the truth value of the
level (and nothing at all when the pin number is 30 or more): the other bits
of that register, the STATUS registers of the other pins, the CTRL registers,
the four INTR registers, the enable and force registers and both lines are
unchanged, whatever the level and the enable masks. After a reset every pin
has function select 31, and any run of level reports leaves all INTR
registers zero and both lines as they were. -/
theorem gpio_non_sio_pin_no_interrupt (s : RP2040GPIOState) (pin : Nat) (level : Int)
    (hns : s.ctrl pin &&& 0x1F ≠ FUNCSEL_SIO) :
    (rp2040_gpio_set_input s pin level).intr = s.intr ∧
    (rp2040_gpio_set_input s pin level).proc0_irq = s.proc0_irq ∧
    (rp2040_gpio_set_input s pin level).proc1_irq = s.proc1_irq ∧
    (rp2040_gpio_set_input s pin level).ctrl = s.ctrl ∧
    (rp2040_gpio_set_input s pin level).proc0_inte = s.proc0_inte ∧
    (rp2040_gpio_set_input s pin level).proc0_intf = s.proc0_intf ∧
    (rp2040_gpio_set_input s pin level).proc1_inte = s.proc1_inte ∧
    (rp2040_gpio_set_input s pin level).proc1_intf = s.proc1_intf ∧
    (∀ q, q ≠ pin → (rp2040_gpio_set_input s pin level).status q = s.status q) ∧
    (∀ i, i ≠ 17 → i < 32 →
      ((rp2040_gpio_set_input s pin level).status pin).testBit i = (s.status pin).testBit i) ∧
    (pin < GPIO_NUM_PINS →
      ((rp2040_gpio_set_input s pin level).status pin).testBit 17 = decide (level ≠ 0)) ∧
    (GPIO_NUM_PINS ≤ pin → rp2040_gpio_set_input s pin level = s) ∧
    (∀ (s0 : RP2040GPIOState) (reports : List (Nat × Int)),
      (∀ q, q < GPIO_NUM_PINS → (rp2040_gpio_reset s0).ctrl q &&& 0x1F = FUNCSEL_NULL) ∧
      (gpio_report_all (rp2040_gpio_reset s0) reports).intr = (fun _ => 0) ∧
      (gpio_report_all (rp2040_gpio_reset s0) reports).proc0_irq = s0.proc0_irq ∧
      (gpio_report_all (rp2040_gpio_reset s0) reports).proc1_irq = s0.proc1_irq) := by
  have he := gpio_set_input_not_sio s pin level hns
  have hf := gpio_store_level_frame s pin level
  have hb := gpio_store_level_status_bits s pin level
  have hlast : ∀ (s0 : RP2040GPIOState) (reports : List (Nat × Int)),
      (∀ q, q < GPIO_NUM_PINS → (rp2040_gpio_reset s0).ctrl q &&& 0x1F = FUNCSEL_NULL) ∧
      (gpio_report_all (rp2040_gpio_reset s0) reports).intr = (fun _ => 0) ∧
      (gpio_report_all (rp2040_gpio_reset s0) reports).proc0_irq = s0.proc0_irq ∧
      (gpio_report_all (rp2040_gpio_reset s0) reports).proc1_irq = s0.proc1_irq := by
    intro s0 reports
    obtain ⟨h1, h2, h3⟩ :=
      gpio_report_all_after_reset reports (rp2040_gpio_reset s0) (gpio_reset_no_sio s0)
    refine ⟨fun q hq => ?_, h1, h2, h3⟩
    show (if q < GPIO_NUM_PINS then FUNCSEL_NULL else 0) &&& 0x1F = FUNCSEL_NULL
    rw [if_pos hq]; decide
  by_cases hp : pin < GPIO_NUM_PINS
  · rw [if_pos hp] at he
    rw [he]
    exact ⟨gpio_store_level_intr s pin level, hf.2.2.1, hf.2.2.2, gpio_store_level_ctrl s pin level,
      gpio_store_level_proc0_inte s pin level, hf.1, gpio_store_level_proc1_inte s pin level,
      hf.2.1, hb.1, hb.2.1, fun _ => hb.2.2, fun h => absurd hp (Nat.not_lt.mpr h), hlast⟩
  · rw [if_neg hp] at he
    rw [he]
    exact ⟨rfl, rfl, rfl, rfl, rfl, rfl, rfl, rfl, fun _ _ => rfl, fun _ _ _ => rfl,
      fun h => absurd h hp, fun _ => rfl, hlast⟩

theorem gpio_non_sio_pin_no_interrupt_witness :
    gpio_mixed_field_state.ctrl 3 &&& 0x1F ≠ FUNCSEL_SIO ∧
    (rp2040_gpio_set_input gpio_mixed_field_state 3 1).intr = gpio_mixed_field_state.intr ∧
    (rp2040_gpio_set_input gpio_mixed_field_state 3 1).proc0_irq
      = gpio_mixed_field_state.proc0_irq :=
  have h : gpio_mixed_field_state.ctrl 3 &&& 0x1F ≠ FUNCSEL_SIO := by decide
  ⟨h, (gpio_non_sio_pin_no_interrupt gpio_mixed_field_state 3 1 h).1,
    (gpio_non_sio_pin_no_interrupt gpio_mixed_field_state 3 1 h).2.1⟩

/-! ## GPIO: edge conditions -/

/-- The edge bits of the raised conditions: bit 3 (edge high) needs a low
previous level and a high new level, bit 2 (edge low) a high previous level
and a low new level. -/
theorem gpio_int_status_edges (m old : Nat) (level : Int) :
    ((gpio_int_status m old level).testBit 3 = true ↔
      (m &&& INT_EDGE_HIGH ≠ 0 ∧ old = 0 ∧ level ≠ 0)) ∧
    ((gpio_int_status m old level).testBit 2 = true ↔
      (m &&& INT_EDGE_LOW ≠ 0 ∧ old ≠ 0 ∧ level = 0)) := by
  unfold gpio_int_status
  by_cases hl : level = 0 <;> by_cases ho : old = 0 <;>
    by_cases h0 : m &&& INT_LEVEL_LOW = 0 <;> by_cases h1 : m &&& INT_LEVEL_HIGH = 0 <;>
    by_cases h2 : m &&& INT_EDGE_LOW = 0 <;> by_cases h3 : m &&& INT_EDGE_HIGH = 0 <;>
    simp [hl, ho, h0, h1, h2, h3] <;> decide

/-- Bit `e` of the field ORed in at `b` lands on bit `b + e` of the register. -/
theorem testBit_or_field (x y b e : Nat) :
    (x ||| (y <<< b)).testBit (b + e) = (x.testBit (b + e) || y.testBit e) := by
  rw [Nat.testBit_or, Nat.testBit_shiftLeft]
  simp

/-- The level bit of a STATUS register read as a number is bit 17 of it. -/
theorem level_bit_eq_zero_iff (x : Nat) : (x >>> 17) &&& 1 = 0 ↔ x.testBit 17 = false := by
  have h : (x >>> 17) &&& 1 = (x >>> 17) % 2 := Nat.and_one_is_mod _
  have h2 : x.testBit 17 = (x >>> 17).testBit 0 := by
    rw [Nat.testBit_shiftRight]
  rw [h, h2, Nat.testBit_zero]
  by_cases hm : (x >>> 17) % 2 = 1
  · simp [hm]
  · have h0 : (x >>> 17) % 2 = 0 := by omega
    simp [h0]

/-- A write to INTRr clears the written bits of INTR[r] and recomputes the
lines. -/
theorem gpio_write_intr_eq (s : RP2040GPIOState) (r v : Nat) (hr : r < 4) :
    rp2040_gpio_write s (INTR0 + 4 * r) v =
      rp2040_gpio_update_irq
        { s with intr := Function.update s.intr r (s.intr r &&& not32 v) } := by
  have h : r = 0 ∨ r = 1 ∨ r = 2 ∨ r = 3 := by omega
  rcases h with h | h | h | h <;> subst h <;> rfl

/-- In every case the STATUS registers left by `rp2040_gpio_set_input` are
those left by the level store. -/
theorem gpio_set_input_status (s : RP2040GPIOState) (pin : Nat) (level : Int)
    (hp : pin < GPIO_NUM_PINS) :
    (rp2040_gpio_set_input s pin level).status = (gpio_store_level s pin level).status := by
  rw [gpio_set_input_eq s pin level hp]
  split
  · split
    · rfl
    · rfl
  · rfl

/-- Once the stored level of a pin equals the reported level, a further
report of that level sets neither edge bit of the pin, and the stored level
stays equal to it. -/
theorem gpio_set_input_settled (u : RP2040GPIOState) (pin : Nat) (level : Int)
    (hinv : (u.status pin >>> 17) &&& 1 = if level ≠ 0 then 1 else 0) :
    ((rp2040_gpio_set_input u pin level).status pin >>> 17) &&& 1
        = (if level ≠ 0 then 1 else 0) ∧
    ((rp2040_gpio_set_input u pin level).intr (pin / 8)).testBit ((pin % 8) * 4 + 3)
        = (u.intr (pin / 8)).testBit ((pin % 8) * 4 + 3) ∧
    ((rp2040_gpio_set_input u pin level).intr (pin / 8)).testBit ((pin % 8) * 4 + 2)
        = (u.intr (pin / 8)).testBit ((pin % 8) * 4 + 2) := by
  by_cases hp : pin < GPIO_NUM_PINS
  · have hst := gpio_set_input_status u pin level hp
    have hag := gpio_store_level_again u (rp2040_gpio_set_input u pin level) pin level
      (by rw [hst])
    refine ⟨hag.2, ?_⟩
    by_cases hsio : u.ctrl pin &&& 0x1F = FUNCSEL_SIO
    · have hi := (gpio_set_input_sio u pin level hp hsio).2
      rw [hi, Function.update_same, hinv, testBit_or_field, testBit_or_field]
      have he := gpio_int_status_edges ((u.ctrl pin >>> 28) &&& 0xF) (if level ≠ 0 then 1 else 0)
        level
      have h3 : (gpio_int_status ((u.ctrl pin >>> 28) &&& 0xF) (if level ≠ 0 then 1 else 0)
          level).testBit 3 = false := by
        rw [Bool.eq_false_iff]
        intro h
        obtain ⟨_, ho, hl⟩ := he.1.mp h
        rw [if_pos hl] at ho
        exact absurd ho (by decide)
      have h2 : (gpio_int_status ((u.ctrl pin >>> 28) &&& 0xF) (if level ≠ 0 then 1 else 0)
          level).testBit 2 = false := by
        rw [Bool.eq_false_iff]
        intro h
        obtain ⟨_, ho, hl⟩ := he.2.mp h
        rw [if_neg (not_not.mpr hl)] at ho
        exact ho rfl
      rw [h3, h2, Bool.or_false, Bool.or_false]
      exact ⟨rfl, rfl⟩
    · have he := gpio_set_input_not_sio u pin level hsio
      rw [if_pos hp] at he
      rw [he, gpio_store_level_intr]
      exact ⟨rfl, rfl⟩
  · have he : rp2040_gpio_set_input u pin level = u := by
      unfold rp2040_gpio_set_input
      rw [if_pos (Nat.not_lt.mp hp)]
    rw [he]
    exact ⟨hinv, rfl, rfl⟩

/-- Any number of further reports of the settled level leaves both edge bits
of the pin as they are. -/
theorem gpio_report_settled (n : Nat) (u : RP2040GPIOState) (pin : Nat) (level : Int)
    (hinv : (u.status pin >>> 17) &&& 1 = if level ≠ 0 then 1 else 0) :
    ((gpio_report_all u (List.replicate n (pin, level))).intr (pin / 8)).testBit
        ((pin % 8) * 4 + 3) = (u.intr (pin / 8)).testBit ((pin % 8) * 4 + 3) ∧
    ((gpio_report_all u (List.replicate n (pin, level))).intr (pin / 8)).testBit
        ((pin % 8) * 4 + 2) = (u.intr (pin / 8)).testBit ((pin % 8) * 4 + 2) := by
  induction n generalizing u with
  | zero => exact ⟨rfl, rfl⟩
  | succ k ih =>
    have hstep : gpio_report_all u (List.replicate (k + 1) (pin, level))
        = gpio_report_all (rp2040_gpio_set_input u pin level) (List.replicate k (pin, level)) :=
      rfl
    have hs := gpio_set_input_settled u pin level hinv
    have := ih (rp2040_gpio_set_input u pin level) hs.1
    rw [hstep, this.1, this.2]
    exact hs.2

/-- C23: on a software-I/O pin, `rp2040_gpio_set_input` leaves the edge-high
pending bit of the pin (bit 3 of its 4-bit INTR field) set exactly when it was
set before or the previously reported level (bit 17 of the STATUS register)
was low, the new level is high and the edge-high mask bit of CTRL is set; the
edge-low bit (bit 2) exactly when it was set before or the previous level was
high, the new level is low and the edge-low mask bit is set. So one report
never newly sets both edge bits. After the guest writes any value to the INTR
register of the pin, each edge bit is the bit left by the report with the
written bits cleared, and any number of further reports of the same level
leaves both edge bits as that write left them: a cleared edge bit is not set
again. -/
theorem gpio_edge_bits_follow_transitions (s : RP2040GPIOState) (pin : Nat) (level : Int)
    (hp : pin < GPIO_NUM_PINS) (hsio : s.ctrl pin &&& 0x1F = FUNCSEL_SIO) :
    (((rp2040_gpio_set_input s pin level).intr (pin / 8)).testBit ((pin % 8) * 4 + 3) = true ↔
      ((s.intr (pin / 8)).testBit ((pin % 8) * 4 + 3) = true ∨
        (((s.ctrl pin >>> 28) &&& 0xF) &&& INT_EDGE_HIGH ≠ 0 ∧
          (s.status pin).testBit 17 = false ∧ level ≠ 0))) ∧
    (((rp2040_gpio_set_input s pin level).intr (pin / 8)).testBit ((pin % 8) * 4 + 2) = true ↔
      ((s.intr (pin / 8)).testBit ((pin % 8) * 4 + 2) = true ∨
        (((s.ctrl pin >>> 28) &&& 0xF) &&& INT_EDGE_LOW ≠ 0 ∧
          (s.status pin).testBit 17 = true ∧ level = 0))) ∧
    ¬ ((s.intr (pin / 8)).testBit ((pin % 8) * 4 + 3) = false ∧
        (s.intr (pin / 8)).testBit ((pin % 8) * 4 + 2) = false ∧
        ((rp2040_gpio_set_input s pin level).intr (pin / 8)).testBit ((pin % 8) * 4 + 3) = true ∧
        ((rp2040_gpio_set_input s pin level).intr (pin / 8)).testBit ((pin % 8) * 4 + 2) = true) ∧
    (∀ (v n : Nat),
      ((rp2040_gpio_write (rp2040_gpio_set_input s pin level) (INTR0 + 4 * (pin / 8)) v).intr
          (pin / 8)).testBit ((pin % 8) * 4 + 3)
        = (((rp2040_gpio_set_input s pin level).intr (pin / 8)).testBit ((pin % 8) * 4 + 3)
            && !v.testBit ((pin % 8) * 4 + 3)) ∧
      ((rp2040_gpio_write (rp2040_gpio_set_input s pin level) (INTR0 + 4 * (pin / 8)) v).intr
          (pin / 8)).testBit ((pin % 8) * 4 + 2)
        = (((rp2040_gpio_set_input s pin level).intr (pin / 8)).testBit ((pin % 8) * 4 + 2)
            && !v.testBit ((pin % 8) * 4 + 2)) ∧
      ((gpio_report_all
          (rp2040_gpio_write (rp2040_gpio_set_input s pin level) (INTR0 + 4 * (pin / 8)) v)
          (List.replicate n (pin, level))).intr (pin / 8)).testBit ((pin % 8) * 4 + 3)
        = ((rp2040_gpio_write (rp2040_gpio_set_input s pin level) (INTR0 + 4 * (pin / 8)) v).intr
            (pin / 8)).testBit ((pin % 8) * 4 + 3) ∧
      ((gpio_report_all
          (rp2040_gpio_write (rp2040_gpio_set_input s pin level) (INTR0 + 4 * (pin / 8)) v)
          (List.replicate n (pin, level))).intr (pin / 8)).testBit ((pin % 8) * 4 + 2)
        = ((rp2040_gpio_write (rp2040_gpio_set_input s pin level) (INTR0 + 4 * (pin / 8)) v).intr
            (pin / 8)).testBit ((pin % 8) * 4 + 2)) := by
  have hp30 : pin < 30 := hp
  have hr : pin / 8 < 4 := by omega
  have hi := (gpio_set_input_sio s pin level hp hsio).2
  have he := gpio_int_status_edges ((s.ctrl pin >>> 28) &&& 0xF) ((s.status pin >>> 17) &&& 1)
    level
  have hz := level_bit_eq_zero_iff (s.status pin)
  have hnz : (s.status pin >>> 17) &&& 1 ≠ 0 ↔ (s.status pin).testBit 17 = true := by
    rw [Ne, hz, Bool.not_eq_false]
  have h3 : ((rp2040_gpio_set_input s pin level).intr (pin / 8)).testBit ((pin % 8) * 4 + 3)
        = true ↔
      ((s.intr (pin / 8)).testBit ((pin % 8) * 4 + 3) = true ∨
        (((s.ctrl pin >>> 28) &&& 0xF) &&& INT_EDGE_HIGH ≠ 0 ∧
          (s.status pin).testBit 17 = false ∧ level ≠ 0)) := by
    rw [hi, Function.update_same, testBit_or_field, Bool.or_eq_true, he.1, hz]
  have h2 : ((rp2040_gpio_set_input s pin level).intr (pin / 8)).testBit ((pin % 8) * 4 + 2)
        = true ↔
      ((s.intr (pin / 8)).testBit ((pin % 8) * 4 + 2) = true ∨
        (((s.ctrl pin >>> 28) &&& 0xF) &&& INT_EDGE_LOW ≠ 0 ∧
          (s.status pin).testBit 17 = true ∧ level = 0)) := by
    rw [hi, Function.update_same, testBit_or_field, Bool.or_eq_true, he.2, hnz]
  refine ⟨h3, h2, ?_, ?_⟩
  · rintro ⟨a3, a2, b3, b2⟩
    rcases h3.mp b3 with c | ⟨_, _, c⟩
    · rw [a3] at c; exact absurd c (by decide)
    · rcases h2.mp b2 with d | ⟨_, _, d⟩
      · rw [a2] at d; exact absurd d (by decide)
      · exact c d
  · intro v n
    have hst := gpio_set_input_status s pin level hp
    have hag := gpio_store_level_again s (rp2040_gpio_set_input s pin level) pin level
      (by rw [hst])
    have hw := gpio_write_intr_eq (rp2040_gpio_set_input s pin level) (pin / 8) v hr
    have hwi : (rp2040_gpio_write (rp2040_gpio_set_input s pin level) (INTR0 + 4 * (pin / 8))
        v).intr (pin / 8) = (rp2040_gpio_set_input s pin level).intr (pin / 8) &&& not32 v := by
      rw [hw]
      exact Function.update_same _ _ _
    have hws : (rp2040_gpio_write (rp2040_gpio_set_input s pin level) (INTR0 + 4 * (pin / 8))
        v).status = (rp2040_gpio_set_input s pin level).status := by
      rw [hw]; rfl
    have hinv : ((rp2040_gpio_write (rp2040_gpio_set_input s pin level)
        (INTR0 + 4 * (pin / 8)) v).status pin >>> 17) &&& 1 = if level ≠ 0 then 1 else 0 := by
      rw [hws]; exact hag.2
    have hrep := gpio_report_settled n _ pin level hinv
    have hb3 : (pin % 8) * 4 + 3 < 32 := by omega
    have hb2 : (pin % 8) * 4 + 2 < 32 := by omega
    refine ⟨?_, ?_, hrep.1, hrep.2⟩
    · rw [hwi, Nat.testBit_and, testBit_not32, decide_eq_true hb3, Bool.true_and]
    · rw [hwi, Nat.testBit_and, testBit_not32, decide_eq_true hb2, Bool.true_and]

theorem gpio_edge_bits_follow_transitions_witness :
    gpio_mixed_field_state.ctrl 0 &&& 0x1F = FUNCSEL_SIO ∧
    ¬ ((gpio_mixed_field_state.intr (0 / 8)).testBit ((0 % 8) * 4 + 3) = false ∧
        (gpio_mixed_field_state.intr (0 / 8)).testBit ((0 % 8) * 4 + 2) = false ∧
        ((rp2040_gpio_set_input gpio_mixed_field_state 0 1).intr (0 / 8)).testBit
          ((0 % 8) * 4 + 3) = true ∧
        ((rp2040_gpio_set_input gpio_mixed_field_state 0 1).intr (0 / 8)).testBit
          ((0 % 8) * 4 + 2) = true) :=
  have h : gpio_mixed_field_state.ctrl 0 &&& 0x1F = FUNCSEL_SIO := by decide
  ⟨h, (gpio_edge_bits_follow_transitions gpio_mixed_field_state 0 1 (by decide) h).2.2.1⟩

/-! ## GPIO: pending-bit clear and the two lines -/

/-- C25: a write of `v` to INTRr (offset 0xF0 + 4r, r from 0 to 3) is the
line recomputation applied to the state in which INTR[r] is replaced by
INTR[r] AND NOT v: bit j (below 32) of the new INTR[r] is set exactly when it
was set and bit j of `v` is clear; the other three INTR registers, the enable
and force registers of both cores and all per-pin STATUS and CTRL registers
are unchanged; and each line is driven high exactly when some pin has a
set bit among the four bits of its field in the new INTR registers and a set
bit among the four bits of its field in the enable registers of that core. -/
theorem gpio_write_intr_clears (s : RP2040GPIOState) (r v : Nat) (hr : r < 4) :
    rp2040_gpio_write s (INTR0 + 4 * r) v =
      rp2040_gpio_update_irq
        { s with intr := Function.update s.intr r (s.intr r &&& not32 v) } ∧
    (rp2040_gpio_write s (INTR0 + 4 * r) v).intr r = s.intr r &&& not32 v ∧
    (∀ j, j < 32 → ((rp2040_gpio_write s (INTR0 + 4 * r) v).intr r).testBit j
        = ((s.intr r).testBit j && !v.testBit j)) ∧
    (∀ q, q ≠ r → (rp2040_gpio_write s (INTR0 + 4 * r) v).intr q = s.intr q) ∧
    (rp2040_gpio_write s (INTR0 + 4 * r) v).status = s.status ∧
    (rp2040_gpio_write s (INTR0 + 4 * r) v).ctrl = s.ctrl ∧
    (rp2040_gpio_write s (INTR0 + 4 * r) v).proc0_inte = s.proc0_inte ∧
    (rp2040_gpio_write s (INTR0 + 4 * r) v).proc0_intf = s.proc0_intf ∧
    (rp2040_gpio_write s (INTR0 + 4 * r) v).proc1_inte = s.proc1_inte ∧
    (rp2040_gpio_write s (INTR0 + 4 * r) v).proc1_intf = s.proc1_intf ∧
    ((rp2040_gpio_write s (INTR0 + 4 * r) v).proc0_irq = true ↔
      ∃ i, i < GPIO_NUM_PINS ∧
        (rp2040_gpio_write s (INTR0 + 4 * r) v).intr (i / 8) &&& (0xF <<< ((i % 8) * 4)) ≠ 0 ∧
        s.proc0_inte (i / 8) &&& (0xF <<< ((i % 8) * 4)) ≠ 0) ∧
    ((rp2040_gpio_write s (INTR0 + 4 * r) v).proc1_irq = true ↔
      ∃ i, i < GPIO_NUM_PINS ∧
        (rp2040_gpio_write s (INTR0 + 4 * r) v).intr (i / 8) &&& (0xF <<< ((i % 8) * 4)) ≠ 0 ∧
        s.proc1_inte (i / 8) &&& (0xF <<< ((i % 8) * 4)) ≠ 0) := by
  have hw := gpio_write_intr_eq s r v hr
  rw [hw]
  refine ⟨rfl, Function.update_same _ _ _, fun j hj => ?_,
    fun q hq => Function.update_noteq hq _ _, rfl, rfl, rfl, rfl, rfl, rfl, ?_, ?_⟩
  · show (Function.update s.intr r (s.intr r &&& not32 v) r).testBit j = _
    rw [Function.update_same, Nat.testBit_and, testBit_not32, decide_eq_true hj, Bool.true_and]
  · exact gpio_update_irq_proc0 _
  · exact gpio_update_irq_proc1 _

theorem gpio_write_intr_clears_witness :
    (0 : Nat) < 4 ∧
    (rp2040_gpio_write gpio_mixed_field_state (INTR0 + 4 * 0) 1).intr 0
      = gpio_mixed_field_state.intr 0 &&& not32 1 :=
  ⟨by decide, (gpio_write_intr_clears gpio_mixed_field_state 0 1 (by decide)).2.1⟩

/-- The line levels computed by `rp2040_gpio_update_irq` for core 0 depend on
INTR and PROC0_INTE only, those for core 1 on INTR and PROC1_INTE only. -/
theorem gpio_update_irq_independent (s t : RP2040GPIOState) (hi : s.intr = t.intr) :
    (s.proc0_inte = t.proc0_inte →
      (rp2040_gpio_update_irq s).proc0_irq = (rp2040_gpio_update_irq t).proc0_irq) ∧
    (s.proc1_inte = t.proc1_inte →
      (rp2040_gpio_update_irq s).proc1_irq = (rp2040_gpio_update_irq t).proc1_irq) := by
  constructor
  · intro he
    rw [Bool.eq_iff_iff, gpio_update_irq_proc0, gpio_update_irq_proc0, hi, he]
  · intro he
    rw [Bool.eq_iff_iff, gpio_update_irq_proc1, gpio_update_irq_proc1, hi, he]

/-- A write to a PROC1_INTE register is the line recomputation applied to
the state with that register replaced. -/
theorem gpio_write_proc1_inte_eq (s : RP2040GPIOState) (r v : Nat) (hr : r < 4) :
    rp2040_gpio_write s (PROC1_INTE0 + 4 * r) v =
      rp2040_gpio_update_irq
        { s with proc1_inte := Function.update s.proc1_inte r (u32 v) } := by
  have h : r = 0 ∨ r = 1 ∨ r = 2 ∨ r = 3 := by omega
  rcases h with h | h | h | h <;> subst h <;> rfl

/-- A write to a PROC0_INTE register, likewise. -/
theorem gpio_write_proc0_inte_eq (s : RP2040GPIOState) (r v : Nat) (hr : r < 4) :
    rp2040_gpio_write s (PROC0_INTE0 + 4 * r) v =
      rp2040_gpio_update_irq
        { s with proc0_inte := Function.update s.proc0_inte r (u32 v) } := by
  have h : r = 0 ∨ r = 1 ∨ r = 2 ∨ r = 3 := by omega
  rcases h with h | h | h | h <;> subst h <;> rfl

/-- The two lines are derived independently from the same pending bits. For
two states that agree on INTR[0..3] and PROC0_INTE[0..3] the core-0 level computed by `rp2040_gpio_update_irq` is the same whatever
PROC1_INTE, the force registers and the per-pin registers hold, and
symmetrically for core 1 with PROC1_INTE. A write of any value to a
PROC1_INTE register drives the core-0 line to the level determined by INTR
and PROC0_INTE alone, so it leaves the core-0 line unchanged whenever that
line is up to date (equal to the level the device computes from the current
registers), and symmetrically for a write to a PROC0_INTE register and the
core-1 line. One pending event is visible to neither core, to core 0 only, to
core 1 only or to both, according to the two enable masks. -/
theorem gpio_lines_independent (s t : RP2040GPIOState) (r v : Nat) (hr : r < 4)
    (hi : s.intr = t.intr) :
    (s.proc0_inte = t.proc0_inte →
      (rp2040_gpio_update_irq s).proc0_irq = (rp2040_gpio_update_irq t).proc0_irq) ∧
    (s.proc1_inte = t.proc1_inte →
      (rp2040_gpio_update_irq s).proc1_irq = (rp2040_gpio_update_irq t).proc1_irq) ∧
    (rp2040_gpio_write s (PROC1_INTE0 + 4 * r) v).proc0_irq
      = (rp2040_gpio_update_irq s).proc0_irq ∧
    (rp2040_gpio_write s (PROC0_INTE0 + 4 * r) v).proc1_irq
      = (rp2040_gpio_update_irq s).proc1_irq ∧
    (s.proc0_irq = (rp2040_gpio_update_irq s).proc0_irq →
      (rp2040_gpio_write s (PROC1_INTE0 + 4 * r) v).proc0_irq = s.proc0_irq) ∧
    (s.proc1_irq = (rp2040_gpio_update_irq s).proc1_irq →
      (rp2040_gpio_write s (PROC0_INTE0 + 4 * r) v).proc1_irq = s.proc1_irq) ∧
    ((gpio_one_event 0 0).proc0_irq = false ∧ (gpio_one_event 0 0).proc1_irq = false) ∧
    ((gpio_one_event 8 0).proc0_irq = true ∧ (gpio_one_event 8 0).proc1_irq = false) ∧
    ((gpio_one_event 0 8).proc0_irq = false ∧ (gpio_one_event 0 8).proc1_irq = true) ∧
    ((gpio_one_event 8 8).proc0_irq = true ∧ (gpio_one_event 8 8).proc1_irq = true) := by
  have hind := gpio_update_irq_independent s t hi
  have h1 : (rp2040_gpio_write s (PROC1_INTE0 + 4 * r) v).proc0_irq
      = (rp2040_gpio_update_irq s).proc0_irq := by
    rw [gpio_write_proc1_inte_eq s r v hr]
    exact (gpio_update_irq_independent
      { s with proc1_inte := Function.update s.proc1_inte r (u32 v) } s rfl).1 rfl
  have h0 : (rp2040_gpio_write s (PROC0_INTE0 + 4 * r) v).proc1_irq
      = (rp2040_gpio_update_irq s).proc1_irq := by
    rw [gpio_write_proc0_inte_eq s r v hr]
    exact (gpio_update_irq_independent
      { s with proc0_inte := Function.update s.proc0_inte r (u32 v) } s rfl).2 rfl
  refine ⟨hind.1, hind.2, h1, h0, fun h => ?_, fun h => ?_, ?_, ?_, ?_, ?_⟩
  · rw [h1, h]
  · rw [h0, h]
  · decide
  · decide
  · decide
  · decide

/-! ## Reserved and read-only offsets -/

theorem uart_read_reserved (s : RP2040UARTState) (offset : Nat)
    (h : offset ∉ uart_read_offsets) : rp2040_uart_read s offset = (0, s) := by
  revert h
  unfold rp2040_uart_read
  split <;> intro h <;> first | exact absurd (by decide) h | rfl

theorem uart_write_ignored (s : RP2040UARTState) (offset value : Nat)
    (h : offset ∉ uart_write_offsets) : rp2040_uart_write s offset value = s := by
  revert h
  unfold rp2040_uart_write
  split <;> intro h <;> first | exact absurd (by decide) h | rfl

theorem gpio_read_reserved (s : RP2040GPIOState) (offset : Nat) (hb : 0xF0 ≤ offset)
    (h : offset ∉ gpio_read_offsets) : rp2040_gpio_read s offset = (0, s) := by
  revert h
  unfold rp2040_gpio_read
  rw [if_neg (Nat.not_lt.mpr hb)]
  split <;> intro h <;> first | exact absurd (by decide) h | rfl

theorem gpio_write_ignored (s : RP2040GPIOState) (offset value : Nat) (hb : 0xF0 ≤ offset)
    (h : offset ∉ gpio_write_offsets) : rp2040_gpio_write s offset value = s := by
  revert h
  unfold rp2040_gpio_write
  rw [if_neg (Nat.not_lt.mpr hb)]
  split <;> intro h <;> first | exact absurd (by decide) h | rfl

theorem gpio_write_status_ignored (s : RP2040GPIOState) (pin value : Nat)
    (hp : pin < GPIO_NUM_PINS) : rp2040_gpio_write s (GPIO_STATUS pin) value = s := by
  have hp30 : pin < 30 := hp
  have h7 : GPIO_STATUS pin &&& 7 = 0 := by
    show (0x000 + pin * 8) &&& (2 ^ 3 - 1) = 0
    rw [Nat.and_pow_two_sub_one_eq_mod]
    omega
  have hlt : GPIO_STATUS pin < 0xF0 := by
    show 0x000 + pin * 8 < 0xF0
    omega
  have hd : GPIO_STATUS pin / 8 < GPIO_NUM_PINS := by
    show (0x000 + pin * 8) / 8 < 30
    omega
  unfold rp2040_gpio_write
  rw [if_pos hlt]
  dsimp only
  rw [if_pos hd, if_pos h7]

theorem timer_read_reserved (s : RP2040TimerState) (offset now : Nat)
    (h : offset ∉ timer_read_offsets) : rp2040_timer_read s offset now = (0, s) := by
  revert h
  unfold rp2040_timer_read
  split <;> intro h <;> first | exact absurd (by decide) h | rfl

theorem timer_write_ignored (s : RP2040TimerState) (offset value now : Nat)
    (h : offset ∉ timer_write_offsets) : rp2040_timer_write s offset value now = s := by
  revert h
  unfold rp2040_timer_write
  split <;> intro h <;> first | exact absurd (by decide) h | rfl

/-- Outside the per-pin block of the GPIO: for the UART, the GPIO and the
timer, a read at an offset that is not a readable register returns 0 and
leaves the state unchanged, and a write at an offset that is reserved or
read-only leaves the state unchanged. For the GPIO this covers the interrupt
block (offsets from 0xF0 on) and the per-pin STATUS registers. The reserved read offsets include UART 0x08 and 0x44, GPIO
0x160 and timer 0x44; the ignored write offsets include the UART flag register
0x18, raw status 0x3C and masked status 0x40, the eight GPIO PROCn_INTS
registers, and the timer registers TIMEHW, TIMEHR, TIMELR, TIMERAWH, TIMERAWL
and INTS. -/
theorem reserved_and_read_only_access (su : RP2040UARTState) (sg : RP2040GPIOState)
    (st : RP2040TimerState) (offset value now pin : Nat) :
    (offset ∉ uart_read_offsets → rp2040_uart_read su offset = (0, su)) ∧
    (offset ∉ uart_write_offsets → rp2040_uart_write su offset value = su) ∧
    (0xF0 ≤ offset → offset ∉ gpio_read_offsets → rp2040_gpio_read sg offset = (0, sg)) ∧
    (0xF0 ≤ offset → offset ∉ gpio_write_offsets → rp2040_gpio_write sg offset value = sg) ∧
    (pin < GPIO_NUM_PINS → rp2040_gpio_write sg (GPIO_STATUS pin) value = sg) ∧
    (offset ∉ timer_read_offsets → rp2040_timer_read st offset now = (0, st)) ∧
    (offset ∉ timer_write_offsets → rp2040_timer_write st offset value now = st) ∧
    (0x08 ∉ uart_read_offsets ∧ 0x44 ∉ uart_read_offsets) ∧
    (UART_FR ∉ uart_write_offsets ∧ UART_RIS ∉ uart_write_offsets ∧
      UART_MIS ∉ uart_write_offsets) ∧
    0x160 ∉ gpio_read_offsets ∧
    (PROC0_INTS0 ∉ gpio_write_offsets ∧ PROC0_INTS1 ∉ gpio_write_offsets ∧
      PROC0_INTS2 ∉ gpio_write_offsets ∧ PROC0_INTS3 ∉ gpio_write_offsets ∧
      PROC1_INTS0 ∉ gpio_write_offsets ∧ PROC1_INTS1 ∉ gpio_write_offsets ∧
      PROC1_INTS2 ∉ gpio_write_offsets ∧ PROC1_INTS3 ∉ gpio_write_offsets) ∧
    0x44 ∉ timer_read_offsets ∧
    (TIMEHW ∉ timer_write_offsets ∧ TIMEHR ∉ timer_write_offsets ∧
      TIMELR ∉ timer_write_offsets ∧ TIMERAWH ∉ timer_write_offsets ∧
      TIMERAWL ∉ timer_write_offsets ∧ INTS ∉ timer_write_offsets) := by
  refine ⟨uart_read_reserved su offset, uart_write_ignored su offset value,
    gpio_read_reserved sg offset, gpio_write_ignored sg offset value,
    gpio_write_status_ignored sg pin value, timer_read_reserved st offset now,
    timer_write_ignored st offset value now, ?_, ?_, ?_, ?_, ?_, ?_⟩ <;> decide

/-! ## Misaligned offsets -/

/-- Outside the per-pin block of the GPIO a misaligned offset is no register
of any of the three devices: the read returns 0 and the write is ignored. -/
theorem misaligned_access_outside_pin_block (su : RP2040UARTState) (sg : RP2040GPIOState)
    (st : RP2040TimerState) (offset value now : Nat) (hm : offset % 4 ≠ 0) :
    rp2040_uart_read su offset = (0, su) ∧
    rp2040_uart_write su offset value = su ∧
    (0xF0 ≤ offset → rp2040_gpio_read sg offset = (0, sg)) ∧
    (0xF0 ≤ offset → rp2040_gpio_write sg offset value = sg) ∧
    rp2040_timer_read st offset now = (0, st) ∧
    rp2040_timer_write st offset value now = st := by
  have a1 : ∀ x ∈ uart_read_offsets, x % 4 = 0 := by decide
  have a2 : ∀ x ∈ uart_write_offsets, x % 4 = 0 := by decide
  have a3 : ∀ x ∈ gpio_read_offsets, x % 4 = 0 := by decide
  have a4 : ∀ x ∈ gpio_write_offsets, x % 4 = 0 := by decide
  have a5 : ∀ x ∈ timer_read_offsets, x % 4 = 0 := by decide
  have a6 : ∀ x ∈ timer_write_offsets, x % 4 = 0 := by decide
  exact ⟨uart_read_reserved su offset (fun h => hm (a1 _ h)),
    uart_write_ignored su offset value (fun h => hm (a2 _ h)),
    fun hb => gpio_read_reserved sg offset hb (fun h => hm (a3 _ h)),
    fun hb => gpio_write_ignored sg offset value hb (fun h => hm (a4 _ h)),
    timer_read_reserved st offset now (fun h => hm (a5 _ h)),
    timer_write_ignored st offset value now (fun h => hm (a6 _ h))⟩



/-- C30: the device does not reject a misaligned access inside the per-pin
block of the GPIO. Right after reset a read at offset 0x01 returns 31, the
CTRL register of pin 0, and not 0; a write of 5 at offset 0x02 stores 5 in
the CTRL register of pin 0 and changes its STATUS register from 31 to 5, so
the state is changed. -/
theorem gpio_misaligned_access_decoded_as_ctrl :
    (rp2040_gpio_read (rp2040_gpio_reset gpio_zero) 0x01).1 = 31 ∧
    (rp2040_gpio_reset gpio_zero).ctrl 0 = 31 ∧
    (rp2040_gpio_reset gpio_zero).status 0 = 31 ∧
    (rp2040_gpio_write (rp2040_gpio_reset gpio_zero) 0x02 5).ctrl 0 = 5 ∧
    (rp2040_gpio_write (rp2040_gpio_reset gpio_zero) 0x02 5).status 0 = 5 := by
  decide

/-! ## SoC memory map -/

/-- In a list of pairwise disjoint mappings at most one holds a given
address. -/
theorem disjoint_filter_length (addr : Nat) (l : List RP2040Mapping)
    (h : l.Pairwise mappings_disjoint) :
    (l.filter (fun m => mapping_contains m addr)).length ≤ 1 := by
  induction l with
  | nil => exact Nat.zero_le 1
  | cons m rest ih =>
    rw [List.pairwise_cons] at h
    by_cases hm : mapping_contains m addr = true
    · have hrest : rest.filter (fun m => mapping_contains m addr) = [] := by
        rw [List.filter_eq_nil_iff]
        intro b hb hc
        have hd := h.1 b hb
        unfold mapping_contains at hm hc
        rw [decide_eq_true_iff] at hm hc
        unfold mappings_disjoint at hd
        omega
      have hc : (m :: rest).filter (fun m => mapping_contains m addr)
          = m :: rest.filter (fun m => mapping_contains m addr) := by
        simp only [List.filter_cons, hm, if_true]
      rw [hc, hrest]
      exact Nat.le_refl 1
    · have hc : (m :: rest).filter (fun m => mapping_contains m addr)
          = rest.filter (fun m => mapping_contains m addr) := by
        simp only [List.filter_cons, hm, Bool.false_eq_true, if_false]
      rw [hc]
      exact ih h.2

/-- C31: the mappings made at SoC composition are pairwise non-overlapping:
boot ROM at 0 (16 KiB), execute-in-place at 0x10000000 (16 MiB), SRAM at
0x20000000 (264 KiB), and the windows of UART0 at 0x40034000, UART1 at
0x40038000, GPIO at 0x40014000, the timer at 0x40054000 and of the eight
unimplemented-device stubs, each of 0x1000 bytes. Hence every physical address
has at most one decoding, and a decoding is a mapped region whose range holds
the address together with the offset address minus base. -/
theorem soc_regions_disjoint :
    rp2040_memory_map.Pairwise mappings_disjoint ∧
    (⟨.rom, 0x00000000, 16 * 1024⟩ : RP2040Mapping) ∈ rp2040_memory_map ∧
    (⟨.xip, 0x10000000, 16 * 1024 * 1024⟩ : RP2040Mapping) ∈ rp2040_memory_map ∧
    (⟨.sram, 0x20000000, 264 * 1024⟩ : RP2040Mapping) ∈ rp2040_memory_map ∧
    (⟨.uart0, 0x40034000, 0x1000⟩ : RP2040Mapping) ∈ rp2040_memory_map ∧
    (⟨.uart1, 0x40038000, 0x1000⟩ : RP2040Mapping) ∈ rp2040_memory_map ∧
    (⟨.gpio, 0x40014000, 0x1000⟩ : RP2040Mapping) ∈ rp2040_memory_map ∧
    (⟨.timer, 0x40054000, 0x1000⟩ : RP2040Mapping) ∈ rp2040_memory_map ∧
    (∀ m ∈ rp2040_memory_map, m.region ≠ .rom → m.region ≠ .xip → m.region ≠ .sram →
      m.size = 0x1000) ∧
    (∀ addr, (rp2040_decode addr).length ≤ 1) ∧
    (∀ addr x y, x ∈ rp2040_decode addr → y ∈ rp2040_decode addr → x = y) ∧
    (∀ addr r off, (r, off) ∈ rp2040_decode addr →
      ∃ m ∈ rp2040_memory_map, m.region = r ∧ m.base ≤ addr ∧ addr < m.base + m.size ∧
        off = addr - m.base) ∧
    rp2040_decode 0x40034018 = [(.uart0, 0x18)] := by
  have hpw : rp2040_memory_map.Pairwise mappings_disjoint := by decide
  have hlen : ∀ addr, (rp2040_decode addr).length ≤ 1 := by
    intro addr
    unfold rp2040_decode
    rw [List.length_map]
    exact disjoint_filter_length addr _ hpw
  refine ⟨hpw, by decide, by decide, by decide, by decide, by decide, by decide, by decide,
    by decide, hlen, ?_, ?_, by decide⟩
  · intro addr x y hx hy
    have h := hlen addr
    match hl : rp2040_decode addr with
    | [] => rw [hl] at hx; exact absurd hx (List.not_mem_nil x)
    | [a] =>
      rw [hl] at hx hy
      rw [List.mem_singleton.mp hx, List.mem_singleton.mp hy]
    | a :: b :: rest =>
      rw [hl] at h
      exact absurd h (by simp)
  · intro addr r off hmem
    unfold rp2040_decode at hmem
    rw [List.mem_map] at hmem
    obtain ⟨m, hm, heq⟩ := hmem
    rw [List.mem_filter] at hm
    have hc := hm.2
    unfold mapping_contains at hc
    rw [decide_eq_true_iff] at hc
    have h1 : m.region = r := congrArg Prod.fst heq
    have h2 : addr - m.base = off := congrArg Prod.snd heq
    exact ⟨m, hm.1, h1, hc.1, hc.2, h2.symm⟩

/-! ## UART: transmit flags -/

/-- C32: in every UART state reachable from reset, the flag register read
at offset 0x18 has transmit-empty (bit 7) set and transmit-full (bit 5) clear,
the read leaves the state unchanged, and the same holds after any value is
written to the data register: a loop that polls transmit-empty before each
write finds it set at its first read. -/
theorem uart_transmit_always_ready (s : RP2040UARTState) (h : UartReachable s) :
    (rp2040_uart_read s UART_FR).1 &&& FR_TXFE ≠ 0 ∧
    (rp2040_uart_read s UART_FR).1 &&& FR_TXFF = 0 ∧
    ((rp2040_uart_read s UART_FR).1).testBit 7 = true ∧
    ((rp2040_uart_read s UART_FR).1).testBit 5 = false ∧
    (rp2040_uart_read s UART_FR).2 = s ∧
    (∀ v, (rp2040_uart_read (rp2040_uart_write s UART_DR v) UART_FR).1 &&& FR_TXFE ≠ 0 ∧
      (rp2040_uart_read (rp2040_uart_write s UART_DR v) UART_FR).1 &&& FR_TXFF = 0) := by
  have key : ∀ t : RP2040UARTState, UartInv t →
      (rp2040_uart_read t UART_FR).1 &&& FR_TXFE ≠ 0 ∧
      (rp2040_uart_read t UART_FR).1 &&& FR_TXFF = 0 ∧
      ((rp2040_uart_read t UART_FR).1).testBit 7 = true ∧
      ((rp2040_uart_read t UART_FR).1).testBit 5 = false := by
    intro t hinv
    have hfr : (rp2040_uart_read t UART_FR).1 = uart_flags t.rx_fifo_len 0 := by
      show t.fr = _
      rw [hinv.fr_eq, hinv.tx_zero]
    rw [hfr]
    unfold uart_flags
    by_cases h0 : t.rx_fifo_len = 0
    · rw [h0]; decide
    · by_cases h32 : t.rx_fifo_len = 32
      · rw [h32]; decide
      · have h32b : ¬ t.rx_fifo_len = FIFO_SIZE := h32
        simp only [h0, h32, h32b, if_false, if_true]
        decide
  have hinv := uartInv_of_reachable s h
  obtain ⟨a, b, c, d⟩ := key s hinv
  refine ⟨a, b, c, d, rfl, fun v => ?_⟩
  obtain ⟨a2, b2, _, _⟩ := key _ (uartInv_write s UART_DR v hinv)
  exact ⟨a2, b2⟩

theorem uart_transmit_always_ready_witness :
    (rp2040_uart_read (rp2040_uart_write (rp2040_uart_write (rp2040_uart_reset uart_zero)
      UART_CR 0x301) UART_DR 0x41) UART_FR).1 &&& FR_TXFE ≠ 0 :=
  (uart_transmit_always_ready _
    (UartReachable.write _ _ _ (UartReachable.write _ _ _ (UartReachable.reset uart_zero)))).1

/-! ## UART: the receive interrupt bit and the FIFO -/

/-- The receive loop keeps a set receive bit set and never shortens the
FIFO. -/
theorem uart_rx_loop_mono (buf : List Nat) (s : RP2040UARTState) :
    (s.ris.testBit 4 = true → (uart_rx_loop s buf).ris.testBit 4 = true) ∧
    s.rx_fifo_len ≤ (uart_rx_loop s buf).rx_fifo_len := by
  induction buf generalizing s with
  | nil => exact ⟨fun h => h, Nat.le_refl _⟩
  | cons b rest ih =>
    unfold uart_rx_loop
    split
    · have h := ih { s with rx_fifo := Function.update s.rx_fifo s.rx_fifo_wr (b % 256),
                            rx_fifo_wr := u32 (s.rx_fifo_wr + 1) % FIFO_SIZE,
                            rx_fifo_len := s.rx_fifo_len + 1,
                            ris := s.ris ||| INT_RX }
      refine ⟨fun _ => h.1 ?_, Nat.le_trans (Nat.le_succ _) h.2⟩
      show (s.ris ||| 1 <<< 4).testBit 4 = true
      rw [Nat.testBit_or, testBit_one_shiftLeft]
      simp
    · refine ⟨fun h => ?_, Nat.le_refl _⟩
      show (s.ris ||| 1 <<< 10).testBit 4 = true
      rw [testBit_or_bit_other _ _ _ (by decide)]
      exact h

/-- The receive loop with at least one byte and room for one byte. -/
theorem uart_rx_loop_room (b : Nat) (rest : List Nat) (s : RP2040UARTState)
    (hl : s.rx_fifo_len < 32) :
    (uart_rx_loop s (b :: rest)).ris.testBit 4 = true ∧
    0 < (uart_rx_loop s (b :: rest)).rx_fifo_len := by
  have hl2 : s.rx_fifo_len < FIFO_SIZE := hl
  unfold uart_rx_loop
  rw [if_pos hl2]
  have h := uart_rx_loop_mono rest
    { s with rx_fifo := Function.update s.rx_fifo s.rx_fifo_wr (b % 256),
             rx_fifo_wr := u32 (s.rx_fifo_wr + 1) % FIFO_SIZE,
             rx_fifo_len := s.rx_fifo_len + 1,
             ris := s.ris ||| INT_RX }
  refine ⟨h.1 ?_, Nat.lt_of_lt_of_le (Nat.succ_pos _) h.2⟩
  show (s.ris ||| 1 <<< 4).testBit 4 = true
  rw [Nat.testBit_or, testBit_one_shiftLeft]
  simp

/-- An enabled receive event is the loop followed by the update, which
leaves RIS and the FIFO alone. -/
theorem uart_rx_enabled (s : RP2040UARTState) (buf : List Nat)
    (hen : s.cr &&& CR_UARTEN ≠ 0) (hrx : s.cr &&& CR_RXE ≠ 0) :
    rp2040_uart_rx s buf = rp2040_uart_update (uart_rx_loop s buf) := by
  unfold rp2040_uart_rx
  rw [if_neg (fun h => h.elim hen hrx)]

/-- C33, as stated: after a receive event that delivers a byte while UARTEN
and RXE are set, a non-empty FIFO has the receive bit of RIS set. It fails
when the FIFO is full and the guest has cleared the bit: the event finds no
room, sets only the overrun bit, and leaves the FIFO with 32 bytes and bit 4
of RIS clear. -/
theorem uart_rx_on_full_fifo_leaves_rx_bit_clear :
    uart_full_rx_cleared.cr &&& CR_UARTEN ≠ 0 ∧
    uart_full_rx_cleared.cr &&& CR_RXE ≠ 0 ∧
    (rp2040_uart_rx uart_full_rx_cleared [9]).rx_fifo_len = 32 ∧
    (rp2040_uart_rx uart_full_rx_cleared [9]).ris &&& INT_RX = 0 := by
  decide

/-- C33, amended: after a receive event that delivers at least one byte
while UARTEN and RXE are set and the FIFO has room (fewer than 32 bytes), the
FIFO is non-empty and the receive bit (bit 4) of RIS is set. When the FIFO has
no room the event stores nothing and leaves bit 4 of RIS and the length as
they were. -/
theorem uart_rx_sets_receive_bit (s : RP2040UARTState) (b : Nat) (rest : List Nat)
    (hen : s.cr &&& CR_UARTEN ≠ 0) (hrx : s.cr &&& CR_RXE ≠ 0) :
    (s.rx_fifo_len < 32 →
      (rp2040_uart_rx s (b :: rest)).ris.testBit 4 = true ∧
      0 < (rp2040_uart_rx s (b :: rest)).rx_fifo_len) ∧
    (¬ s.rx_fifo_len < 32 →
      (rp2040_uart_rx s (b :: rest)).ris.testBit 4 = s.ris.testBit 4 ∧
      (rp2040_uart_rx s (b :: rest)).rx_fifo_len = s.rx_fifo_len ∧
      (rp2040_uart_rx s (b :: rest)).rx_fifo = s.rx_fifo) := by
  rw [uart_rx_enabled s (b :: rest) hen hrx]
  constructor
  · intro hl
    exact uart_rx_loop_room b rest s hl
  · intro hl
    have hl2 : ¬ s.rx_fifo_len < FIFO_SIZE := hl
    have hloop : uart_rx_loop s (b :: rest) = { s with ris := s.ris ||| INT_OE } := by
      unfold uart_rx_loop
      rw [if_neg hl2]
    rw [hloop]
    refine ⟨?_, rfl, rfl⟩
    show (s.ris ||| 1 <<< 10).testBit 4 = s.ris.testBit 4
    exact testBit_or_bit_other _ _ _ (by decide)

theorem uart_rx_sets_receive_bit_witness :
    (rp2040_uart_write (rp2040_uart_reset uart_zero) UART_CR 0x301).cr &&& CR_UARTEN ≠ 0 ∧
    (rp2040_uart_write (rp2040_uart_reset uart_zero) UART_CR 0x301).cr &&& CR_RXE ≠ 0 ∧
    (rp2040_uart_rx (rp2040_uart_write (rp2040_uart_reset uart_zero) UART_CR 0x301)
      (0x41 :: [0x42])).ris.testBit 4 = true :=
  ⟨by decide, by decide,
    ((uart_rx_sets_receive_bit (rp2040_uart_write (rp2040_uart_reset uart_zero) UART_CR 0x301)
      0x41 [0x42] (by decide) (by decide)).1 (by decide)).1⟩

/-! ## UART: capacity, ring cursors and the pending bit -/

/-- While the bytes fit, the receive loop leaves the overrun bit alone. -/
theorem uart_rx_loop_no_overrun (buf : List Nat) (s : RP2040UARTState)
    (hl : s.rx_fifo_len + buf.length ≤ 32) :
    (uart_rx_loop s buf).ris.testBit 10 = s.ris.testBit 10 := by
  induction buf generalizing s with
  | nil => rfl
  | cons b rest ih =>
    have hlen : (b :: rest).length = rest.length + 1 := rfl
    rw [hlen] at hl
    have hl2 : s.rx_fifo_len < FIFO_SIZE := by
      show s.rx_fifo_len < 32
      omega
    unfold uart_rx_loop
    rw [if_pos hl2]
    rw [ih _ (by show s.rx_fifo_len + 1 + rest.length ≤ 32; omega)]
    show (s.ris ||| 1 <<< 4).testBit 10 = s.ris.testBit 10
    exact testBit_or_bit_other _ _ _ (by decide)

/-- C34: the capacity reported to the serial transport is 32 - rx_fifo_len
when UARTEN and RXE are both set and 0 otherwise. In a state reachable from
reset, a receive event that delivers at most that many bytes appends every
byte, in order, to the FIFO contents, adds their number to the length and
leaves the overrun bit (bit 10 of RIS) as it was. -/
theorem uart_can_rx_capacity (s : RP2040UARTState) (h : UartReachable s) (buf : List Nat)
    (hfit : buf.length ≤ rp2040_uart_can_rx s) :
    ((s.cr &&& CR_UARTEN ≠ 0 ∧ s.cr &&& CR_RXE ≠ 0) →
      rp2040_uart_can_rx s = 32 - s.rx_fifo_len) ∧
    (¬ (s.cr &&& CR_UARTEN ≠ 0 ∧ s.cr &&& CR_RXE ≠ 0) → rp2040_uart_can_rx s = 0) ∧
    rp2040_uart_can_rx s + s.rx_fifo_len ≤ 32 ∧
    uart_fifo_contents (rp2040_uart_rx s buf)
      = uart_fifo_contents s ++ buf.map (fun b => b % 256) ∧
    (rp2040_uart_rx s buf).rx_fifo_len = s.rx_fifo_len + buf.length ∧
    (rp2040_uart_rx s buf).ris.testBit 10 = s.ris.testBit 10 := by
  have hinv := uartInv_of_reachable s h
  have hle := hinv.len_le
  by_cases hen : s.cr &&& CR_UARTEN ≠ 0 ∧ s.cr &&& CR_RXE ≠ 0
  · have hcap : rp2040_uart_can_rx s = 32 - s.rx_fifo_len := by
      unfold rp2040_uart_can_rx
      rw [if_neg (fun hd => hd.elim hen.1 hen.2)]
      rfl
    rw [hcap] at hfit
    have hl : s.rx_fifo_len + buf.length ≤ 32 := by omega
    obtain ⟨c1, c2, _⟩ := uart_rx_contents s buf hinv hen.1 hen.2 hl
    refine ⟨fun _ => hcap, fun hn => absurd hen hn, by rw [hcap]; omega, c1, c2, ?_⟩
    rw [uart_rx_enabled s buf hen.1 hen.2]
    exact uart_rx_loop_no_overrun buf s hl
  · have hdis : s.cr &&& CR_UARTEN = 0 ∨ s.cr &&& CR_RXE = 0 := by
      by_cases h1 : s.cr &&& CR_UARTEN = 0
      · exact Or.inl h1
      · by_cases h2 : s.cr &&& CR_RXE = 0
        · exact Or.inr h2
        · exact absurd ⟨h1, h2⟩ hen
    have hcap : rp2040_uart_can_rx s = 0 := by
      unfold rp2040_uart_can_rx
      rw [if_pos hdis]
    rw [hcap] at hfit
    have hnil : buf = [] := List.length_eq_zero.mp (Nat.le_zero.mp hfit)
    have hrx : rp2040_uart_rx s buf = s := by
      unfold rp2040_uart_rx
      rw [if_pos hdis]
    rw [hrx, hnil]
    refine ⟨fun hp => absurd hp hen, fun _ => hcap, by rw [hcap]; omega, ?_, rfl, rfl⟩
    simp

theorem uart_can_rx_capacity_witness :
    ([0x41, 0x42] : List Nat).length
      ≤ rp2040_uart_can_rx (rp2040_uart_write (rp2040_uart_reset uart_zero) UART_CR 0x301) ∧
    (rp2040_uart_rx (rp2040_uart_write (rp2040_uart_reset uart_zero) UART_CR 0x301)
      [0x41, 0x42]).rx_fifo_len
      = (rp2040_uart_write (rp2040_uart_reset uart_zero) UART_CR 0x301).rx_fifo_len
        + ([0x41, 0x42] : List Nat).length :=
  ⟨by decide,
    (uart_can_rx_capacity _ (UartReachable.write _ _ _ (UartReachable.reset uart_zero))
      [0x41, 0x42] (by decide)).2.2.2.2.1⟩

/-- The receive loop never writes a live slot of the ring. -/
theorem uart_rx_loop_keeps_live (buf : List Nat) (s : RP2040UARTState)
    (hl : s.rx_fifo_len ≤ 32) (hr : s.rx_fifo_rd < 32)
    (hw : s.rx_fifo_wr = (s.rx_fifo_rd + s.rx_fifo_len) % 32) :
    ∀ i, i < s.rx_fifo_len →
      (uart_rx_loop s buf).rx_fifo ((s.rx_fifo_rd + i) % 32)
        = s.rx_fifo ((s.rx_fifo_rd + i) % 32) := by
  induction buf generalizing s with
  | nil => intro i _; rfl
  | cons b rest ih =>
    intro i hi
    unfold uart_rx_loop
    split
    · rename_i hlt
      have hlt2 : s.rx_fifo_len < 32 := hlt
      have h := ih { s with rx_fifo := Function.update s.rx_fifo s.rx_fifo_wr (b % 256),
                            rx_fifo_wr := u32 (s.rx_fifo_wr + 1) % FIFO_SIZE,
                            rx_fifo_len := s.rx_fifo_len + 1,
                            ris := s.ris ||| INT_RX }
        (by show s.rx_fifo_len + 1 ≤ 32; omega) hr
        (by
          show u32 (s.rx_fifo_wr + 1) % FIFO_SIZE = (s.rx_fifo_rd + (s.rx_fifo_len + 1)) % 32
          simp only [u32, FIFO_SIZE]; omega)
        i (by show i < s.rx_fifo_len + 1; omega)
      rw [h]
      show Function.update s.rx_fifo s.rx_fifo_wr (b % 256) ((s.rx_fifo_rd + i) % 32) = _
      have hne : (s.rx_fifo_rd + i) % 32 ≠ s.rx_fifo_wr := by
        rw [hw]; omega
      exact Function.update_noteq hne _ _
    · rfl

/-- C37: in every UART state reachable from reset the read and write
cursors are below 32 and the write cursor is (read cursor + length) mod 32.
The live bytes are the `rx_fifo_len` slots starting at the read cursor, which
are pairwise distinct slots; while the FIFO is not full the write cursor is
none of them, and a receive event, whatever it delivers, leaves every live
slot as it was. -/
theorem uart_ring_cursors (s : RP2040UARTState) (h : UartReachable s) :
    s.rx_fifo_rd < 32 ∧ s.rx_fifo_wr < 32 ∧
    s.rx_fifo_wr = (s.rx_fifo_rd + s.rx_fifo_len) % 32 ∧
    uart_fifo_contents s
      = (List.range s.rx_fifo_len).map (fun i => s.rx_fifo ((s.rx_fifo_rd + i) % 32)) ∧
    (∀ i j, i < j → j < s.rx_fifo_len → (s.rx_fifo_rd + i) % 32 ≠ (s.rx_fifo_rd + j) % 32) ∧
    (s.rx_fifo_len < 32 → ∀ i, i < s.rx_fifo_len → (s.rx_fifo_rd + i) % 32 ≠ s.rx_fifo_wr) ∧
    (∀ buf i, i < s.rx_fifo_len →
      (rp2040_uart_rx s buf).rx_fifo ((s.rx_fifo_rd + i) % 32)
        = s.rx_fifo ((s.rx_fifo_rd + i) % 32)) := by
  have hinv := uartInv_of_reachable s h
  have hl := hinv.len_le
  have hr := hinv.rd_lt
  have hw := hinv.wr_eq
  refine ⟨hr, by rw [hw]; exact Nat.mod_lt _ (by decide), hw, rfl, ?_, ?_, ?_⟩
  · intro i j hij hj
    omega
  · intro hlt i hi
    rw [hw]; omega
  · intro buf i hi
    unfold rp2040_uart_rx
    split
    · rfl
    · exact uart_rx_loop_keeps_live buf s hl hr hw i hi

theorem uart_ring_cursors_witness :
    uart_full_state.rx_fifo_rd < 32 ∧ uart_full_state.rx_fifo_wr < 32 ∧
    uart_full_state.rx_fifo_wr
      = (uart_full_state.rx_fifo_rd + uart_full_state.rx_fifo_len) % 32 :=
  have h := uart_ring_cursors uart_full_state
    (UartReachable.rx _ _ (UartReachable.write _ _ _ (UartReachable.reset uart_zero)))
  ⟨h.1, h.2.1, h.2.2.1⟩

/-- The receive bit of RIS implies a non-empty FIFO: the property is kept by
the receive loop. -/
theorem uart_rx_loop_pending (buf : List Nat) (s : RP2040UARTState)
    (hp : s.ris.testBit 4 = true → 0 < s.rx_fifo_len) :
    (uart_rx_loop s buf).ris.testBit 4 = true → 0 < (uart_rx_loop s buf).rx_fifo_len := by
  induction buf generalizing s with
  | nil => exact hp
  | cons b rest ih =>
    unfold uart_rx_loop
    split
    · apply ih
      intro _
      exact Nat.succ_pos _
    · intro h4
      apply hp
      have : (s.ris ||| 1 <<< 10).testBit 4 = s.ris.testBit 4 :=
        testBit_or_bit_other _ _ _ (by decide)
      rw [← this]
      exact h4

theorem uart_pending_read (s : RP2040UARTState) (offset : Nat)
    (hp : s.ris.testBit 4 = true → 0 < s.rx_fifo_len) :
    (rp2040_uart_read s offset).2.ris.testBit 4 = true →
      0 < (rp2040_uart_read s offset).2.rx_fifo_len := by
  unfold rp2040_uart_read
  split
  all_goals try exact hp
  split
  · by_cases h1 : s.rx_fifo_len - 1 = 0
    · intro h4
      have hc : (s.ris &&& not32 (1 <<< 4)).testBit 4 = false := testBit_clear_bit_self _ _
      have h4b : (s.ris &&& not32 (1 <<< 4)).testBit 4 = true := by
        simpa only [h1, if_true] using h4
      rw [hc] at h4b
      exact absurd h4b (by decide)
    · intro _
      have : (rp2040_uart_update
          (if s.rx_fifo_len - 1 = 0 then
            { s with rx_fifo_rd := u32 (s.rx_fifo_rd + 1) % FIFO_SIZE,
                     rx_fifo_len := s.rx_fifo_len - 1,
                     ris := s.ris &&& not32 INT_RX }
          else
            { s with rx_fifo_rd := u32 (s.rx_fifo_rd + 1) % FIFO_SIZE,
                     rx_fifo_len := s.rx_fifo_len - 1 })).rx_fifo_len = s.rx_fifo_len - 1 := by
        rw [if_neg h1]; rfl
      show 0 < (rp2040_uart_update _).rx_fifo_len
      rw [this]
      omega
  · exact hp

theorem uart_pending_write (s : RP2040UARTState) (offset value : Nat)
    (hp : s.ris.testBit 4 = true → 0 < s.rx_fifo_len) :
    (rp2040_uart_write s offset value).ris.testBit 4 = true →
      0 < (rp2040_uart_write s offset value).rx_fifo_len := by
  unfold rp2040_uart_write
  split
  · split
    · split
      · intro h4
        apply hp
        have : (s.ris ||| 1 <<< 5).testBit 4 = s.ris.testBit 4 :=
          testBit_or_bit_other _ _ _ (by decide)
        rw [← this]
        exact h4
      · exact hp
    · exact hp
  all_goals try exact hp
  · intro h4
    apply hp
    have h4b : (s.ris &&& not32 value).testBit 4 = true := h4
    rw [Nat.testBit_and, Bool.and_eq_true] at h4b
    exact h4b.1

theorem uart_pending_of_reachable (s : RP2040UARTState) (h : UartReachable s) :
    s.ris.testBit 4 = true → 0 < s.rx_fifo_len := by
  induction h with
  | reset s0 =>
    intro h4
    have : (0 : Nat).testBit 4 = true := h4
    exact absurd this (by decide)
  | read s offset _ ih => exact uart_pending_read s offset ih
  | write s offset value _ ih => exact uart_pending_write s offset value ih
  | rx s buf _ ih =>
    unfold rp2040_uart_rx
    split
    · exact ih
    · exact uart_rx_loop_pending buf s ih

/-- C38: in every UART state reachable from reset, if the receive bit (bit 4)
of the raw interrupt status is set then the receive FIFO is non-empty. -/
theorem uart_rx_pending_implies_nonempty (s : RP2040UARTState) (h : UartReachable s) :
    ((rp2040_uart_read s UART_RIS).1 &&& INT_RX ≠ 0 → 0 < s.rx_fifo_len) ∧
    (s.ris.testBit 4 = true → s.rx_fifo_len ≠ 0) := by
  have hp := uart_pending_of_reachable s h
  constructor
  · intro h4
    apply hp
    have h4b : s.ris &&& (1 <<< 4) ≠ 0 := h4
    exact (and_bit_ne_zero_iff _ _).mp h4b
  · intro h4
    exact Nat.pos_iff_ne_zero.mp (hp h4)

theorem uart_rx_pending_implies_nonempty_witness :
    uart_full_state.ris.testBit 4 = true ∧ uart_full_state.rx_fifo_len ≠ 0 :=
  ⟨by decide,
    (uart_rx_pending_implies_nonempty uart_full_state
      (UartReachable.rx _ _ (UartReachable.write _ _ _ (UartReachable.reset uart_zero)))).2
      (by decide)⟩

/-! ## Timer: register ranges -/

theorem one_shiftLeft_lt_16 (k : Nat) (hk : k < 4) : 1 <<< k < 2 ^ 4 := by
  have h : k = 0 ∨ k = 1 ∨ k = 2 ∨ k = 3 := by omega
  rcases h with h | h | h | h <;> subst h <;> decide

theorem or_bit_lt_16 (x k : Nat) (hx : x < 16) (hk : k < 4) : x ||| (1 <<< k) < 16 :=
  Nat.or_lt_two_pow (n := 4) hx (one_shiftLeft_lt_16 k hk)

theorem and_lt_16 (x y : Nat) (hx : x < 16) : x &&& y < 16 :=
  Nat.lt_of_le_of_lt Nat.and_le_left hx

theorem testBit_high_of_lt_16 (x j : Nat) (hx : x < 16) (hj : 4 ≤ j) : x.testBit j = false := by
  apply Nat.testBit_eq_false_of_lt
  have h16 : (16 : Nat) = 2 ^ 4 := by decide
  have hpow : 2 ^ 4 ≤ 2 ^ j := Nat.pow_le_pow_right (by decide) hj
  omega

theorem timer_update_alarm_in_range (s : RP2040TimerState) (i now : Nat) (hi : i < 4)
    (h : timer_regs_in_range s) : timer_regs_in_range (rp2040_timer_update_alarm s i now) := by
  obtain ⟨h1, h2, h3, h4, h5, h6⟩ := h
  unfold rp2040_timer_update_alarm
  dsimp only
  split_ifs
  · exact ⟨h1, h2, h3, h4, h5, h6⟩
  · exact ⟨and_lt_16 _ _ h1, or_bit_lt_16 _ _ h2 hi, h3, h4, h5, h6⟩
  · exact ⟨h1, h2, h3, h4, h5, h6⟩

theorem timer_fold_in_range (f : RP2040TimerState → Nat → RP2040TimerState) (l : List Nat)
    (hf : ∀ t i, i ∈ l → timer_regs_in_range t → timer_regs_in_range (f t i))
    (s : RP2040TimerState) (hs : timer_regs_in_range s) :
    timer_regs_in_range (l.foldl f s) := by
  induction l generalizing s with
  | nil => exact hs
  | cons a rest ih =>
    rw [List.foldl_cons]
    apply ih
    · intro t i hi ht
      exact hf t i (List.mem_cons_of_mem _ hi) ht
    · exact hf s a (List.mem_cons_self _ _) hs

theorem mem_alarm_indices (i : Nat) (h : i ∈ [0, 1, 2, 3]) : i < 4 := by
  simp only [List.mem_cons, List.mem_singleton, List.not_mem_nil, or_false] at h
  omega

theorem timer_write_alarm_in_range (s : RP2040TimerState) (k value now : Nat) (hk : k < 4)
    (h : timer_regs_in_range s) : timer_regs_in_range (timer_write_alarm s k value now) := by
  obtain ⟨h1, h2, h3, h4, h5, h6⟩ := h
  unfold timer_write_alarm
  dsimp only
  apply timer_update_alarm_in_range _ _ _ hk
  exact ⟨or_bit_lt_16 _ _ h1 hk, h2, h3, h4, h5, h6⟩

theorem timer_write_in_range (s : RP2040TimerState) (offset value now : Nat)
    (h : timer_regs_in_range s) : timer_regs_in_range (rp2040_timer_write s offset value now) := by
  have h' := h
  obtain ⟨h1, h2, h3, h4, h5, h6⟩ := h
  unfold rp2040_timer_write
  split
  · dsimp only
    apply timer_fold_in_range
    · intro t i hi ht
      exact timer_update_alarm_in_range t i now (mem_alarm_indices i hi) ht
    · exact ⟨h1, h2, h3, h4, h5, h6⟩
  · exact timer_write_alarm_in_range s 0 value now (by decide) h'
  · exact timer_write_alarm_in_range s 1 value now (by decide) h'
  · exact timer_write_alarm_in_range s 2 value now (by decide) h'
  · exact timer_write_alarm_in_range s 3 value now (by decide) h'
  · dsimp only
    apply timer_fold_in_range
    · intro t i _ ht
      split
      · exact ht
      · exact ht
    · exact ⟨and_lt_16 _ _ h1, h2, h3, h4, h5, h6⟩
  · refine ⟨h1, h2, h3, h4, h5, ?_⟩
    show u32 (value &&& 0x3) ≤ 3
    exact Nat.le_trans (Nat.mod_le _ _) Nat.and_le_right
  · refine ⟨h1, h2, h3, h4, ?_, h6⟩
    show u32 (value &&& 0x1) ≤ 1
    exact Nat.le_trans (Nat.mod_le _ _) Nat.and_le_right
  · dsimp only
    apply timer_fold_in_range
    · intro t i _ ht
      split
      · exact ht
      · exact ht
    · exact ⟨h1, and_lt_16 _ _ h2, h3, h4, h5, h6⟩
  · refine ⟨h1, h2, ?_, h4, h5, h6⟩
    show u32 (value &&& 0xF) < 16
    exact Nat.lt_of_le_of_lt (Nat.le_trans (Nat.mod_le _ _) Nat.and_le_right) (by decide)
  · refine ⟨h1, h2, h3, ?_, h5, h6⟩
    show u32 (value &&& 0xF) < 16
    exact Nat.lt_of_le_of_lt (Nat.le_trans (Nat.mod_le _ _) Nat.and_le_right) (by decide)
  · exact h'

theorem timer_read_in_range (s : RP2040TimerState) (offset now : Nat)
    (h : timer_regs_in_range s) : timer_regs_in_range (rp2040_timer_read s offset now).2 := by
  unfold rp2040_timer_read
  split <;> exact h

theorem timer_alarm_cb_in_range (ptr : Int) (s : RP2040TimerState)
    (h : timer_regs_in_range s) : timer_regs_in_range (rp2040_timer_alarm_cb ptr s) := by
  obtain ⟨h1, h2, h3, h4, h5, h6⟩ := h
  rw [timer_alarm_cb_index]
  split
  · exact ⟨and_lt_16 _ _ h1, or_bit_lt_16 _ 0 h2 (by decide), h3, h4, h5, h6⟩
  · exact ⟨and_lt_16 _ _ h1, or_bit_lt_16 _ 0 h2 (by decide), h3, h4, h5, h6⟩

theorem timer_step_in_range (s : RP2040TimerState) (op : TimerOp)
    (h : timer_regs_in_range s) : timer_regs_in_range (timer_step s op) := by
  cases op with
  | read offset now => exact timer_read_in_range s offset now h
  | write offset value now => exact timer_write_in_range s offset value now h
  | callback k now =>
    unfold timer_step
    dsimp only
    split
    · split
      · split
        · exact h
        · exact h
      · exact h
    · exact h

theorem timer_in_range_of_reachable (s : RP2040TimerState) (h : TimerReachable s) :
    timer_regs_in_range s := by
  induction h with
  | reset s0 now =>
    have h0 : (0 : Nat) < 16 := by decide
    exact ⟨h0, h0, h0, h0, Nat.zero_le 1, Nat.zero_le 3⟩
  | step s op _ ih => exact timer_step_in_range s op ih

/-- C40: in every timer state reachable from reset through resets, register
reads, register writes of any value and clock callbacks, the armed register,
the raw interrupt status, INTE and INTF are below 16, so none of their bits
from bit 4 up is set, PAUSE is 0 or 1 and DBGPAUSE is at most 3. The same
bounds hold after any further run of operations, and would still hold if the
body of the callback were run on the device state itself. -/
theorem timer_registers_in_range (s : RP2040TimerState) (h : TimerReachable s) :
    s.armed < 16 ∧ s.intr < 16 ∧ s.inte < 16 ∧ s.intf < 16 ∧
    (s.pause = 0 ∨ s.pause = 1) ∧ s.dbgpause ≤ 3 ∧
    (∀ j, 4 ≤ j → s.armed.testBit j = false ∧ s.intr.testBit j = false ∧
      s.inte.testBit j = false ∧ s.intf.testBit j = false) ∧
    (∀ ops, timer_regs_in_range (timer_run s ops)) ∧
    (∀ ptr, timer_regs_in_range (rp2040_timer_alarm_cb ptr s)) := by
  obtain ⟨h1, h2, h3, h4, h5, h6⟩ := timer_in_range_of_reachable s h
  refine ⟨h1, h2, h3, h4, by omega, h6, fun j hj => ?_, fun ops => ?_,
    fun ptr => timer_alarm_cb_in_range ptr s ⟨h1, h2, h3, h4, h5, h6⟩⟩
  · exact ⟨testBit_high_of_lt_16 _ j h1 hj, testBit_high_of_lt_16 _ j h2 hj,
      testBit_high_of_lt_16 _ j h3 hj, testBit_high_of_lt_16 _ j h4 hj⟩
  · unfold timer_run
    have hs : timer_regs_in_range s := ⟨h1, h2, h3, h4, h5, h6⟩
    clear h h1 h2 h3 h4 h5 h6
    induction ops generalizing s with
    | nil => exact hs
    | cons op rest ih =>
      rw [List.foldl_cons]
      exact ih _ (timer_step_in_range s op hs)

theorem timer_registers_in_range_witness :
    (timer_step (timer_step (rp2040_timer_reset timer_zero 0) (.write INTE 0xFFFFFFFF 0))
      (.write ALARM0 0 5)).intr < 16 ∧
    (timer_step (timer_step (rp2040_timer_reset timer_zero 0) (.write INTE 0xFFFFFFFF 0))
      (.write ALARM0 0 5)).inte < 16 :=
  have h := timer_registers_in_range _
    (TimerReachable.step _ (.write ALARM0 0 5)
      (TimerReachable.step _ (.write INTE 0xFFFFFFFF 0) (TimerReachable.reset timer_zero 0)))
  ⟨h.2.1, h.2.2.1⟩

/-! ## Timer: the high-word write register -/

/-- C36: a write to TIMEHW has no effect, so the high word written is lost.
Whatever `h` is written to TIMEHW before `l` is written to TIMELW, the counter
read at the same instant is `l` reduced modulo 2^64; with h = 1 and l = 5 it is
5 and not 0x100000005. -/
theorem timer_high_word_write_ignored (s : RP2040TimerState) (h l now : Nat) :
    rp2040_timer_write s TIMEHW h now = s ∧
    rp2040_timer_get_count
      (rp2040_timer_write (rp2040_timer_write s TIMEHW h now) TIMELW l now) now = u64 l ∧
    rp2040_timer_get_count (timer_set_time 1 5 1000) 1000 = 5 ∧
    rp2040_timer_get_count (timer_set_time 1 5 1000) 1000 ≠ (1 <<< 32) ||| 5 ∧
    (rp2040_timer_read (timer_set_time 1 5 1000) TIMEHR 1000).1 = 0 := by
  have hw : rp2040_timer_write s TIMEHW h now = s := rfl
  refine ⟨hw, ?_, by decide, by decide, by decide⟩
  rw [hw]
  exact timer_count_after_rebase s l now

/-! ## GPIO: level conditions -/

/-- C35, as stated: the level-high bit is pending in every state in which
the last reported level is high, also after the guest has written 1 to it,
and is no longer pending once the pin has been reported low. It fails: the bit
is latched. With pin 0 a software-I/O pin whose level-high condition is selected in CTRL
and enabled for core 0, and the pin reported high, the level-high bit (bit 1
of INTR0) is pending; after the guest writes 1 to that bit it is clear although
the last reported level (bit 17 of STATUS) is still high, and after the pin is
reported low the bit is still pending and the core-0 line still high. -/
theorem gpio_level_condition_is_latched :
    (gpio_level_high_reported.ctrl 0 &&& 0x1F = FUNCSEL_SIO ∧
      ((gpio_level_high_reported.ctrl 0 >>> 28) &&& 0xF) &&& INT_LEVEL_HIGH ≠ 0 ∧
      gpio_level_high_reported.proc0_inte 0 = 0x2) ∧
    ((gpio_level_high_reported.status 0).testBit 17 = true ∧
      (gpio_level_high_reported.intr 0).testBit 1 = true) ∧
    (((rp2040_gpio_write gpio_level_high_reported INTR0 0x2).status 0).testBit 17 = true ∧
      ((rp2040_gpio_write gpio_level_high_reported INTR0 0x2).intr 0).testBit 1 = false ∧
      (rp2040_gpio_write gpio_level_high_reported INTR0 0x2).proc0_irq = false) ∧
    (((rp2040_gpio_set_input gpio_level_high_reported 0 0).status 0).testBit 17 = false ∧
      ((rp2040_gpio_set_input gpio_level_high_reported 0 0).intr 0).testBit 1 = true ∧
      (rp2040_gpio_set_input gpio_level_high_reported 0 0).proc0_irq = true) := by
  decide

/-! ## GPIO: the CTRL mask gates the recorded conditions -/

/-- The level bits of the raised conditions, and their range. -/
theorem gpio_int_status_levels (m old : Nat) (level : Int) :
    ((gpio_int_status m old level).testBit 0 = true ↔
      (m &&& INT_LEVEL_LOW ≠ 0 ∧ level = 0)) ∧
    ((gpio_int_status m old level).testBit 1 = true ↔
      (m &&& INT_LEVEL_HIGH ≠ 0 ∧ level ≠ 0)) ∧
    gpio_int_status m old level < 16 := by
  unfold gpio_int_status
  by_cases hl : level = 0 <;> by_cases ho : old = 0 <;>
    by_cases h0 : m &&& INT_LEVEL_LOW = 0 <;> by_cases h1 : m &&& INT_LEVEL_HIGH = 0 <;>
    by_cases h2 : m &&& INT_EDGE_LOW = 0 <;> by_cases h3 : m &&& INT_EDGE_HIGH = 0 <;>
    simp [hl, ho, h0, h1, h2, h3] <;> decide

/-- Every raised condition has its bit set in the mask. -/
theorem gpio_int_status_within_mask (m old : Nat) (level : Int) (e : Nat)
    (h : (gpio_int_status m old level).testBit e = true) : e < 4 ∧ m.testBit e = true := by
  have hlv := gpio_int_status_levels m old level
  have hed := gpio_int_status_edges m old level
  have he4 : e < 4 := by
    by_contra hge
    have := testBit_high_of_lt_16 _ e hlv.2.2 (Nat.not_lt.mp hge)
    rw [this] at h
    exact absurd h (by decide)
  refine ⟨he4, ?_⟩
  have hc : e = 0 ∨ e = 1 ∨ e = 2 ∨ e = 3 := by omega
  rcases hc with hc | hc | hc | hc <;> subst hc
  · exact (and_bit_ne_zero_iff m 0).mp (hlv.1.mp h).1
  · exact (and_bit_ne_zero_iff m 1).mp (hlv.2.1.mp h).1
  · exact (and_bit_ne_zero_iff m 2).mp (hed.2.mp h).1
  · exact (and_bit_ne_zero_iff m 3).mp (hed.1.mp h).1

/-- With an empty mask no condition is raised. -/
theorem gpio_int_status_zero_mask (old : Nat) (level : Int) :
    gpio_int_status 0 old level = 0 := by
  apply Nat.eq_of_testBit_eq
  intro e
  rw [Nat.zero_testBit]
  by_contra hne
  have h : (gpio_int_status 0 old level).testBit e = true := by
    cases hb : (gpio_int_status 0 old level).testBit e
    · exact absurd hb hne
    · rfl
  have := (gpio_int_status_within_mask 0 old level e h).2
  rw [Nat.zero_testBit] at this
  exact absurd this (by decide)

/-- The INTR registers left by `rp2040_gpio_set_input`, in every case. -/
theorem gpio_set_input_intr (s : RP2040GPIOState) (pin : Nat) (level : Int) :
    (rp2040_gpio_set_input s pin level).intr =
      if pin < GPIO_NUM_PINS ∧ s.ctrl pin &&& 0x1F = FUNCSEL_SIO then
        Function.update s.intr (pin / 8)
          (s.intr (pin / 8) |||
            (gpio_int_status ((s.ctrl pin >>> 28) &&& 0xF) ((s.status pin >>> 17) &&& 1) level
              <<< ((pin % 8) * 4)))
      else s.intr := by
  by_cases hp : pin < GPIO_NUM_PINS
  · by_cases hsio : s.ctrl pin &&& 0x1F = FUNCSEL_SIO
    · rw [if_pos ⟨hp, hsio⟩]
      exact (gpio_set_input_sio s pin level hp hsio).2
    · rw [if_neg (fun h => hsio h.2), gpio_set_input_not_sio s pin level hsio, if_pos hp]
      exact gpio_store_level_intr s pin level
  · rw [if_neg (fun h => hp h.1)]
    unfold rp2040_gpio_set_input
    rw [if_pos (Nat.not_lt.mp hp)]

/-- While the CTRL mask of a pin is empty, reports on the pin leave the INTR
registers alone. -/
theorem gpio_report_zero_mask (levels : List Int) (s : RP2040GPIOState) (pin : Nat)
    (hm : (s.ctrl pin >>> 28) &&& 0xF = 0) :
    (gpio_report_all s (levels.map (fun l => (pin, l)))).intr = s.intr := by
  induction levels generalizing s with
  | nil => rfl
  | cons l rest ih =>
    have hstep : gpio_report_all s ((l :: rest).map (fun l => (pin, l)))
        = gpio_report_all (rp2040_gpio_set_input s pin l) (rest.map (fun l => (pin, l))) := rfl
    have hc := (gpio_set_input_frame s pin l).1
    rw [hstep, ih _ (by rw [hc]; exact hm), gpio_set_input_intr, hm, gpio_int_status_zero_mask,
      Nat.zero_shiftLeft, Nat.or_zero, Function.update_eq_self]
    split <;> rfl

/-- C39: `rp2040_gpio_set_input` changes no INTR register but the one of the
pin, and a bit newly set there is bit e (e from 0 to 3: level-low, level-high,
edge-low, edge-high) of the 4-bit field of a software-I/O pin below 30 whose
CTRL register has bit 28 + e set. The INTR registers it leaves depend on the
STATUS, CTRL and INTR registers only, not on the enable or force registers of
either core. While bits 28..31 of the CTRL register of the pin are zero, a
report, and any run of reports on the pin, leaves the INTR registers as they
were. -/
theorem gpio_ctrl_mask_gates_pending (s : RP2040GPIOState) (pin : Nat) (level : Int) :
    (∀ q, q ≠ pin / 8 → (rp2040_gpio_set_input s pin level).intr q = s.intr q) ∧
    (∀ j, ((rp2040_gpio_set_input s pin level).intr (pin / 8)).testBit j = true →
      (s.intr (pin / 8)).testBit j = true ∨
      (pin < GPIO_NUM_PINS ∧ s.ctrl pin &&& 0x1F = FUNCSEL_SIO ∧
        ∃ e, e < 4 ∧ j = (pin % 8) * 4 + e ∧ (s.ctrl pin).testBit (28 + e) = true)) ∧
    (∀ t : RP2040GPIOState, t.status = s.status → t.ctrl = s.ctrl → t.intr = s.intr →
      (rp2040_gpio_set_input t pin level).intr = (rp2040_gpio_set_input s pin level).intr) ∧
    ((s.ctrl pin >>> 28) &&& 0xF = 0 →
      (rp2040_gpio_set_input s pin level).intr = s.intr ∧
      ∀ levels : List Int,
        (gpio_report_all s (levels.map (fun l => (pin, l)))).intr = s.intr) := by
  refine ⟨?_, ?_, ?_, ?_⟩
  · intro q hq
    rw [gpio_set_input_intr]
    split
    · exact Function.update_noteq hq _ _
    · rfl
  · intro j hj
    rw [gpio_set_input_intr] at hj
    by_cases hc : pin < GPIO_NUM_PINS ∧ s.ctrl pin &&& 0x1F = FUNCSEL_SIO
    · rw [if_pos hc, Function.update_same, Nat.testBit_or, Bool.or_eq_true] at hj
      rcases hj with hj | hj
      · exact Or.inl hj
      · right
        rw [Nat.testBit_shiftLeft, Bool.and_eq_true, decide_eq_true_iff] at hj
        obtain ⟨he4, hmask⟩ := gpio_int_status_within_mask _ _ _ _ hj.2
        refine ⟨hc.1, hc.2, j - (pin % 8) * 4, he4, by omega, ?_⟩
        rw [Nat.testBit_and, Bool.and_eq_true, Nat.testBit_shiftRight] at hmask
        exact hmask.1
    · rw [if_neg hc] at hj
      exact Or.inl hj
  · intro t h1 h2 h3
    rw [gpio_set_input_intr, gpio_set_input_intr, h1, h2, h3]
  · intro hm
    refine ⟨?_, fun levels => gpio_report_zero_mask levels s pin hm⟩
    rw [gpio_set_input_intr, hm, gpio_int_status_zero_mask, Nat.zero_shiftLeft, Nat.or_zero,
      Function.update_eq_self]
    split <;> rfl

theorem gpio_ctrl_mask_gates_pending_witness :
    ((rp2040_gpio_write (rp2040_gpio_reset gpio_zero) (GPIO_CTRL 0) 5).ctrl 0 >>> 28) &&& 0xF = 0 ∧
    (rp2040_gpio_set_input (rp2040_gpio_write (rp2040_gpio_reset gpio_zero) (GPIO_CTRL 0) 5)
      0 1).intr = (rp2040_gpio_write (rp2040_gpio_reset gpio_zero) (GPIO_CTRL 0) 5).intr :=
  have h : ((rp2040_gpio_write (rp2040_gpio_reset gpio_zero) (GPIO_CTRL 0) 5).ctrl 0 >>> 28)
      &&& 0xF = 0 := by decide
  ⟨h, ((gpio_ctrl_mask_gates_pending
    (rp2040_gpio_write (rp2040_gpio_reset gpio_zero) (GPIO_CTRL 0) 5) 0 1).2.2.2 h).1⟩

/-! ## UART: a receive event of any size -/

/-- The receive loop on a buffer that fits, followed by further bytes. -/
theorem uart_rx_loop_append (a c : List Nat) (s : RP2040UARTState)
    (h : s.rx_fifo_len + a.length ≤ 32) :
    uart_rx_loop s (a ++ c) = uart_rx_loop (uart_rx_loop s a) c := by
  induction a generalizing s with
  | nil => rfl
  | cons b rest ih =>
    have hlen : (b :: rest).length = rest.length + 1 := rfl
    rw [hlen] at h
    have hlt : s.rx_fifo_len < FIFO_SIZE := by
      show s.rx_fifo_len < 32
      omega
    have hcons : (b :: rest) ++ c = b :: (rest ++ c) := rfl
    rw [hcons]
    have h1 : uart_rx_loop s (b :: (rest ++ c))
        = uart_rx_loop
            { s with rx_fifo := Function.update s.rx_fifo s.rx_fifo_wr (b % 256),
                     rx_fifo_wr := u32 (s.rx_fifo_wr + 1) % FIFO_SIZE,
                     rx_fifo_len := s.rx_fifo_len + 1,
                     ris := s.ris ||| INT_RX } (rest ++ c) := by
      rw [uart_rx_loop, if_pos hlt]
    have h2 : uart_rx_loop s (b :: rest)
        = uart_rx_loop
            { s with rx_fifo := Function.update s.rx_fifo s.rx_fifo_wr (b % 256),
                     rx_fifo_wr := u32 (s.rx_fifo_wr + 1) % FIFO_SIZE,
                     rx_fifo_len := s.rx_fifo_len + 1,
                     ris := s.ris ||| INT_RX } rest := by
      rw [uart_rx_loop, if_pos hlt]
    rw [h1, h2]
    exact ih _ (by show s.rx_fifo_len + 1 + rest.length ≤ 32; omega)

/-- With no room left the receive loop stores nothing. -/
theorem uart_rx_loop_no_room (c : List Nat) (t : RP2040UARTState)
    (h : ¬ t.rx_fifo_len < 32) :
    (uart_rx_loop t c).rx_fifo = t.rx_fifo ∧
    (uart_rx_loop t c).rx_fifo_len = t.rx_fifo_len ∧
    (uart_rx_loop t c).rx_fifo_wr = t.rx_fifo_wr ∧
    (uart_rx_loop t c).rx_fifo_rd = t.rx_fifo_rd := by
  cases c with
  | nil => exact ⟨rfl, rfl, rfl, rfl⟩
  | cons b rest =>
    have hlt : ¬ t.rx_fifo_len < FIFO_SIZE := h
    rw [uart_rx_loop, if_neg hlt]
    exact ⟨rfl, rfl, rfl, rfl⟩

/-- The receive loop on any buffer: the first bytes, as many as there is
room for, are stored from the write cursor on, the others are dropped. -/
theorem uart_rx_loop_stored (buf : List Nat) (s : RP2040UARTState)
    (hl : s.rx_fifo_len ≤ 32) (hw : s.rx_fifo_wr < 32) :
    (uart_rx_loop s buf).rx_fifo_len = s.rx_fifo_len + min buf.length (32 - s.rx_fifo_len) ∧
    (uart_rx_loop s buf).rx_fifo_wr
      = (s.rx_fifo_wr + min buf.length (32 - s.rx_fifo_len)) % 32 ∧
    (uart_rx_loop s buf).rx_fifo_rd = s.rx_fifo_rd ∧
    (∀ i, i < buf.length → s.rx_fifo_len + i < 32 →
      (uart_rx_loop s buf).rx_fifo ((s.rx_fifo_wr + i) % 32) = buf.getD i 0 % 256) ∧
    (∀ j, (∀ i, i < buf.length → s.rx_fifo_len + i < 32 → j ≠ (s.rx_fifo_wr + i) % 32) →
      (uart_rx_loop s buf).rx_fifo j = s.rx_fifo j) := by
  obtain ⟨n, hn⟩ : ∃ n, n = min buf.length (32 - s.rx_fifo_len) := ⟨_, rfl⟩
  rw [← hn]
  have hsplit : buf = buf.take n ++ buf.drop n := (List.take_append_drop n buf).symm
  have hnle : n ≤ buf.length := by rw [hn]; exact Nat.min_le_left _ _
  have htl : (buf.take n).length = n := by
    rw [List.length_take]; exact Nat.min_eq_left hnle
  have hfit : s.rx_fifo_len + (buf.take n).length ≤ 32 := by
    rw [htl, hn]; omega
  obtain ⟨a1, a2, a3, a4, a5⟩ := uart_rx_loop_slots (buf.take n) s hfit hw
  rw [htl] at a1 a2 a4 a5
  have hloop : uart_rx_loop s buf = uart_rx_loop (uart_rx_loop s (buf.take n)) (buf.drop n) := by
    conv_lhs => rw [hsplit]
    exact uart_rx_loop_append _ _ s hfit
  have hfields : (uart_rx_loop s buf).rx_fifo = (uart_rx_loop s (buf.take n)).rx_fifo ∧
      (uart_rx_loop s buf).rx_fifo_len = (uart_rx_loop s (buf.take n)).rx_fifo_len ∧
      (uart_rx_loop s buf).rx_fifo_wr = (uart_rx_loop s (buf.take n)).rx_fifo_wr ∧
      (uart_rx_loop s buf).rx_fifo_rd = (uart_rx_loop s (buf.take n)).rx_fifo_rd := by
    rw [hloop]
    by_cases hall : n = buf.length
    · have hd : buf.drop n = [] := by
        rw [hall]; exact List.drop_length buf
      rw [hd]
      exact ⟨rfl, rfl, rfl, rfl⟩
    · apply uart_rx_loop_no_room
      rw [a1]
      omega
  obtain ⟨f1, f2, f3, f4⟩ := hfields
  have hiff : ∀ i, (i < buf.length ∧ s.rx_fifo_len + i < 32) ↔ i < n := by
    intro i; rw [hn]; omega
  refine ⟨by rw [f2, a1], by rw [f3, a2], by rw [f4, a3], ?_, ?_⟩
  · intro i hi1 hi2
    have hin : i < n := (hiff i).mp ⟨hi1, hi2⟩
    rw [f1, a4 i hin]
    have hget : (buf.take n).getD i 0 = buf.getD i 0 := by
      rw [List.getD_eq_getElem?_getD, List.getD_eq_getElem?_getD, List.getElem?_take_of_lt hin]
    rw [hget]
  · intro j hj
    rw [f1]
    apply a5
    intro i hin
    have := (hiff i).mpr hin
    exact hj i this.1 this.2

/-- C18: a receive event delivered while UARTEN or RXE is clear leaves the
whole UART state unchanged. With both bits set, from a state reachable from
reset and for a buffer of any size, every byte that arrives while the FIFO
holds fewer than 32 bytes (byte `i` with `rx_fifo_len + i < 32`) is stored at
the write cursor as it then stands, `i` slots after the initial cursor modulo
32; no other slot and not the read cursor is touched; and the length and the
write cursor advance by one per stored byte, that is by the smaller of the
buffer size and the room left. In particular one byte delivered to a FIFO with
fewer than 32 bytes is stored at the write cursor and the length grows by
one. -/
theorem uart_rx_frame_and_store (s : RP2040UARTState) (buf : List Nat) :
    ((s.cr &&& CR_UARTEN = 0 ∨ s.cr &&& CR_RXE = 0) → rp2040_uart_rx s buf = s) ∧
    (UartReachable s → s.cr &&& CR_UARTEN ≠ 0 → s.cr &&& CR_RXE ≠ 0 →
      (rp2040_uart_rx s buf).rx_fifo_len
        = s.rx_fifo_len + min buf.length (32 - s.rx_fifo_len) ∧
      (rp2040_uart_rx s buf).rx_fifo_wr
        = (s.rx_fifo_wr + min buf.length (32 - s.rx_fifo_len)) % 32 ∧
      (rp2040_uart_rx s buf).rx_fifo_rd = s.rx_fifo_rd ∧
      (∀ i, i < buf.length → s.rx_fifo_len + i < 32 →
        (rp2040_uart_rx s buf).rx_fifo ((s.rx_fifo_wr + i) % 32) = buf.getD i 0 % 256) ∧
      (∀ j, (∀ i, i < buf.length → s.rx_fifo_len + i < 32 → j ≠ (s.rx_fifo_wr + i) % 32) →
        (rp2040_uart_rx s buf).rx_fifo j = s.rx_fifo j) ∧
      (s.rx_fifo_len + buf.length ≤ 32 →
        (rp2040_uart_rx s buf).rx_fifo_len = s.rx_fifo_len + buf.length ∧
        (rp2040_uart_rx s buf).rx_fifo_wr = (s.rx_fifo_wr + buf.length) % 32) ∧
      (∀ b, s.rx_fifo_len < 32 →
        (rp2040_uart_rx s [b]).rx_fifo s.rx_fifo_wr = b % 256 ∧
        (rp2040_uart_rx s [b]).rx_fifo_len = s.rx_fifo_len + 1 ∧
        (rp2040_uart_rx s [b]).rx_fifo_wr = (s.rx_fifo_wr + 1) % 32)) := by
  constructor
  · intro hdis
    unfold rp2040_uart_rx
    rw [if_pos hdis]
  · intro hreach hen hrx
    have hinv := uartInv_of_reachable s hreach
    have hl := hinv.len_le
    have hw : s.rx_fifo_wr < 32 := by
      rw [hinv.wr_eq]; exact Nat.mod_lt _ (by decide)
    have hfield : ∀ l : List Nat,
        (rp2040_uart_rx s l).rx_fifo = (uart_rx_loop s l).rx_fifo ∧
        (rp2040_uart_rx s l).rx_fifo_len = (uart_rx_loop s l).rx_fifo_len ∧
        (rp2040_uart_rx s l).rx_fifo_wr = (uart_rx_loop s l).rx_fifo_wr ∧
        (rp2040_uart_rx s l).rx_fifo_rd = (uart_rx_loop s l).rx_fifo_rd := by
      intro l
      rw [uart_rx_enabled s l hen hrx]
      exact ⟨rfl, rfl, rfl, rfl⟩
    obtain ⟨g1, g2, g3, g4⟩ := hfield buf
    obtain ⟨k1, k2, k3, k4, k5⟩ := uart_rx_loop_stored buf s hl hw
    rw [g1, g2, g3, g4]
    refine ⟨k1, k2, k3, k4, k5, ?_, ?_⟩
    · intro hfit
      have hmin : min buf.length (32 - s.rx_fifo_len) = buf.length := by omega
      rw [k1, k2, hmin]
      exact ⟨rfl, rfl⟩
    · intro b hlt
      obtain ⟨e1, e2, e3, _⟩ := hfield [b]
      obtain ⟨m1, m2, _, m4, _⟩ := uart_rx_loop_stored [b] s hl hw
      have hone : min ([b] : List Nat).length (32 - s.rx_fifo_len) = 1 := by
        show min 1 (32 - s.rx_fifo_len) = 1
        omega
      rw [hone] at m1 m2
      rw [e1, e2, e3]
      refine ⟨?_, m1, m2⟩
      have h0 := m4 0 (Nat.zero_lt_succ 0) (by omega)
      have hidx : (s.rx_fifo_wr + 0) % 32 = s.rx_fifo_wr := by omega
      rw [hidx] at h0
      exact h0

theorem uart_rx_frame_and_store_witness :
    (rp2040_uart_rx uart_one_free_state [0x41, 0x42]).rx_fifo_len
      = uart_one_free_state.rx_fifo_len
        + min ([0x41, 0x42] : List Nat).length (32 - uart_one_free_state.rx_fifo_len) ∧
    (rp2040_uart_rx uart_one_free_state [0x41, 0x42]).rx_fifo
        ((uart_one_free_state.rx_fifo_wr + 0) % 32)
      = ([0x41, 0x42] : List Nat).getD 0 0 % 256 := by
  have h := (uart_rx_frame_and_store uart_one_free_state [0x41, 0x42]).2
    (UartReachable.rx _ _ (UartReachable.write _ _ _ (UartReachable.reset uart_zero)))
    (by decide) (by decide)
  exact ⟨h.1, h.2.2.2.1 0 (by decide) (by decide)⟩

/-! ## GPIO: level conditions are latched -/

/-- The level bits of the INTR field of a software-I/O pin after a report. -/
theorem gpio_set_input_level_bits (s : RP2040GPIOState) (pin : Nat) (level : Int)
    (hp : pin < GPIO_NUM_PINS) (hsio : s.ctrl pin &&& 0x1F = FUNCSEL_SIO) :
    (((rp2040_gpio_set_input s pin level).intr (pin / 8)).testBit ((pin % 8) * 4 + 1) = true ↔
      ((s.intr (pin / 8)).testBit ((pin % 8) * 4 + 1) = true ∨
        (((s.ctrl pin >>> 28) &&& 0xF) &&& INT_LEVEL_HIGH ≠ 0 ∧ level ≠ 0))) ∧
    (((rp2040_gpio_set_input s pin level).intr (pin / 8)).testBit ((pin % 8) * 4 + 0) = true ↔
      ((s.intr (pin / 8)).testBit ((pin % 8) * 4 + 0) = true ∨
        (((s.ctrl pin >>> 28) &&& 0xF) &&& INT_LEVEL_LOW ≠ 0 ∧ level = 0))) := by
  have hi := (gpio_set_input_sio s pin level hp hsio).2
  have hl := gpio_int_status_levels ((s.ctrl pin >>> 28) &&& 0xF) ((s.status pin >>> 17) &&& 1)
    level
  constructor
  · rw [hi, Function.update_same, testBit_or_field, Bool.or_eq_true, hl.2.1]
  · rw [hi, Function.update_same, testBit_or_field, Bool.or_eq_true, hl.1]

/-- C35, amended: a level condition is recorded at each report and latched
until the guest clears it. For a software-I/O pin below 30, after a report the
level-high pending bit (bit 1 of the 4-bit INTR field of the pin) is set
exactly when it was set before or the level-high mask bit of CTRL (bit 29) is
set and the reported level is high: every report of a high level sets it and a
report of a low level leaves it as it was. A write to the INTR register of the
pin clears the bit when the written bit is 1, whatever the level, and leaves
the stored level alone; a later report of a high level sets it again.
Symmetrically for the level-low bit (bit 0 of the field, CTRL bit 28, reports
of a low level). -/
theorem gpio_level_bits_latched (s : RP2040GPIOState) (pin : Nat) (level : Int)
    (hp : pin < GPIO_NUM_PINS) (hsio : s.ctrl pin &&& 0x1F = FUNCSEL_SIO) :
    (((rp2040_gpio_set_input s pin level).intr (pin / 8)).testBit ((pin % 8) * 4 + 1) = true ↔
      ((s.intr (pin / 8)).testBit ((pin % 8) * 4 + 1) = true ∨
        (((s.ctrl pin >>> 28) &&& 0xF) &&& INT_LEVEL_HIGH ≠ 0 ∧ level ≠ 0))) ∧
    (((rp2040_gpio_set_input s pin level).intr (pin / 8)).testBit ((pin % 8) * 4 + 0) = true ↔
      ((s.intr (pin / 8)).testBit ((pin % 8) * 4 + 0) = true ∨
        (((s.ctrl pin >>> 28) &&& 0xF) &&& INT_LEVEL_LOW ≠ 0 ∧ level = 0))) ∧
    (∀ v : Nat,
      ((rp2040_gpio_write (rp2040_gpio_set_input s pin level) (INTR0 + 4 * (pin / 8)) v).intr
          (pin / 8)).testBit ((pin % 8) * 4 + 1)
        = (((rp2040_gpio_set_input s pin level).intr (pin / 8)).testBit ((pin % 8) * 4 + 1)
            && !v.testBit ((pin % 8) * 4 + 1)) ∧
      ((rp2040_gpio_write (rp2040_gpio_set_input s pin level) (INTR0 + 4 * (pin / 8)) v).intr
          (pin / 8)).testBit ((pin % 8) * 4 + 0)
        = (((rp2040_gpio_set_input s pin level).intr (pin / 8)).testBit ((pin % 8) * 4 + 0)
            && !v.testBit ((pin % 8) * 4 + 0)) ∧
      (rp2040_gpio_write (rp2040_gpio_set_input s pin level) (INTR0 + 4 * (pin / 8)) v).status
        = (rp2040_gpio_set_input s pin level).status ∧
      (∀ level2 : Int, ((s.ctrl pin >>> 28) &&& 0xF) &&& INT_LEVEL_HIGH ≠ 0 → level2 ≠ 0 →
        ((rp2040_gpio_set_input
            (rp2040_gpio_write (rp2040_gpio_set_input s pin level) (INTR0 + 4 * (pin / 8)) v)
            pin level2).intr (pin / 8)).testBit ((pin % 8) * 4 + 1) = true) ∧
      (∀ level2 : Int, ((s.ctrl pin >>> 28) &&& 0xF) &&& INT_LEVEL_LOW ≠ 0 → level2 = 0 →
        ((rp2040_gpio_set_input
            (rp2040_gpio_write (rp2040_gpio_set_input s pin level) (INTR0 + 4 * (pin / 8)) v)
            pin level2).intr (pin / 8)).testBit ((pin % 8) * 4 + 0) = true)) := by
  have hp30 : pin < 30 := hp
  have hr : pin / 8 < 4 := by omega
  obtain ⟨b1, b0⟩ := gpio_set_input_level_bits s pin level hp hsio
  refine ⟨b1, b0, fun v => ?_⟩
  have hw := gpio_write_intr_eq (rp2040_gpio_set_input s pin level) (pin / 8) v hr
  have hwi : (rp2040_gpio_write (rp2040_gpio_set_input s pin level) (INTR0 + 4 * (pin / 8))
      v).intr (pin / 8) = (rp2040_gpio_set_input s pin level).intr (pin / 8) &&& not32 v := by
    rw [hw]
    exact Function.update_same _ _ _
  have hws : (rp2040_gpio_write (rp2040_gpio_set_input s pin level) (INTR0 + 4 * (pin / 8))
      v).status = (rp2040_gpio_set_input s pin level).status := by
    rw [hw]; rfl
  have hwc : (rp2040_gpio_write (rp2040_gpio_set_input s pin level) (INTR0 + 4 * (pin / 8))
      v).ctrl = s.ctrl := by
    rw [hw]
    exact (gpio_set_input_frame s pin level).1
  have hsio2 : (rp2040_gpio_write (rp2040_gpio_set_input s pin level) (INTR0 + 4 * (pin / 8))
      v).ctrl pin &&& 0x1F = FUNCSEL_SIO := by
    rw [hwc]; exact hsio
  have hb1 : (pin % 8) * 4 + 1 < 32 := by omega
  have hb0 : (pin % 8) * 4 + 0 < 32 := by omega
  refine ⟨?_, ?_, hws, ?_, ?_⟩
  · rw [hwi, Nat.testBit_and, testBit_not32, decide_eq_true hb1, Bool.true_and]
  · rw [hwi, Nat.testBit_and, testBit_not32, decide_eq_true hb0, Bool.true_and]
  · intro level2 hm hl2
    have h := (gpio_set_input_level_bits _ pin level2 hp hsio2).1
    rw [hwc] at h
    exact h.mpr (Or.inr ⟨hm, hl2⟩)
  · intro level2 hm hl2
    have h := (gpio_set_input_level_bits _ pin level2 hp hsio2).2
    rw [hwc] at h
    exact h.mpr (Or.inr ⟨hm, hl2⟩)

theorem gpio_level_bits_latched_witness :
    gpio_level_high_reported.ctrl 0 &&& 0x1F = FUNCSEL_SIO ∧
    ((rp2040_gpio_write (rp2040_gpio_set_input gpio_level_high_reported 0 1)
        (INTR0 + 4 * (0 / 8)) 0x2).intr (0 / 8)).testBit ((0 % 8) * 4 + 1)
      = (((rp2040_gpio_set_input gpio_level_high_reported 0 1).intr (0 / 8)).testBit
          ((0 % 8) * 4 + 1) && !(0x2 : Nat).testBit ((0 % 8) * 4 + 1)) :=
  have h : gpio_level_high_reported.ctrl 0 &&& 0x1F = FUNCSEL_SIO := by decide
  ⟨h, ((gpio_level_bits_latched gpio_level_high_reported 0 1 (by decide) h).2.2 0x2).1⟩

/-! ## GPIO: offsets of the per-pin block that are no register -/

/-- C29, at the failing input: in the per-pin block of the GPIO (offsets
below 0xF0) the registers are STATUS at 8 * pin and CTRL at 8 * pin + 4, yet
every offset of the block that is not a multiple of 8 is decoded as the CTRL
register of pin offset / 8. Offsets 0x05 and 0x0E are no register; right after
reset the read at 0x05 returns 31, the CTRL register of pin 0, and not 0, and
the write of 0 at 0x0E replaces the CTRL register of pin 1, which held 31, by
0, so the state is changed. -/
theorem gpio_reserved_offset_in_pin_block_decoded :
    (∀ pin, GPIO_STATUS pin ≠ 0x05 ∧ GPIO_CTRL pin ≠ 0x05 ∧
      GPIO_STATUS pin ≠ 0x0E ∧ GPIO_CTRL pin ≠ 0x0E) ∧
    (∀ (s : RP2040GPIOState) (offset : Nat), offset < 0xF0 → offset &&& 7 ≠ 0 →
      rp2040_gpio_read s offset = (s.ctrl (offset / 8), s)) ∧
    (∀ (s : RP2040GPIOState) (offset value : Nat), offset < 0xF0 → offset &&& 7 ≠ 0 →
      (rp2040_gpio_write s offset value).ctrl (offset / 8) = u32 value) ∧
    (rp2040_gpio_read (rp2040_gpio_reset gpio_zero) 0x05).1 = 31 ∧
    (rp2040_gpio_reset gpio_zero).ctrl 1 = 31 ∧
    (rp2040_gpio_write (rp2040_gpio_reset gpio_zero) 0x0E 0).ctrl 1 = 0 ∧
    rp2040_gpio_write (rp2040_gpio_reset gpio_zero) 0x0E 0 ≠ rp2040_gpio_reset gpio_zero := by
  have hw : (rp2040_gpio_write (rp2040_gpio_reset gpio_zero) 0x0E 0).ctrl 1 = 0 := by decide
  have hr : (rp2040_gpio_reset gpio_zero).ctrl 1 = 31 := by decide
  refine ⟨?_, ?_, ?_, by decide, hr, hw, ?_⟩
  · intro pin
    unfold GPIO_STATUS GPIO_CTRL
    omega
  · intro s offset hlt h7
    have hpin : offset / 8 < GPIO_NUM_PINS := by
      show offset / 8 < 30
      omega
    unfold rp2040_gpio_read
    rw [if_pos hlt]
    dsimp only
    rw [if_pos hpin, if_neg h7]
  · intro s offset value hlt h7
    have hpin : offset / 8 < GPIO_NUM_PINS := by
      show offset / 8 < 30
      omega
    unfold rp2040_gpio_write
    rw [if_pos hlt]
    dsimp only
    rw [if_pos hpin, if_neg h7]
    split
    · exact Function.update_same _ _ _
    · exact Function.update_same _ _ _
  · intro heq
    have := congrArg (fun t : RP2040GPIOState => t.ctrl 1) heq
    dsimp only at this
    rw [hw, hr] at this
    exact absurd this (by decide)

end Rp2040
